import Mathlib

/-! CSocketHelper: a shallow embedding of `CSocketHelper.c`.

The C file talks to the operating system through libc.  Every libc call the
source makes is embedded as a small function on a `World` (the descriptor
table, the SIGPIPE disposition, `errno`, and the trace of calls issued so
far); what the operating system answers is read from an `Env`.  The three
functions of the source, `csocket_set_block`, `csocket_connect` and
`csocket_bytes_available`, are then translated statement by statement.

The `while (1)` loop of `csocket_connect` need not terminate (a timeout of
zero or less waits for ever), so the loop takes a bound on the number of
iterations and reports `Run.running` when the bound is used up.
-/

namespace CSocketHelper

/-! ## Header constants and libc data -/

/-- Constants and pure helpers that come from the system headers, which are
not part of the repository.  They are parameters of the embedding. -/
structure Hdr where
  O_NONBLOCK : Int
  EINTR : Int
  ECANCELED : Int
  htons : Int → Int

/-- Fields of `struct hostent` that the source reads. -/
structure HostEnt where
  h_addrtype : Int
  h_length : Nat
  h_addr : List Nat
  deriving DecidableEq, Repr

/-- Fields of `struct sockaddr_in` that the source writes. -/
structure SockAddr where
  sin_family : Int
  sin_port : Int
  sin_addr : List Nat
  deriving DecidableEq, Repr

/-- One libc call, as recorded in the trace. -/
inductive Event where
  | gethostbyname (host : String) (found : Bool)
  | socket (domain : Int) (fd : Int)
  | fcntlGetfl (fd : Int)
  | fcntlSetfl (fd : Int) (flags : Int)
  | connect (fd : Int) (sa : SockAddr) (result : Int)
  | readCancel (value : Int)
  | select (nfds : Int) (fd : Int) (tv_sec : Int) (tv_usec : Int) (retval : Int)
  | getsockopt (fd : Int) (error : Int)
  | close (fd : Int)
  | signalIgnore
  | ioctlFionread (fd : Int)
  deriving DecidableEq, Repr

/-- The part of the process state the source can change or observe. -/
structure World where
  /-- Open descriptors with their file status flags; `none` is a descriptor
  that is not open. -/
  fdflags : Int → Option Int
  /-- Whether the disposition of SIGPIPE is SIG_IGN. -/
  sigpipeIgnored : Bool
  /-- The value of `errno` as last written by `select` or by the source. -/
  errno : Int
  /-- The libc calls issued so far, oldest first. -/
  trace : List Event

/-- What `select` answers: its return value and the `errno` it stores when
that value is negative. -/
structure WaitResult where
  retval : Int
  err : Int
  deriving DecidableEq, Repr

/-- The answers of the operating system during one call of `csocket_connect`. -/
structure Env where
  /-- The result of `gethostbyname`; `none` is NULL. -/
  resolve : String → Option HostEnt
  /-- The result of `socket`. -/
  sockfd : Int
  /-- The file status flags of a freshly created socket. -/
  sockFlags : Int
  /-- The result of `connect`. -/
  connectResult : Int
  /-- The answer of the i-th call of `select` (counting from 0). -/
  waits : Nat → WaitResult
  /-- The value of `error` after `getsockopt(SO_ERROR)`: the pending socket
  error, or the initial 0 when the call itself fails. -/
  soError : Int

/-- Wrap-around of a mathematical integer into the range of a 32-bit `int`. -/
def wrapInt32 (x : Int) : Int :=
  (x + 2147483648) % 4294967296 - 2147483648

/-! ## libc calls -/

def World.log (w : World) (e : Event) : World :=
  { w with trace := w.trace ++ [e] }

/-- The call `fcntl(fd, F_GETFL, 0)`: the status flags, or -1 when `fd` is not open. -/
def fcntl_getfl (fd : Int) (w : World) : Int × World :=
  (match w.fdflags fd with
    | some f => f
    | none => -1,
   w.log (.fcntlGetfl fd))

/-- The call `fcntl(fd, F_SETFL, flags)`: replaces the status flags of an open
descriptor and does nothing to one that is not open. -/
def fcntl_setfl (fd : Int) (flags : Int) (w : World) : World :=
  match w.fdflags fd with
  | some _ =>
    { w with
      fdflags := fun d => if d = fd then some flags else w.fdflags d
      trace := w.trace ++ [.fcntlSetfl fd flags] }
  | none => w.log (.fcntlSetfl fd flags)

/-- The call `socket(domain, SOCK_STREAM, 0)`: a non-negative result is a newly opened
descriptor. -/
def os_socket (env : Env) (domain : Int) (w : World) : Int × World :=
  (env.sockfd,
   if 0 ≤ env.sockfd then
     { w with
       fdflags := fun d => if d = env.sockfd then some env.sockFlags else w.fdflags d
       trace := w.trace ++ [.socket domain env.sockfd] }
   else w.log (.socket domain env.sockfd))

/-- The call `connect(fd, &sa, sizeof(sa))`. -/
def os_connect (env : Env) (fd : Int) (sa : SockAddr) (w : World) : Int × World :=
  (env.connectResult, w.log (.connect fd sa env.connectResult))

/-- The call `select(nfds, NULL, &fdwrite, NULL, &tv)` with `fd` the only member of
`fdwrite`; a negative result stores `errno`.  The source builds `fdwrite` with
`FD_SET(fd, &fdwrite)` (line 76), which C defines only for `0 ≤ fd < FD_SETSIZE`:
this function describes the call for such a descriptor, and what it gives for
any other value of `fd` says nothing about the C program. -/
def os_select (r : WaitResult) (nfds fd tv_sec tv_usec : Int) (w : World) : Int × World :=
  (r.retval,
   if r.retval < 0 then
     { w with errno := r.err, trace := w.trace ++ [.select nfds fd tv_sec tv_usec r.retval] }
   else w.log (.select nfds fd tv_sec tv_usec r.retval))

/-- The call `getsockopt(fd, SOL_SOCKET, SO_ERROR, &error, &errlen)`; the result is the
value of `error` afterwards. -/
def os_getsockopt (env : Env) (fd : Int) (w : World) : Int × World :=
  (env.soError, w.log (.getsockopt fd env.soError))

/-- The call `close(fd)`. -/
def os_close (fd : Int) (w : World) : World :=
  { w with
    fdflags := fun d => if d = fd then none else w.fdflags d
    trace := w.trace ++ [.close fd] }

/-- The call `signal(SIGPIPE, SIG_IGN)`. -/
def os_signal_ignore (w : World) : World :=
  { w with sigpipeIgnored := true, trace := w.trace ++ [.signalIgnore] }

/-! ## `csocket_set_block` (source lines 19-32) -/

def csocket_set_block (K : Hdr) (socket : Int) (on' : Int) (w : World) : World :=
  let (flags, w) := fcntl_getfl socket w
  if on' = 0 then
    fcntl_setfl socket (Int.lor flags K.O_NONBLOCK) w
  else
    let flags := Int.land flags (Int.lnot K.O_NONBLOCK)
    fcntl_setfl socket flags w

/-! ## `csocket_connect` (source lines 34-119) -/

/-- The `return` statements of `csocket_connect`, named by what they report. -/
inductive Site where
  /-- Line 42, `return -1;` -/
  | resolutionFailed
  /-- Line 55, `return sockfd;` -/
  | immediate
  /-- Line 69, `return -5;` -/
  | cancelled
  /-- Line 88, `return -2;` -/
  | waitFailed
  /-- Line 100, `return -3;` -/
  | timedOut
  /-- Line 112, `return -4;` -/
  | connectError
  /-- Line 116, `return sockfd;` -/
  | ready
  deriving DecidableEq, Repr

/-- The effect of one pass through the body of the `while (1)` loop. -/
inductive Iter where
  /-- A `return` statement was reached. -/
  | ret (site : Site) (code : Int) (w : World)
  /-- A `continue` statement was reached, with this value of `remaining`. -/
  | again (remaining : Int) (w : World)

/-- The result of a bounded run of `csocket_connect`. -/
inductive Run where
  /-- The function returned `code` from the `return` statement `site`. -/
  | returned (site : Site) (code : Int) (w : World)
  /-- The loop is still running after the allowed number of iterations. -/
  | running (remaining : Int) (w : World)

/-- The test `cancelFlag && *cancelFlag != 0` of line 65 in iteration `i`.
A null pointer is `none` and is not read; otherwise the flag is read once. -/
def checkCancel (cancelFlag : Option (Nat → Int)) (i : Nat) (w : World) : Bool × World :=
  match cancelFlag with
  | none => (false, w)
  | some flag => (decide (flag i ≠ 0), w.log (.readCancel (flag i)))

/-- Lines 72-73: the duration of this iteration's wait. -/
def waitDuration (infiniteTimeout : Bool) (remaining : Int) : Int :=
  if !infiniteTimeout && decide (remaining > 0) && decide (remaining < 100) then remaining
  else 100

/-- Lines 65-117: one pass through the loop body, iteration number `i`. -/
def loopBody (K : Hdr) (env : Env) (cancelFlag : Option (Nat → Int)) (sockfd : Int)
    (infiniteTimeout : Bool) (i : Nat) (remaining : Int) (w : World) : Iter :=
  let (cancel, w) := checkCancel cancelFlag i w
  if cancel then
    let w := os_close sockfd w
    let w := { w with errno := K.ECANCELED }
    .ret .cancelled (-5) w
  else
    let waitDuration := waitDuration infiniteTimeout remaining
    let tv_sec := Int.tdiv waitDuration 1000
    let tv_usec := Int.tmod waitDuration 1000 * 1000
    let (retval, w) := os_select (env.waits i) (wrapInt32 (sockfd + 1)) sockfd tv_sec tv_usec w
    if retval < 0 then
      if w.errno = K.EINTR then
        .again remaining w
      else
        let w := os_close sockfd w
        .ret .waitFailed (-2) w
    else if retval = 0 then
      if infiniteTimeout then
        .again remaining w
      else
        let remaining := wrapInt32 (remaining - waitDuration)
        if remaining ≤ 0 then
          let w := os_close sockfd w
          .ret .timedOut (-3) w
        else
          .again remaining w
    else
      let (error, w) := os_getsockopt env sockfd w
      if error ≠ 0 then
        let w := os_close sockfd w
        .ret .connectError (-4) w
      else
        let w := csocket_set_block K sockfd 1 w
        let w := os_signal_ignore w
        .ret .ready sockfd w

/-- Lines 63-118: the `while (1)` loop, cut off after `fuel` iterations. -/
def waitLoop (K : Hdr) (env : Env) (cancelFlag : Option (Nat → Int)) (sockfd : Int)
    (infiniteTimeout : Bool) : Nat → Nat → Int → World → Run
  | 0, _, remaining, w => .running remaining w
  | fuel + 1, i, remaining, w =>
    match loopBody K env cancelFlag sockfd infiniteTimeout i remaining w with
    | .ret site code w => .returned site code w
    | .again remaining w => waitLoop K env cancelFlag sockfd infiniteTimeout fuel (i + 1) remaining w

/-- Lines 34-119.  `fuel` bounds the number of loop iterations. -/
def csocket_connect (K : Hdr) (env : Env) (host : String) (port : Int)
    (timeoutMilliseconds : Int) (cancelFlag : Option (Nat → Int)) (fuel : Nat)
    (w : World) : Run :=
  let hp := env.resolve host
  let w := w.log (.gethostbyname host hp.isSome)
  match hp with
  | none => .returned .resolutionFailed (-1) w
  | some hp =>
    let sa : SockAddr :=
      { sin_addr := hp.h_addr.take hp.h_length
        sin_family := hp.h_addrtype
        sin_port := K.htons port }
    let (sockfd, w) := os_socket env hp.h_addrtype w
    let w := csocket_set_block K sockfd 0 w
    let (connectResult, w) := os_connect env sockfd sa w
    if connectResult = 0 then
      let w := csocket_set_block K sockfd 1 w
      let w := os_signal_ignore w
      .returned .immediate sockfd w
    else
      let remaining := timeoutMilliseconds
      let infiniteTimeout := decide (timeoutMilliseconds ≤ 0)
      waitLoop K env cancelFlag sockfd infiniteTimeout fuel 0 remaining w

/-! ## `csocket_bytes_available` (source lines 121-126) -/

/-- The call `ioctl(fd, FIONREAD, &count)`: the call's result and the value of `count`
afterwards, both taken from the operating system's answer. -/
def os_ioctl_fionread (answer : Int × Int) (fd : Int) (w : World) : (Int × Int) × World :=
  (answer, w.log (.ioctlFionread fd))

def csocket_bytes_available (answer : Int × Int) (socketfd : Int) (w : World) : Int × World :=
  let ((callResult, count), w) := os_ioctl_fionread answer socketfd w
  (if callResult < 0 then callResult else count, w)

/-! ## `csocket_close` (source lines 128-131) -/

/-- The function `csocket_close`: it returns what `close` returns, here `result`. -/
def csocket_close (result : Int) (socketfd : Int) (w : World) : Int × World :=
  (result, os_close socketfd w)

/-! ## Observations on runs and traces -/

/-- The `return` statement a run ended at, if it ended. -/
def Run.site? : Run → Option Site
  | .returned site _ _ => some site
  | .running _ _ => none

/-- The value a run returned, if it returned. -/
def Run.code? : Run → Option Int
  | .returned _ code _ => some code
  | .running _ _ => none

/-- The world a run ended in, or has reached so far. -/
def Run.world : Run → World
  | .returned _ _ w => w
  | .running _ w => w

/-- The value of `remaining` of a run that is still in the loop. -/
def Run.remaining? : Run → Option Int
  | .returned _ _ _ => none
  | .running remaining _ => some remaining

/-- The calls a function issued when it took the world from `w0` to `w`. -/
def issued (w0 w : World) : List Event :=
  w.trace.drop w0.trace.length

def Event.isClose : Event → Bool
  | .close _ => true
  | _ => false

def Event.isSelect : Event → Bool
  | .select _ _ _ _ _ => true
  | _ => false

/-- The duration in milliseconds that the `timeval` of a `select` call encodes. -/
def Event.waitMs : Event → Option Int
  | .select _ _ tv_sec tv_usec _ => some (tv_sec * 1000 + tv_usec / 1000)
  | _ => none

/-- The duration in milliseconds of a `select` call that timed out. -/
def Event.timedOutMs : Event → Option Int
  | .select _ _ tv_sec tv_usec retval =>
    if retval = 0 then some (tv_sec * 1000 + tv_usec / 1000) else none
  | _ => none

/-- The durations of the waits in a trace, in order. -/
def waitSlices (tr : List Event) : List Int :=
  tr.filterMap Event.waitMs

/-- The durations of the waits in a trace that timed out, in order. -/
def timedOutSlices (tr : List Event) : List Int :=
  tr.filterMap Event.timedOutMs

/-- The cancel flag is observed set at its i-th check: the pointer is not
null and the i-th read gives a non-zero value. -/
def cancelSeen (cancelFlag : Option (Nat → Int)) (i : Nat) : Bool :=
  match cancelFlag with
  | none => false
  | some flag => decide (flag i ≠ 0)

/-- The calls the loop issues on an iteration that continues: reads of the
cancel flag and `select`. -/
def Event.isPoll : Event → Bool
  | .readCancel _ => true
  | .select _ _ _ _ _ => true
  | _ => false

def Event.isReadCancel : Event → Bool
  | .readCancel _ => true
  | _ => false

/-- The flag word written by `csocket_set_block`. -/
def setBlockFlags (K : Hdr) (on' : Int) (flags : Int) : Int :=
  if on' = 0 then Int.lor flags K.O_NONBLOCK else Int.land flags (Int.lnot K.O_NONBLOCK)

/-- The reads of the cancel flag that the check of iteration `i` issues. -/
def cancelReads (cancelFlag : Option (Nat → Int)) (i : Nat) : List Event :=
  match cancelFlag with
  | none => []
  | some flag => [.readCancel (flag i)]

/-- The world after the check of the cancel flag in iteration `i`. -/
def afterCheck (cancelFlag : Option (Nat → Int)) (i : Nat) (w : World) : World :=
  (checkCancel cancelFlag i w).2

/-- The world after the `select` call of iteration `i`. -/
def afterSelect (env : Env) (cancelFlag : Option (Nat → Int)) (sockfd : Int)
    (infiniteTimeout : Bool) (i : Nat) (remaining : Int) (w : World) : World :=
  (os_select (env.waits i) (wrapInt32 (sockfd + 1)) sockfd
    (Int.tdiv (waitDuration infiniteTimeout remaining) 1000)
    (Int.tmod (waitDuration infiniteTimeout remaining) 1000 * 1000)
    (afterCheck cancelFlag i w)).2

/-- The address `csocket_connect` builds from the resolved host (lines 45-47). -/
def sockAddrOf (K : Hdr) (hp : HostEnt) (port : Int) : SockAddr :=
  { sin_addr := hp.h_addr.take hp.h_length
    sin_family := hp.h_addrtype
    sin_port := K.htons port }

/-- The world after line 50 of `csocket_connect`, when the host resolved to `hp`. -/
def afterConnect (K : Hdr) (env : Env) (host : String) (port : Int) (hp : HostEnt)
    (w : World) : World :=
  (os_connect env env.sockfd (sockAddrOf K hp port)
    (csocket_set_block K env.sockfd 0
      (os_socket env hp.h_addrtype (w.log (.gethostbyname host true))).2)).2

/-- The calls `csocket_connect` issues up to and including `connect` (lines
39-50), when the host resolved to `hp`. -/
def prologue (K : Hdr) (env : Env) (host : String) (port : Int) (hp : HostEnt)
    (w : World) : List Event :=
  [.gethostbyname host true, .socket hp.h_addrtype env.sockfd, .fcntlGetfl env.sockfd,
    .fcntlSetfl env.sockfd (setBlockFlags K 0
      (fcntl_getfl env.sockfd (os_socket env hp.h_addrtype (w.log (.gethostbyname host true))).2).1),
    .connect env.sockfd (sockAddrOf K hp port) env.connectResult]

/-- The list `es` repeated `n` times. -/
def repeatEvents (es : List Event) : Nat → List Event
  | 0 => []
  | n + 1 => es ++ repeatEvents es n

/-- The read of the cancel flag in an iteration that finds it unset: none for
a null pointer, one read of 0 otherwise. -/
def unseenReads (cancelFlag : Option (Nat → Int)) : List Event :=
  match cancelFlag with
  | none => []
  | some _ => [.readCancel 0]

/-- The calls of one iteration in which the flag is unset and a 100 ms wait
times out. -/
def idlePoll (cancelFlag : Option (Nat → Int)) (sockfd : Int) : List Event :=
  unseenReads cancelFlag ++ [.select (wrapInt32 (sockfd + 1)) sockfd 0 100000 0]

/-- The sequence of wait results `waits` with `x` inserted at position `j`. -/
def insertWait (waits : Nat → WaitResult) (j : Nat) (x : WaitResult) : Nat → WaitResult :=
  fun i => if i < j then waits i else if i = j then x else waits (i - 1)

/-- The sequence `waits` after the insertions `ins`, made one after the other. -/
def insertWaits (ins : List (Nat × WaitResult)) (waits : Nat → WaitResult) : Nat → WaitResult :=
  ins.foldl (fun s p => insertWait s p.1 p.2) waits

/-- The environment `env` with the wait results replaced. -/
def Env.withWaits (env : Env) (waits : Nat → WaitResult) : Env :=
  { env with waits := waits }

/-- Two worlds agree on the descriptor table, on the SIGPIPE disposition and on
the durations of the waits that timed out (what is charged to the budget). -/
def World.sim (w1 w2 : World) : Prop :=
  w1.fdflags = w2.fdflags ∧ w1.sigpipeIgnored = w2.sigpipeIgnored ∧
    timedOutSlices w1.trace = timedOutSlices w2.trace

/-- Two passes through the loop body end the same way, in worlds that agree. -/
def IterSim : Iter → Iter → Prop
  | .ret s c a, .ret s' c' b => s = s' ∧ c = c' ∧ a.sim b
  | .again r a, .again r' b => r = r' ∧ a.sim b
  | _, _ => False

/-- Two runs end the same way, in worlds that agree. -/
def RunSim : Run → Run → Prop
  | .returned s c a, .returned s' c' b => s = s' ∧ c = c' ∧ a.sim b
  | .running r a, .running r' b => r = r' ∧ a.sim b
  | _, _ => False

/-- The number of 100 ms slices needed to cover `t` milliseconds. -/
def slicesNeeded (t : Int) : Nat :=
  ((t + 99) / 100).toNat

/-- The `select` call of iteration `i` as it appears in the trace (lines 72-80). -/
def selectEvent (env : Env) (sockfd : Int) (infiniteTimeout : Bool) (i : Nat)
    (remaining : Int) : Event :=
  .select (wrapInt32 (sockfd + 1)) sockfd
    (Int.tdiv (waitDuration infiniteTimeout remaining) 1000)
    (Int.tmod (waitDuration infiniteTimeout remaining) 1000 * 1000) (env.waits i).retval

/-! ### Sample inputs -/

/-- Header constants as on Linux; `htons` is left as the identity. -/
def sampleHdr : Hdr :=
  { O_NONBLOCK := 2048, EINTR := 4, ECANCELED := 125, htons := fun p => p }

/-- A process with no open descriptor and the default SIGPIPE disposition. -/
def sampleWorld : World :=
  { fdflags := fun _ => none, sigpipeIgnored := false, errno := 0, trace := [] }

/-- An IPv4 host entry for 10.0.0.1. -/
def sampleHost : HostEnt :=
  { h_addrtype := 2, h_length := 4, h_addr := [10, 0, 0, 1] }

/-- An environment in which every host resolves, `socket` gives descriptor 5,
`connect` reports that the connection is in progress and every wait times out. -/
def sampleEnv : Env :=
  { resolve := fun _ => some sampleHost
    sockfd := 5
    sockFlags := 2
    connectResult := -1
    waits := fun _ => { retval := 0, err := 0 }
    soError := 0 }

/-- A process in which descriptor 5 is open in blocking mode (flags O_RDWR). -/
def sampleOpenWorld : World :=
  { fdflags := fun d => if d = 5 then some 2 else none
    sigpipeIgnored := false, errno := 0, trace := [] }

/-- The world a pass through the loop body ends in. -/
def Iter.world : Iter → World
  | .ret _ _ w => w
  | .again _ w => w

/-- An environment like `sampleEnv` in which the first wait times out and the
second reports the socket ready, with pending error `soError`. -/
def sampleReadyEnv (soError : Int) : Env :=
  { sampleEnv with
    waits := fun i => if i < 1 then { retval := 0, err := 0 } else { retval := 1, err := 0 }
    soError := soError }

/-- What POSIX promises about the answers `csocket_connect` gets: `socket`
gives -1 or a non-negative descriptor, `connect` fails on a descriptor that
was not created, and `select` reports nothing ready when it is given no
descriptor to examine (`nfds = sockfd + 1 ≤ 0`). -/
def Env.posix (env : Env) : Prop :=
  -1 ≤ env.sockfd ∧
  (env.sockfd < 0 → env.connectResult ≠ 0 ∧ ∀ i, (env.waits i).retval ≤ 0)

end CSocketHelper

namespace CSocketHelper

/-! ## Basic facts about the libc calls -/

section Basics

variable (K : Hdr) (env : Env) (cancelFlag : Option (Nat → Int)) (sockfd : Int)
  (infiniteTimeout : Bool)

@[simp]
theorem log_trace (w : World) (e : Event) : (w.log e).trace = w.trace ++ [e] := rfl

@[simp]
theorem log_fdflags (w : World) (e : Event) : (w.log e).fdflags = w.fdflags := rfl

@[simp]
theorem log_sigpipeIgnored (w : World) (e : Event) :
    (w.log e).sigpipeIgnored = w.sigpipeIgnored := rfl

@[simp]
theorem log_errno (w : World) (e : Event) : (w.log e).errno = w.errno := rfl

@[simp]
theorem fcntl_getfl_trace (fd : Int) (w : World) :
    (fcntl_getfl fd w).2.trace = w.trace ++ [.fcntlGetfl fd] := rfl

@[simp]
theorem fcntl_getfl_fdflags (fd : Int) (w : World) :
    (fcntl_getfl fd w).2.fdflags = w.fdflags := rfl

@[simp]
theorem fcntl_getfl_sigpipeIgnored (fd : Int) (w : World) :
    (fcntl_getfl fd w).2.sigpipeIgnored = w.sigpipeIgnored := rfl

@[simp]
theorem fcntl_setfl_trace (fd v : Int) (w : World) :
    (fcntl_setfl fd v w).trace = w.trace ++ [.fcntlSetfl fd v] := by
  unfold fcntl_setfl; split <;> rfl

@[simp]
theorem fcntl_setfl_sigpipeIgnored (fd v : Int) (w : World) :
    (fcntl_setfl fd v w).sigpipeIgnored = w.sigpipeIgnored := by
  unfold fcntl_setfl; split <;> rfl

theorem fcntl_setfl_fdflags_self (fd v f : Int) (w : World)
    (h : (fcntl_setfl fd v w).fdflags fd = some f) : f = v := by
  unfold fcntl_setfl at h
  split at h
  · simpa using h.symm
  · next hn => simp [hn] at h

theorem csocket_set_block_eq (fd on' : Int) (w : World) :
    csocket_set_block K fd on' w =
      fcntl_setfl fd (setBlockFlags K on' (fcntl_getfl fd w).1) (fcntl_getfl fd w).2 := by
  unfold csocket_set_block setBlockFlags
  by_cases h : on' = 0 <;> simp [h]

@[simp]
theorem csocket_set_block_trace (fd on' : Int) (w : World) :
    (csocket_set_block K fd on' w).trace =
      w.trace ++ [.fcntlGetfl fd, .fcntlSetfl fd (setBlockFlags K on' (fcntl_getfl fd w).1)] := by
  rw [csocket_set_block_eq]; simp

@[simp]
theorem csocket_set_block_sigpipeIgnored (fd on' : Int) (w : World) :
    (csocket_set_block K fd on' w).sigpipeIgnored = w.sigpipeIgnored := by
  rw [csocket_set_block_eq]; simp

theorem land_lnot_land (f o : Int) : Int.land (Int.land f (Int.lnot o)) o = 0 := by
  have key : ∀ k, Int.testBit (Int.land (Int.land f (Int.lnot o)) o) k = false := by
    intro k
    rw [Int.testBit_land, Int.testBit_land, Int.testBit_lnot]
    cases Int.testBit f k <;> cases Int.testBit o k <;> rfl
  rcases h : Int.land (Int.land f (Int.lnot o)) o with n | n
  · rw [h] at key
    have : n = 0 := Nat.eq_of_testBit_eq (fun i => by simpa [Int.testBit] using key i)
    simp [this]
  · rw [h] at key
    exfalso
    obtain ⟨k, hk⟩ : ∃ k, n < 2 ^ k := ⟨n, Nat.lt_two_pow n⟩
    have h1 := key k
    simp [Int.testBit, Nat.testBit_lt_two_pow hk] at h1

/-- After `csocket_set_block(fd, 1)` the O_NONBLOCK bit of an open `fd` is clear. -/
theorem csocket_set_block_one_clear (fd f : Int) (w : World)
    (h : (csocket_set_block K fd 1 w).fdflags fd = some f) :
    Int.land f K.O_NONBLOCK = 0 := by
  rw [csocket_set_block_eq] at h
  have := fcntl_setfl_fdflags_self _ _ _ _ h
  subst this
  simp [setBlockFlags, land_lnot_land]

@[simp]
theorem os_close_trace (fd : Int) (w : World) :
    (os_close fd w).trace = w.trace ++ [.close fd] := rfl

@[simp]
theorem os_close_fdflags_self (fd : Int) (w : World) :
    (os_close fd w).fdflags fd = none := by simp [os_close]

@[simp]
theorem os_close_sigpipeIgnored (fd : Int) (w : World) :
    (os_close fd w).sigpipeIgnored = w.sigpipeIgnored := rfl

@[simp]
theorem os_signal_ignore_trace (w : World) :
    (os_signal_ignore w).trace = w.trace ++ [.signalIgnore] := rfl

@[simp]
theorem os_signal_ignore_fdflags (w : World) :
    (os_signal_ignore w).fdflags = w.fdflags := rfl

@[simp]
theorem os_signal_ignore_sigpipeIgnored (w : World) :
    (os_signal_ignore w).sigpipeIgnored = true := rfl

@[simp]
theorem os_select_fst (r : WaitResult) (n fd s u : Int) (w : World) :
    (os_select r n fd s u w).1 = r.retval := rfl

@[simp]
theorem os_select_trace (r : WaitResult) (n fd s u : Int) (w : World) :
    (os_select r n fd s u w).2.trace = w.trace ++ [.select n fd s u r.retval] := by
  unfold os_select; split <;> rfl

@[simp]
theorem os_select_fdflags (r : WaitResult) (n fd s u : Int) (w : World) :
    (os_select r n fd s u w).2.fdflags = w.fdflags := by
  unfold os_select; split <;> rfl

@[simp]
theorem os_select_sigpipeIgnored (r : WaitResult) (n fd s u : Int) (w : World) :
    (os_select r n fd s u w).2.sigpipeIgnored = w.sigpipeIgnored := by
  unfold os_select; split <;> rfl

theorem os_select_errno_neg (r : WaitResult) (n fd s u : Int) (w : World) (h : r.retval < 0) :
    (os_select r n fd s u w).2.errno = r.err := by
  unfold os_select; simp [h]

@[simp]
theorem os_getsockopt_fst (fd : Int) (w : World) :
    (os_getsockopt env fd w).1 = env.soError := rfl

@[simp]
theorem os_getsockopt_trace (fd : Int) (w : World) :
    (os_getsockopt env fd w).2.trace = w.trace ++ [.getsockopt fd env.soError] := rfl

@[simp]
theorem os_getsockopt_fdflags (fd : Int) (w : World) :
    (os_getsockopt env fd w).2.fdflags = w.fdflags := rfl

@[simp]
theorem os_getsockopt_sigpipeIgnored (fd : Int) (w : World) :
    (os_getsockopt env fd w).2.sigpipeIgnored = w.sigpipeIgnored := rfl

@[simp]
theorem checkCancel_fst (i : Nat) (w : World) :
    (checkCancel cancelFlag i w).1 = cancelSeen cancelFlag i := by
  cases cancelFlag <;> rfl

@[simp]
theorem checkCancel_fdflags (i : Nat) (w : World) :
    (checkCancel cancelFlag i w).2.fdflags = w.fdflags := by
  cases cancelFlag <;> rfl

@[simp]
theorem checkCancel_sigpipeIgnored (i : Nat) (w : World) :
    (checkCancel cancelFlag i w).2.sigpipeIgnored = w.sigpipeIgnored := by
  cases cancelFlag <;> rfl

@[simp]
theorem checkCancel_trace (i : Nat) (w : World) :
    (checkCancel cancelFlag i w).2.trace = w.trace ++ cancelReads cancelFlag i := by
  cases cancelFlag <;> simp [checkCancel, cancelReads]

/-- The loop body as a decision tree over the answers of the environment. -/
theorem loopBody_eq (i : Nat) (r : Int) (w : World) :
    loopBody K env cancelFlag sockfd infiniteTimeout i r w =
      if cancelSeen cancelFlag i then
        .ret .cancelled (-5)
          { os_close sockfd (afterCheck cancelFlag i w) with errno := K.ECANCELED }
      else if (env.waits i).retval < 0 then
        if (env.waits i).err = K.EINTR then
          .again r (afterSelect env cancelFlag sockfd infiniteTimeout i r w)
        else
          .ret .waitFailed (-2)
            (os_close sockfd (afterSelect env cancelFlag sockfd infiniteTimeout i r w))
      else if (env.waits i).retval = 0 then
        if infiniteTimeout then
          .again r (afterSelect env cancelFlag sockfd infiniteTimeout i r w)
        else if wrapInt32 (r - waitDuration infiniteTimeout r) ≤ 0 then
          .ret .timedOut (-3)
            (os_close sockfd (afterSelect env cancelFlag sockfd infiniteTimeout i r w))
        else
          .again (wrapInt32 (r - waitDuration infiniteTimeout r))
            (afterSelect env cancelFlag sockfd infiniteTimeout i r w)
      else if env.soError ≠ 0 then
        .ret .connectError (-4)
          (os_close sockfd
            (os_getsockopt env sockfd
              (afterSelect env cancelFlag sockfd infiniteTimeout i r w)).2)
      else
        .ret .ready sockfd
          (os_signal_ignore (csocket_set_block K sockfd 1
            (os_getsockopt env sockfd
              (afterSelect env cancelFlag sockfd infiniteTimeout i r w)).2)) := by
  unfold loopBody afterSelect afterCheck
  by_cases hc : cancelSeen cancelFlag i
  · simp [hc]
  · by_cases h1 : (env.waits i).retval < 0
    · by_cases h2 : (env.waits i).err = K.EINTR
      · simp [hc, h1, h2, os_select_errno_neg]
      · simp [hc, h1, h2, os_select_errno_neg]
    · by_cases h3 : (env.waits i).retval = 0
      · by_cases h4 : infiniteTimeout = true
        · simp [hc, h3, h4]
        · by_cases h5 : wrapInt32 (r - waitDuration infiniteTimeout r) ≤ 0
          · simp [hc, h3, h4, h5]
          · simp [hc, h3, h4, h5]
      · by_cases h6 : env.soError = 0
        · simp [hc, h1, h3, h6]
        · simp [hc, h1, h3, h6]

@[simp]
theorem afterCheck_trace (i : Nat) (w : World) :
    (afterCheck cancelFlag i w).trace = w.trace ++ cancelReads cancelFlag i := by
  simp [afterCheck]

@[simp]
theorem afterSelect_trace (i : Nat) (r : Int) (w : World) :
    (afterSelect env cancelFlag sockfd infiniteTimeout i r w).trace =
      w.trace ++ cancelReads cancelFlag i ++ [selectEvent env sockfd infiniteTimeout i r] := by
  simp [afterSelect, selectEvent]

@[simp]
theorem afterSelect_fdflags (i : Nat) (r : Int) (w : World) :
    (afterSelect env cancelFlag sockfd infiniteTimeout i r w).fdflags = w.fdflags := by
  simp [afterSelect, afterCheck]

@[simp]
theorem afterSelect_sigpipeIgnored (i : Nat) (r : Int) (w : World) :
    (afterSelect env cancelFlag sockfd infiniteTimeout i r w).sigpipeIgnored =
      w.sigpipeIgnored := by
  simp [afterSelect, afterCheck]

/-- An invariant of the loop holds of every world the loop returns in. -/
theorem waitLoop_returned_inv {P : Nat → Int → World → Prop} {Q : Site → Int → World → Prop}
    (again : ∀ i r w r' w', P i r w →
      loopBody K env cancelFlag sockfd infiniteTimeout i r w = .again r' w' → P (i + 1) r' w')
    (ret : ∀ i r w s c w', P i r w →
      loopBody K env cancelFlag sockfd infiniteTimeout i r w = .ret s c w' → Q s c w') :
    ∀ (fuel i : Nat) (r : Int) (w : World), P i r w → ∀ s c w',
      waitLoop K env cancelFlag sockfd infiniteTimeout fuel i r w = .returned s c w' →
      Q s c w' := by
  intro fuel
  induction fuel with
  | zero => intro i r w _ s c w' h; simp [waitLoop] at h
  | succ n ih =>
    intro i r w hP s c w' h
    unfold waitLoop at h
    split at h
    · next s1 c1 w1 hb =>
      cases h
      exact ret i r w _ _ _ hP hb
    · next r1 w1 hb =>
      exact ih (i + 1) r1 w1 (again i r w r1 w1 hP hb) s c w' h

/-- An invariant of the loop holds while the loop is running. -/
theorem waitLoop_running_inv {P : Nat → Int → World → Prop}
    (again : ∀ i r w r' w', P i r w →
      loopBody K env cancelFlag sockfd infiniteTimeout i r w = .again r' w' → P (i + 1) r' w') :
    ∀ (fuel i : Nat) (r : Int) (w : World), P i r w → ∀ r' w',
      waitLoop K env cancelFlag sockfd infiniteTimeout fuel i r w = .running r' w' →
      P (i + fuel) r' w' := by
  intro fuel
  induction fuel with
  | zero => intro i r w hP r' w' h; simp [waitLoop] at h; obtain ⟨rfl, rfl⟩ := h; simpa using hP
  | succ n ih =>
    intro i r w hP r' w' h
    unfold waitLoop at h
    split at h
    · cases h
    · next r1 w1 hb =>
      have := ih (i + 1) r1 w1 (again i r w r1 w1 hP hb) r' w' h
      have e : i + (n + 1) = i + 1 + n := by omega
      rw [e]; exact this

/-- A run that returned returns the same with more fuel. -/
theorem waitLoop_fuel_mono (fuel extra i : Nat) (r : Int) (w : World) (s : Site) (c : Int)
    (w' : World)
    (h : waitLoop K env cancelFlag sockfd infiniteTimeout fuel i r w = .returned s c w') :
    waitLoop K env cancelFlag sockfd infiniteTimeout (fuel + extra) i r w = .returned s c w' := by
  induction fuel generalizing i r w with
  | zero => simp [waitLoop] at h
  | succ n ih =>
    have e : n + 1 + extra = (n + extra) + 1 := by omega
    rw [e]
    unfold waitLoop at h ⊢
    split at h
    · exact h
    · exact ih _ _ _ h

theorem issued_of_trace {w0 w : World} {tr : List Event} (h : w.trace = w0.trace ++ tr) :
    issued w0 w = tr := by
  simp [issued, h]

@[simp]
theorem os_socket_trace (domain : Int) (w : World) :
    (os_socket env domain w).2.trace = w.trace ++ [.socket domain env.sockfd] := by
  unfold os_socket; split <;> rfl

@[simp]
theorem os_socket_sigpipeIgnored (domain : Int) (w : World) :
    (os_socket env domain w).2.sigpipeIgnored = w.sigpipeIgnored := by
  unfold os_socket; split <;> rfl

theorem afterConnect_trace (host : String) (port : Int) (hp : HostEnt) (w : World) :
    (afterConnect K env host port hp w).trace = w.trace ++ prologue K env host port hp w := by
  simp only [afterConnect, os_connect, log_trace, csocket_set_block_trace, os_socket_trace,
    List.append_assoc, List.singleton_append, List.cons_append, List.nil_append, prologue]

@[simp]
theorem waitSlices_prologue (host : String) (port : Int) (hp : HostEnt) (w : World) :
    waitSlices (prologue K env host port hp w) = [] := rfl

@[simp]
theorem filter_isClose_prologue (host : String) (port : Int) (hp : HostEnt)
    (w : World) : (prologue K env host port hp w).filter Event.isClose = [] := rfl

@[simp]
theorem afterConnect_sigpipeIgnored (host : String) (port : Int) (hp : HostEnt)
    (w : World) :
    (afterConnect K env host port hp w).sigpipeIgnored = w.sigpipeIgnored := by
  simp [afterConnect, os_connect]

theorem csocket_connect_unresolved (host : String) (port T : Int) (fuel : Nat) (w : World)
    (h : env.resolve host = none) :
    csocket_connect K env host port T cancelFlag fuel w =
      .returned .resolutionFailed (-1) (w.log (.gethostbyname host false)) := by
  simp [csocket_connect, h]

theorem csocket_connect_immediate (host : String) (port T : Int) (fuel : Nat) (w : World)
    (hp : HostEnt) (h : env.resolve host = some hp) (hc : env.connectResult = 0) :
    csocket_connect K env host port T cancelFlag fuel w =
      .returned .immediate env.sockfd
        (os_signal_ignore (csocket_set_block K env.sockfd 1
          (afterConnect K env host port hp w))) := by
  simp [csocket_connect, h, afterConnect, sockAddrOf, os_connect, os_socket, hc]

theorem csocket_connect_pending (host : String) (port T : Int) (fuel : Nat) (w : World)
    (hp : HostEnt) (h : env.resolve host = some hp) (hc : env.connectResult ≠ 0) :
    csocket_connect K env host port T cancelFlag fuel w =
      waitLoop K env cancelFlag env.sockfd (decide (T ≤ 0)) fuel 0 T
        (afterConnect K env host port hp w) := by
  simp [csocket_connect, h, afterConnect, sockAddrOf, os_connect, os_socket, hc]

theorem wrapInt32_id (x : Int) (h1 : -2147483648 ≤ x) (h2 : x ≤ 2147483647) :
    wrapInt32 x = x := by
  unfold wrapInt32; omega

theorem waitDuration_finite (r : Int) (h : 0 < r) :
    waitDuration false r = if r < 100 then r else 100 := by
  unfold waitDuration
  by_cases h1 : r < 100 <;> simp [h, h1]

theorem waitDuration_infinite (r : Int) : waitDuration true r = 100 := by
  simp [waitDuration]

theorem waitDuration_bounds (inf : Bool) (r : Int) :
    1 ≤ waitDuration inf r ∧ waitDuration inf r ≤ 100 := by
  unfold waitDuration
  split
  · next h => simp at h; omega
  · omega

/-- The `timeval` built in lines 77-78 encodes the wait duration. -/
theorem timeval_ms (d : Int) (h0 : 0 ≤ d) (h1 : d < 1000) :
    Int.tdiv d 1000 * 1000 + Int.tmod d 1000 * 1000 / 1000 = d := by
  rw [Int.tdiv_eq_zero_of_lt h0 h1, Int.tmod_eq_of_lt h0 h1]
  omega

@[simp]
theorem waitSlices_append (a b : List Event) :
    waitSlices (a ++ b) = waitSlices a ++ waitSlices b := by
  simp [waitSlices]

@[simp]
theorem waitSlices_cancelReads (i : Nat) : waitSlices (cancelReads cancelFlag i) = [] := by
  cases cancelFlag <;> simp [cancelReads, waitSlices, Event.waitMs]

@[simp]
theorem filter_isClose_cancelReads (i : Nat) :
    (cancelReads cancelFlag i).filter Event.isClose = [] := by
  cases cancelFlag <;> simp [cancelReads, Event.isClose]

@[simp]
theorem waitMs_selectEvent (inf : Bool) (i : Nat) (r : Int) :
    (selectEvent env sockfd inf i r).waitMs = some (waitDuration inf r) := by
  have h := waitDuration_bounds inf r
  simp only [selectEvent, Event.waitMs]
  rw [timeval_ms _ (by omega) (by omega)]

@[simp]
theorem isClose_selectEvent (inf : Bool) (i : Nat) (r : Int) :
    (selectEvent env sockfd inf i r).isClose = false := rfl

@[simp]
theorem isClose_close (fd : Int) : (Event.close fd).isClose = true := rfl

@[simp]
theorem isClose_getsockopt (fd e : Int) : (Event.getsockopt fd e).isClose = false := rfl

@[simp]
theorem isClose_fcntlGetfl (fd : Int) : (Event.fcntlGetfl fd).isClose = false := rfl

@[simp]
theorem isClose_fcntlSetfl (fd f : Int) : (Event.fcntlSetfl fd f).isClose = false := rfl

@[simp]
theorem isClose_signalIgnore : Event.signalIgnore.isClose = false := rfl

@[simp]
theorem isClose_gethostbyname (h : String) (b : Bool) :
    (Event.gethostbyname h b).isClose = false := rfl

@[simp]
theorem waitSlices_nil : waitSlices [] = [] := rfl

@[simp]
theorem waitSlices_close_cons (fd : Int) (tr : List Event) :
    waitSlices (.close fd :: tr) = waitSlices tr := rfl

@[simp]
theorem waitSlices_readCancel_cons (v : Int) (tr : List Event) :
    waitSlices (.readCancel v :: tr) = waitSlices tr := rfl

@[simp]
theorem waitSlices_selectEvent_cons (inf : Bool) (i : Nat) (r : Int) (tr : List Event) :
    waitSlices (selectEvent env sockfd inf i r :: tr) = waitDuration inf r :: waitSlices tr := by
  simp [waitSlices]

theorem slicesNeeded_le (r : Int) (h0 : 0 < r) (h : r ≤ 100) : slicesNeeded r = 1 := by
  unfold slicesNeeded; omega

theorem slicesNeeded_gt (r : Int) (h : 100 < r) :
    slicesNeeded r = slicesNeeded (r - 100) + 1 := by
  unfold slicesNeeded; omega

/-- With a finite budget `r`, no cancellation and only timed-out waits, the
loop returns -3 after `slicesNeeded r` waits whose durations add up to `r`. -/
theorem waitLoop_times_out (hcancel : ∀ i, cancelSeen cancelFlag i = false)
    (hwait : ∀ i, (env.waits i).retval = 0) :
    ∀ (fuel i : Nat) (r : Int) (w : World), 0 < r → r ≤ 2147483647 → slicesNeeded r ≤ fuel →
      ∃ w' tr, waitLoop K env cancelFlag sockfd false fuel i r w = .returned .timedOut (-3) w' ∧
        w'.trace = w.trace ++ tr ++ [.close sockfd] ∧
        tr.filter Event.isClose = [] ∧
        (waitSlices tr).length = slicesNeeded r ∧
        (waitSlices tr).sum = r ∧
        (∀ d ∈ waitSlices tr, 1 ≤ d ∧ d ≤ 100) ∧
        w'.fdflags sockfd = none := by
  intro fuel
  induction fuel with
  | zero =>
    intro i r w h0 _ hf
    unfold slicesNeeded at hf; omega
  | succ n ih =>
    intro i r w h0 hmax hf
    have hb := loopBody_eq K env cancelFlag sockfd false i r w
    have hd := waitDuration_finite r h0
    have hbd := waitDuration_bounds false r
    rw [if_neg (by simp [hcancel i]), if_neg (by simp [hwait i]), if_pos (hwait i),
      if_neg (by simp)] at hb
    by_cases hr : r ≤ 100
    · have hw : wrapInt32 (r - waitDuration false r) ≤ 0 := by
        rw [wrapInt32_id _ (by omega) (by omega)]
        rw [hd]; split <;> omega
      rw [if_pos hw] at hb
      have hdr : waitDuration false r = r := by rw [hd]; split <;> omega
      refine ⟨os_close sockfd (afterSelect env cancelFlag sockfd false i r w),
        cancelReads cancelFlag i ++ [selectEvent env sockfd false i r], ?_, ?_, ?_, ?_, ?_,
          ?_, ?_⟩
      · unfold waitLoop; rw [hb]
      · simp
      · simp
      · simp [slicesNeeded_le r h0 hr]
      · simp [hdr]
      · simp; omega
      · simp
    · have hdr : waitDuration false r = 100 := by rw [hd]; split <;> omega
      have hw : wrapInt32 (r - waitDuration false r) = r - 100 := by
        rw [wrapInt32_id _ (by omega) (by omega), hdr]
      rw [hw, if_neg (by omega)] at hb
      have hs := slicesNeeded_gt r (by omega)
      obtain ⟨w', tr, h1, h2, h3, h4, h5, h6, h7⟩ :=
        ih (i + 1) (r - 100) (afterSelect env cancelFlag sockfd false i r w) (by omega) (by omega)
          (by omega)
      refine ⟨w', cancelReads cancelFlag i ++ selectEvent env sockfd false i r :: tr,
          ?_, ?_, ?_, ?_, ?_, ?_, h7⟩
      · unfold waitLoop; rw [hb]; exact h1
      · rw [h2]; simp
      · simp [h3]
      · simp [h4, hs]
      · simp [h5, hdr]
      · intro d hd'
        simp only [waitSlices_append, waitSlices_cancelReads, List.nil_append,
          waitSlices_selectEvent_cons, List.mem_cons] at hd'
        rcases hd' with rfl | hd'
        · omega
        · exact h6 d hd'

/-- What an iteration that continues has done. -/
theorem loopBody_again (i : Nat) (r r' : Int) (w w' : World)
    (h : loopBody K env cancelFlag sockfd infiniteTimeout i r w = .again r' w') :
    w' = afterSelect env cancelFlag sockfd infiniteTimeout i r w ∧
    cancelSeen cancelFlag i = false ∧
    (((env.waits i).retval < 0 ∧ (env.waits i).err = K.EINTR ∧ r' = r) ∨
     ((env.waits i).retval = 0 ∧ infiniteTimeout = true ∧ r' = r) ∨
     ((env.waits i).retval = 0 ∧ infiniteTimeout = false ∧
        r' = wrapInt32 (r - waitDuration infiniteTimeout r) ∧ 0 < r')) := by
  rw [loopBody_eq] at h
  split_ifs at h with h1 h2 h3 h4 h5 h6 h7 <;> cases h
  · exact ⟨rfl, by simpa using h1, Or.inl ⟨h2, h3, rfl⟩⟩
  · exact ⟨rfl, by simpa using h1, Or.inr (Or.inl ⟨h4, h5, rfl⟩)⟩
  · exact ⟨rfl, by simpa using h1, Or.inr (Or.inr ⟨h4, by simpa using h5, rfl, by omega⟩)⟩

/-- What an iteration that returns has done. -/
theorem loopBody_ret (i : Nat) (r : Int) (w : World) (s : Site) (c : Int) (w' : World)
    (h : loopBody K env cancelFlag sockfd infiniteTimeout i r w = .ret s c w') :
    (s = .cancelled ∧ c = -5 ∧ cancelSeen cancelFlag i = true ∧
      w' = { os_close sockfd (afterCheck cancelFlag i w) with errno := K.ECANCELED }) ∨
    (s = .waitFailed ∧ c = -2 ∧ cancelSeen cancelFlag i = false ∧
      (env.waits i).retval < 0 ∧ (env.waits i).err ≠ K.EINTR ∧
      w' = os_close sockfd (afterSelect env cancelFlag sockfd infiniteTimeout i r w)) ∨
    (s = .timedOut ∧ c = -3 ∧ cancelSeen cancelFlag i = false ∧
      (env.waits i).retval = 0 ∧ infiniteTimeout = false ∧
      wrapInt32 (r - waitDuration infiniteTimeout r) ≤ 0 ∧
      w' = os_close sockfd (afterSelect env cancelFlag sockfd infiniteTimeout i r w)) ∨
    (s = .connectError ∧ c = -4 ∧ cancelSeen cancelFlag i = false ∧
      0 < (env.waits i).retval ∧ env.soError ≠ 0 ∧
      w' = os_close sockfd (os_getsockopt env sockfd
        (afterSelect env cancelFlag sockfd infiniteTimeout i r w)).2) ∨
    (s = .ready ∧ c = sockfd ∧ cancelSeen cancelFlag i = false ∧
      0 < (env.waits i).retval ∧ env.soError = 0 ∧
      w' = os_signal_ignore (csocket_set_block K sockfd 1 (os_getsockopt env sockfd
        (afterSelect env cancelFlag sockfd infiniteTimeout i r w)).2)) := by
  rw [loopBody_eq] at h
  split_ifs at h with h1 h2 h3 h4 h5 h6 h7 <;> cases h
  · exact Or.inl ⟨rfl, rfl, h1, rfl⟩
  · exact Or.inr (Or.inl ⟨rfl, rfl, by simpa using h1, h2, h3, rfl⟩)
  · exact Or.inr (Or.inr (Or.inl ⟨rfl, rfl, by simpa using h1, h4, by simpa using h5, h6, rfl⟩))
  · exact Or.inr (Or.inr (Or.inr (Or.inl ⟨rfl, rfl, by simpa using h1, by omega, h7, rfl⟩)))
  · exact Or.inr (Or.inr (Or.inr (Or.inr
      ⟨rfl, rfl, by simpa using h1, by omega, by simpa using h7, rfl⟩)))

/-- A loop that returns does so in some iteration `i + j`; the iterations
before it only read the cancel flag and called `select`. -/
theorem waitLoop_returned_last :
    ∀ (fuel i : Nat) (r : Int) (w : World) (s : Site) (c : Int) (w' : World),
      waitLoop K env cancelFlag sockfd infiniteTimeout fuel i r w = .returned s c w' →
      ∃ (j : Nat) (r1 : Int) (w1 : World) (tr : List Event), j < fuel ∧
        loopBody K env cancelFlag sockfd infiniteTimeout (i + j) r1 w1 = .ret s c w' ∧
        w1.trace = w.trace ++ tr ∧ (∀ e ∈ tr, e.isPoll = true) ∧
        w1.fdflags = w.fdflags ∧ w1.sigpipeIgnored = w.sigpipeIgnored := by
  intro fuel
  induction fuel with
  | zero => intro i r w s c w' h; simp [waitLoop] at h
  | succ n ih =>
    intro i r w s c w' h
    unfold waitLoop at h
    split at h
    · next s1 c1 w1 hb =>
      cases h
      exact ⟨0, r, w, [], by omega, by simpa using hb, by simp, by simp, rfl, rfl⟩
    · next r1 w1 hb =>
      obtain ⟨j, r2, w2, tr, hj, hbody, htr, hpoll, hfl, hsig⟩ := ih (i + 1) r1 w1 s c w' h
      obtain ⟨hw1, -, -⟩ := loopBody_again K env cancelFlag sockfd infiniteTimeout i r r1 w w1 hb
      subst hw1
      refine ⟨j + 1, r2, w2,
        cancelReads cancelFlag i ++ selectEvent env sockfd infiniteTimeout i r :: tr,
        by omega, ?_, ?_, ?_, ?_, ?_⟩
      · have e : i + (j + 1) = i + 1 + j := by omega
        rw [e]; exact hbody
      · rw [htr]; simp
      · intro e he
        simp only [List.mem_append, List.mem_cons] at he
        rcases he with he | rfl | he
        · cases cancelFlag with
          | none => simp [cancelReads] at he
          | some f => simp [cancelReads] at he; subst he; rfl
        · rfl
        · exact hpoll e he
      · rw [hfl]; simp
      · rw [hsig]; simp

theorem filter_isClose_of_isPoll (tr : List Event) (h : ∀ e ∈ tr, e.isPoll = true) :
    tr.filter Event.isClose = [] := by
  rw [List.filter_eq_nil_iff]
  intro e he
  have := h e he
  cases e <;> simp_all [Event.isPoll, Event.isClose]

theorem setBlockFlags_one_clear (x : Int) : Int.land (setBlockFlags K 1 x) K.O_NONBLOCK = 0 := by
  simp [setBlockFlags, land_lnot_land]

/-- The state in which a handle is handed back: `csocket_set_block(fd, 1)` and
`signal(SIGPIPE, SIG_IGN)` were the last calls. -/
theorem handle_world (fd : Int) (w0 w1 : World) (tr : List Event)
    (htr : w1.trace = w0.trace ++ tr) :
    (os_signal_ignore (csocket_set_block K fd 1 w1)).sigpipeIgnored = true ∧
    (∀ f, (os_signal_ignore (csocket_set_block K fd 1 w1)).fdflags fd = some f →
      Int.land f K.O_NONBLOCK = 0) ∧
    issued w0 (os_signal_ignore (csocket_set_block K fd 1 w1)) =
      tr ++ [.fcntlGetfl fd, .fcntlSetfl fd (setBlockFlags K 1 (fcntl_getfl fd w1).1),
        .signalIgnore] := by
  refine ⟨rfl, ?_, ?_⟩
  · intro f hf
    exact csocket_set_block_one_clear K fd f w1 (by simpa using hf)
  · apply issued_of_trace
    simp [htr]

/-- A run of `csocket_connect` that returned, taken apart: either the host did
not resolve, or `connect` completed at once, or the loop returned in some
iteration `j` after iterations that only polled. -/
theorem csocket_connect_returned (host : String) (port T : Int) (fuel : Nat) (w : World)
    (s : Site) (c : Int) (w' : World)
    (h : csocket_connect K env host port T cancelFlag fuel w = .returned s c w') :
    (env.resolve host = none ∧ s = .resolutionFailed ∧ c = -1 ∧
      w' = w.log (.gethostbyname host false)) ∨
    (∃ hp, env.resolve host = some hp ∧ env.connectResult = 0 ∧ s = .immediate ∧
      c = env.sockfd ∧
      w' = os_signal_ignore (csocket_set_block K env.sockfd 1
        (afterConnect K env host port hp w))) ∨
    (∃ hp j r1 w1 tr, env.resolve host = some hp ∧ env.connectResult ≠ 0 ∧ j < fuel ∧
      loopBody K env cancelFlag env.sockfd (decide (T ≤ 0)) j r1 w1 = .ret s c w' ∧
      w1.trace = w.trace ++ prologue K env host port hp w ++ tr ∧
      (∀ e ∈ tr, e.isPoll = true) ∧
      w1.sigpipeIgnored = w.sigpipeIgnored) := by
  cases hres : env.resolve host with
  | none =>
    rw [csocket_connect_unresolved K env cancelFlag host port T fuel w hres] at h
    cases h
    exact Or.inl ⟨rfl, rfl, rfl, rfl⟩
  | some hp =>
    by_cases hc : env.connectResult = 0
    · rw [csocket_connect_immediate K env cancelFlag host port T fuel w hp hres hc] at h
      cases h
      exact Or.inr (Or.inl ⟨hp, rfl, hc, rfl, rfl, rfl⟩)
    · rw [csocket_connect_pending K env cancelFlag host port T fuel w hp hres hc] at h
      obtain ⟨j, r1, w1, tr, hj, hbody, htr, hpoll, -, hsig⟩ :=
        waitLoop_returned_last K env cancelFlag env.sockfd _ fuel 0 T _ s c w' h
      refine Or.inr (Or.inr ⟨hp, j, r1, w1, tr, rfl, hc, hj, by simpa using hbody, ?_, hpoll, ?_⟩)
      · rw [htr, afterConnect_trace]
      · rw [hsig]; simp

theorem loopBody_ret_trace (i : Nat) (r : Int) (w : World) (s : Site) (c : Int) (w' : World)
    (h : loopBody K env cancelFlag sockfd infiniteTimeout i r w = .ret s c w') :
    ∃ tr, w'.trace = w.trace ++ tr := by
  refine ⟨issued w w', ?_⟩
  rcases loopBody_ret K env cancelFlag sockfd infiniteTimeout i r w s c w' h with
    ⟨-, -, -, hw⟩ | ⟨-, -, -, -, -, hw⟩ | ⟨-, -, -, -, -, -, hw⟩ | ⟨-, -, -, -, -, hw⟩ |
    ⟨-, -, -, -, -, hw⟩ <;> subst hw <;> simp [issued]

/-- Whatever the loop does, it only adds to the trace. -/
theorem waitLoop_trace :
    ∀ (fuel i : Nat) (r : Int) (w : World),
      ∃ tr, (waitLoop K env cancelFlag sockfd infiniteTimeout fuel i r w).world.trace =
        w.trace ++ tr := by
  intro fuel
  induction fuel with
  | zero => intro i r w; exact ⟨[], by simp [waitLoop, Run.world]⟩
  | succ n ih =>
    intro i r w
    unfold waitLoop
    cases hb : loopBody K env cancelFlag sockfd infiniteTimeout i r w with
    | ret s c w' =>
      exact loopBody_ret_trace K env cancelFlag sockfd infiniteTimeout i r w s c w' hb
    | again r' w' =>
      obtain ⟨hw, -, -⟩ := loopBody_again K env cancelFlag sockfd infiniteTimeout i r r' w w' hb
      subst hw
      obtain ⟨tr, htr⟩ := ih (i + 1) r' (afterSelect env cancelFlag sockfd infiniteTimeout i r w)
      exact ⟨cancelReads cancelFlag i ++ selectEvent env sockfd infiniteTimeout i r :: tr,
        by simp only [htr]; simp⟩

theorem cancelReads_unseen (i : Nat) (h : cancelSeen cancelFlag i = false) :
    cancelReads cancelFlag i = unseenReads cancelFlag := by
  cases cancelFlag with
  | none => rfl
  | some f => simp [cancelSeen] at h; simp [cancelReads, unseenReads, h]

theorem selectEvent_idle (i : Nat) (r : Int) (h : (env.waits i).retval = 0) :
    selectEvent env sockfd true i r = .select (wrapInt32 (sockfd + 1)) sockfd 0 100000 0 := by
  simp only [selectEvent, waitDuration_infinite, h]
  rfl

@[simp]
theorem waitSlices_idlePoll_append (tr : List Event) :
    waitSlices (idlePoll cancelFlag sockfd ++ tr) = 100 :: waitSlices tr := by
  cases cancelFlag <;> rfl

@[simp]
theorem filter_isClose_idlePoll :
    (idlePoll cancelFlag sockfd).filter Event.isClose = [] := by
  cases cancelFlag <;> rfl

theorem waitSlices_repeat_idlePoll (n : Nat) :
    waitSlices (repeatEvents (idlePoll cancelFlag sockfd) n) = List.replicate n 100 := by
  induction n with
  | zero => rfl
  | succ n ih =>
    simp only [repeatEvents]
    rw [waitSlices_idlePoll_append, ih]
    rfl

theorem filter_isClose_repeat_idlePoll (n : Nat) :
    (repeatEvents (idlePoll cancelFlag sockfd) n).filter Event.isClose = [] := by
  induction n with
  | zero => rfl
  | succ n ih => simp [repeatEvents, ih]

/-- With an infinite timeout, `n` iterations that find the flag unset and time
out leave the loop where it was, `n` idle polls later. -/
theorem waitLoop_infinite_polls (hwait : ∀ i, (env.waits i).retval = 0) (m : Nat) :
    ∀ (n i : Nat) (r : Int) (w : World), (∀ k, k < n → cancelSeen cancelFlag (i + k) = false) →
      ∃ w1, waitLoop K env cancelFlag sockfd true (n + m) i r w =
          waitLoop K env cancelFlag sockfd true m (i + n) r w1 ∧
        w1.trace = w.trace ++ repeatEvents (idlePoll cancelFlag sockfd) n ∧
        w1.fdflags = w.fdflags ∧ w1.sigpipeIgnored = w.sigpipeIgnored := by
  intro n
  induction n with
  | zero => intro i r w _; exact ⟨w, by simp, by simp [repeatEvents], rfl, rfl⟩
  | succ n ih =>
    intro i r w hc
    have hb := loopBody_eq K env cancelFlag sockfd true i r w
    have hc0 := hc 0 (by omega)
    simp only [Nat.add_zero] at hc0
    rw [if_neg (by simp [hc0]), if_neg (by simp [hwait i]), if_pos (hwait i), if_pos rfl] at hb
    obtain ⟨w1, h1, h2, h3, h4⟩ := ih (i + 1) r (afterSelect env cancelFlag sockfd true i r w)
      (fun k hk => by
        have := hc (k + 1) (by omega)
        have e : i + 1 + k = i + (k + 1) := by omega
        rw [e]; exact this)
    refine ⟨w1, ?_, ?_, ?_, ?_⟩
    · have e : n + 1 + m = (n + m) + 1 := by omega
      have e2 : i + (n + 1) = i + 1 + n := by omega
      rw [e, e2]
      conv_lhs => unfold waitLoop
      rw [hb]
      exact h1
    · rw [h2, afterSelect_trace, cancelReads_unseen cancelFlag i hc0,
        selectEvent_idle env sockfd i r (hwait i)]
      simp [repeatEvents, idlePoll]
    · rw [h3]; simp
    · rw [h4]; simp

/-- A run of `csocket_connect` that returned returns the same with more fuel. -/
theorem csocket_connect_fuel_mono (host : String) (port T : Int) (fuel extra : Nat) (w : World)
    (s : Site) (c : Int) (w' : World)
    (h : csocket_connect K env host port T cancelFlag fuel w = .returned s c w') :
    csocket_connect K env host port T cancelFlag (fuel + extra) w = .returned s c w' := by
  cases hres : env.resolve host with
  | none =>
    rw [csocket_connect_unresolved K env cancelFlag host port T _ w hres] at h ⊢
    exact h
  | some hp =>
    by_cases hc : env.connectResult = 0
    · rw [csocket_connect_immediate K env cancelFlag host port T _ w hp hres hc] at h ⊢
      exact h
    · rw [csocket_connect_pending K env cancelFlag host port T _ w hp hres hc] at h ⊢
      exact waitLoop_fuel_mono K env cancelFlag env.sockfd _ fuel extra 0 T _ s c w' h

/-- The value returned tells the return statement, given which statement
returns which value and that a returned descriptor is not negative. -/
theorem site_code_agree (s : Site) (c fd : Int)
    (h : (s = .resolutionFailed ∧ c = -1) ∨ (s = .waitFailed ∧ c = -2) ∨
      (s = .timedOut ∧ c = -3) ∨ (s = .connectError ∧ c = -4) ∨ (s = .cancelled ∧ c = -5) ∨
      ((s = .immediate ∨ s = .ready) ∧ c = fd ∧ 0 ≤ fd)) :
    (c < 0 ↔ (s ≠ .immediate ∧ s ≠ .ready)) ∧
    (c = -1 ↔ s = .resolutionFailed) ∧ (c = -2 ↔ s = .waitFailed) ∧
    (c = -3 ↔ s = .timedOut) ∧ (c = -4 ↔ s = .connectError) ∧ (c = -5 ↔ s = .cancelled) ∧
    ((s = .immediate ∨ s = .ready) → c = fd ∧ 0 ≤ c) := by
  rcases h with ⟨rfl, rfl⟩ | ⟨rfl, rfl⟩ | ⟨rfl, rfl⟩ | ⟨rfl, rfl⟩ | ⟨rfl, rfl⟩ |
    ⟨hs, rfl, hfd⟩
  · simp
  · simp
  · simp
  · simp
  · simp
  · rcases hs with rfl | rfl
    · refine ⟨?_, ?_, ?_, ?_, ?_, ?_, ?_⟩ <;> simp <;> omega
    · refine ⟨?_, ?_, ?_, ?_, ?_, ?_, ?_⟩ <;> simp <;> omega

/-! ### Interrupted waits -/

theorem World.sim_refl (w : World) : w.sim w := ⟨rfl, rfl, rfl⟩

theorem World.sim_trans {a b c : World} (h1 : a.sim b) (h2 : b.sim c) : a.sim c :=
  ⟨h1.1.trans h2.1, h1.2.1.trans h2.2.1, h1.2.2.trans h2.2.2⟩

@[simp]
theorem timedOutSlices_append (a b : List Event) :
    timedOutSlices (a ++ b) = timedOutSlices a ++ timedOutSlices b := by
  simp [timedOutSlices]

@[simp]
theorem timedOutSlices_cancelReads (i : Nat) :
    timedOutSlices (cancelReads cancelFlag i) = [] := by
  cases cancelFlag <;> rfl

theorem timedOutSlices_selectEvent (env1 env2 : Env) (i1 i2 : Nat) (r : Int)
    (h : env1.waits i1 = env2.waits i2) :
    timedOutSlices [selectEvent env1 sockfd infiniteTimeout i1 r] =
      timedOutSlices [selectEvent env2 sockfd infiniteTimeout i2 r] := by
  simp [selectEvent, h]

theorem timedOutSlices_selectEvent_neg (i : Nat) (r : Int) (h : (env.waits i).retval < 0) :
    timedOutSlices [selectEvent env sockfd infiniteTimeout i r] = [] := by
  have : (env.waits i).retval ≠ 0 := by omega
  simp [selectEvent, timedOutSlices, Event.timedOutMs, this]

theorem sim_afterSelect (env1 env2 : Env) (i1 i2 : Nat) (r : Int) (w1 w2 : World)
    (h : env1.waits i1 = env2.waits i2) (hs : w1.sim w2) :
    (afterSelect env1 cancelFlag sockfd infiniteTimeout i1 r w1).sim
      (afterSelect env2 cancelFlag sockfd infiniteTimeout i2 r w2) := by
  obtain ⟨h1, h2, h3⟩ := hs
  refine ⟨by simp [h1], by simp [h2], ?_⟩
  simp only [afterSelect_trace, timedOutSlices_append, timedOutSlices_cancelReads, h3,
    timedOutSlices_selectEvent sockfd infiniteTimeout env1 env2 i1 i2 r h]

theorem sim_afterSelect_interrupted (i : Nat) (r : Int) (w1 w2 : World)
    (h : (env.waits i).retval < 0) (hs : w1.sim w2) :
    w1.sim (afterSelect env cancelFlag sockfd infiniteTimeout i r w2) := by
  obtain ⟨h1, h2, h3⟩ := hs
  refine ⟨by simp [h1], by simp [h2], ?_⟩
  simp only [afterSelect_trace, timedOutSlices_append, timedOutSlices_cancelReads, h3,
    timedOutSlices_selectEvent_neg env sockfd infiniteTimeout i r h, List.append_nil]

theorem sim_os_close (fd : Int) (w1 w2 : World) (hs : w1.sim w2) :
    (os_close fd w1).sim (os_close fd w2) := by
  obtain ⟨h1, h2, h3⟩ := hs
  refine ⟨by simp [os_close, h1], by simp [h2], ?_⟩
  simp only [os_close_trace, timedOutSlices_append, h3]

theorem sim_os_getsockopt (env1 env2 : Env) (fd : Int) (w1 w2 : World)
    (h : env1.soError = env2.soError) (hs : w1.sim w2) :
    (os_getsockopt env1 fd w1).2.sim (os_getsockopt env2 fd w2).2 := by
  obtain ⟨h1, h2, h3⟩ := hs
  refine ⟨by simp [h1], by simp [h2], ?_⟩
  simp only [os_getsockopt_trace, timedOutSlices_append, h3, h]

theorem csocket_set_block_fdflags_congr (fd on' : Int) (w1 w2 : World)
    (h : w1.fdflags = w2.fdflags) :
    (csocket_set_block K fd on' w1).fdflags = (csocket_set_block K fd on' w2).fdflags := by
  simp only [csocket_set_block_eq, fcntl_setfl, fcntl_getfl, log_fdflags, h]
  split <;> simp [h]

theorem sim_handle (fd : Int) (w1 w2 : World) (hs : w1.sim w2) :
    (os_signal_ignore (csocket_set_block K fd 1 w1)).sim
      (os_signal_ignore (csocket_set_block K fd 1 w2)) := by
  obtain ⟨h1, h2, h3⟩ := hs
  refine ⟨?_, rfl, ?_⟩
  · simp only [os_signal_ignore_fdflags]
    exact csocket_set_block_fdflags_congr K fd 1 w1 w2 h1
  · simp only [os_signal_ignore_trace, csocket_set_block_trace, timedOutSlices_append, h3]
    rfl

/-- The loop body does the same in two environments that give the same wait
result, from worlds that agree, as long as the flag is not seen set. -/
theorem loopBody_sim (env1 env2 : Env) (i1 i2 : Nat) (r : Int) (w1 w2 : World)
    (hso : env1.soError = env2.soError) (hw : env1.waits i1 = env2.waits i2)
    (hc1 : cancelSeen cancelFlag i1 = false) (hc2 : cancelSeen cancelFlag i2 = false)
    (hs : w1.sim w2) :
    IterSim (loopBody K env1 cancelFlag sockfd infiniteTimeout i1 r w1)
      (loopBody K env2 cancelFlag sockfd infiniteTimeout i2 r w2) := by
  have hsel := sim_afterSelect cancelFlag sockfd infiniteTimeout env1 env2 i1 i2 r w1 w2 hw hs
  rw [loopBody_eq, loopBody_eq]
  simp only [hc1, hc2, hw, hso, Bool.false_eq_true, if_false]
  split_ifs
  · exact ⟨rfl, hsel⟩
  · exact ⟨rfl, rfl, sim_os_close _ _ _ hsel⟩
  · exact ⟨rfl, hsel⟩
  · exact ⟨rfl, rfl, sim_os_close _ _ _ hsel⟩
  · exact ⟨rfl, hsel⟩
  · exact ⟨rfl, rfl, sim_os_close _ _ _ (sim_os_getsockopt env1 env2 _ _ _ hso hsel)⟩
  · exact ⟨rfl, rfl, sim_handle K _ _ _ (sim_os_getsockopt env1 env2 _ _ _ hso hsel)⟩

theorem waitLoop_succ_ret (fuel i : Nat) (r : Int) (w : World) (s : Site) (c : Int)
    (w' : World)
    (h : loopBody K env cancelFlag sockfd infiniteTimeout i r w = .ret s c w') :
    waitLoop K env cancelFlag sockfd infiniteTimeout (fuel + 1) i r w = .returned s c w' := by
  rw [waitLoop, h]

theorem waitLoop_succ_again (fuel i : Nat) (r r' : Int) (w w' : World)
    (h : loopBody K env cancelFlag sockfd infiniteTimeout i r w = .again r' w') :
    waitLoop K env cancelFlag sockfd infiniteTimeout (fuel + 1) i r w =
      waitLoop K env cancelFlag sockfd infiniteTimeout fuel (i + 1) r' w' := by
  rw [waitLoop, h]

/-- The loop runs the same on two sequences of wait results that agree from
the current positions on, as long as the flag is never seen set. -/
theorem waitLoop_shift (env1 env2 : Env) (hso : env1.soError = env2.soError)
    (hc : ∀ i, cancelSeen cancelFlag i = false) :
    ∀ (fuel i1 i2 : Nat) (r : Int) (w1 w2 : World),
      (∀ k, env1.waits (i1 + k) = env2.waits (i2 + k)) → w1.sim w2 →
      RunSim (waitLoop K env1 cancelFlag sockfd infiniteTimeout fuel i1 r w1)
        (waitLoop K env2 cancelFlag sockfd infiniteTimeout fuel i2 r w2) := by
  intro fuel
  induction fuel with
  | zero => intro i1 i2 r w1 w2 _ hs; exact ⟨rfl, hs⟩
  | succ n ih =>
    intro i1 i2 r w1 w2 hw hs
    have hb := loopBody_sim K cancelFlag sockfd infiniteTimeout env1 env2 i1 i2 r w1 w2 hso
      (by simpa using hw 0) (hc i1) (hc i2) hs
    unfold waitLoop
    cases h1 : loopBody K env1 cancelFlag sockfd infiniteTimeout i1 r w1 with
    | ret s c a =>
      cases h2 : loopBody K env2 cancelFlag sockfd infiniteTimeout i2 r w2 with
      | ret s' c' b => rw [h1, h2] at hb; exact hb
      | again r' b => rw [h1, h2] at hb; exact hb.elim
    | again r1 a =>
      cases h2 : loopBody K env2 cancelFlag sockfd infiniteTimeout i2 r w2 with
      | ret s' c' b => rw [h1, h2] at hb; exact hb.elim
      | again r2 b =>
        rw [h1, h2] at hb
        obtain ⟨hr, hab⟩ := hb
        subst hr
        exact ih (i1 + 1) (i2 + 1) r1 a b (fun k => by
          have := hw (k + 1)
          have e1 : i1 + 1 + k = i1 + (k + 1) := by omega
          have e2 : i2 + 1 + k = i2 + (k + 1) := by omega
          rw [e1, e2]; exact this) hab

theorem RunSim_returned_left {s : Site} {c : Int} {a : World} {run : Run}
    (h : RunSim (.returned s c a) run) : ∃ b, run = .returned s c b ∧ a.sim b := by
  cases run with
  | returned s' c' b => obtain ⟨rfl, rfl, hab⟩ := h; exact ⟨b, rfl, hab⟩
  | running r b => exact h.elim

theorem RunSim_returned_right {s : Site} {c : Int} {b : World} {run : Run}
    (h : RunSim run (.returned s c b)) : ∃ a, run = .returned s c a ∧ a.sim b := by
  cases run with
  | returned s' c' a => obtain ⟨rfl, rfl, hab⟩ := h; exact ⟨a, rfl, hab⟩
  | running r a => exact h.elim

/-- An interrupted wait: the iteration continues with `remaining` unchanged. -/
theorem loopBody_interrupted (i : Nat) (r : Int) (w : World)
    (hc : cancelSeen cancelFlag i = false)
    (h1 : (env.waits i).retval < 0) (h2 : (env.waits i).err = K.EINTR) :
    loopBody K env cancelFlag sockfd infiniteTimeout i r w =
      .again r (afterSelect env cancelFlag sockfd infiniteTimeout i r w) := by
  rw [loopBody_eq, if_neg (by simp [hc]), if_pos h1, if_pos h2]

theorem insertWait_lt (waits : Nat → WaitResult) (j i : Nat) (x : WaitResult) (h : i < j) :
    insertWait waits j x i = waits i := by
  simp [insertWait, h]

theorem insertWait_eq (waits : Nat → WaitResult) (j : Nat) (x : WaitResult) :
    insertWait waits j x j = x := by
  simp [insertWait]

theorem insertWait_gt (waits : Nat → WaitResult) (j k : Nat) (x : WaitResult) :
    insertWait waits j x (j + 1 + k) = waits (j + k) := by
  have h1 : ¬ (j + 1 + k < j) := by omega
  have h2 : ¬ (j + 1 + k = j) := by omega
  have h3 : j + 1 + k - 1 = j + k := by omega
  simp [insertWait, h1, h2, h3]

/-- Inserting one interrupted wait at position `j`: a loop that returned
returns the same, one iteration later. -/
theorem waitLoop_insert_fwd (env1 env2 : Env) (j : Nat) (x : WaitResult)
    (hso : env1.soError = env2.soError) (hw : env2.waits = insertWait env1.waits j x)
    (hx : x.retval < 0 ∧ x.err = K.EINTR) (hc : ∀ i, cancelSeen cancelFlag i = false) :
    ∀ (fuel i : Nat) (r : Int) (w1 w2 : World) (s : Site) (c : Int) (a : World), i ≤ j →
      w1.sim w2 →
      waitLoop K env1 cancelFlag sockfd infiniteTimeout fuel i r w1 = .returned s c a →
      ∃ b, waitLoop K env2 cancelFlag sockfd infiniteTimeout (fuel + 1) i r w2 =
        .returned s c b ∧ a.sim b := by
  intro fuel
  induction fuel with
  | zero => intro i r w1 w2 s c a _ _ h; simp [waitLoop] at h
  | succ n ih =>
    intro i r w1 w2 s c a hij hs h
    rcases Nat.eq_or_lt_of_le hij with rfl | hlt
    · have hxi : env2.waits i = x := by rw [hw, insertWait_eq]
      have hb := loopBody_interrupted K env2 cancelFlag sockfd infiniteTimeout i r w2 (hc i)
        (by rw [hxi]; exact hx.1) (by rw [hxi]; exact hx.2)
      have hsh := waitLoop_shift K cancelFlag sockfd infiniteTimeout env1 env2 hso hc (n + 1) i
        (i + 1) r w1 (afterSelect env2 cancelFlag sockfd infiniteTimeout i r w2)
        (fun k => by rw [hw, insertWait_gt])
        (sim_afterSelect_interrupted env2 cancelFlag sockfd infiniteTimeout i r w1 w2
          (by rw [hxi]; exact hx.1) hs)
      rw [h] at hsh
      obtain ⟨b, hb2, hab⟩ := RunSim_returned_left hsh
      refine ⟨b, ?_, hab⟩
      rw [waitLoop_succ_again K env2 cancelFlag sockfd infiniteTimeout _ i r r w2 _ hb]
      exact hb2
    · have hwi : env1.waits i = env2.waits i := by rw [hw, insertWait_lt _ _ _ _ hlt]
      have hb := loopBody_sim K cancelFlag sockfd infiniteTimeout env1 env2 i i r w1 w2 hso hwi
        (hc i) (hc i) hs
      cases h1 : loopBody K env1 cancelFlag sockfd infiniteTimeout i r w1 with
      | ret s1 c1 a1 =>
        rw [waitLoop_succ_ret K env1 cancelFlag sockfd infiniteTimeout _ i r w1 _ _ _ h1] at h
        rw [h1] at hb
        cases h
        cases h2 : loopBody K env2 cancelFlag sockfd infiniteTimeout i r w2 with
        | ret s' c' b =>
          rw [h2] at hb
          obtain ⟨rfl, rfl, hab⟩ := hb
          exact ⟨b, waitLoop_succ_ret K env2 cancelFlag sockfd infiniteTimeout _ i r w2 _ _ _ h2,
            hab⟩
        | again r' b => rw [h2] at hb; exact hb.elim
      | again r1 a1 =>
        rw [waitLoop_succ_again K env1 cancelFlag sockfd infiniteTimeout _ i r _ w1 _ h1] at h
        rw [h1] at hb
        cases h2 : loopBody K env2 cancelFlag sockfd infiniteTimeout i r w2 with
        | ret s' c' b => rw [h2] at hb; exact hb.elim
        | again r2 b =>
          rw [h2] at hb
          obtain ⟨rfl, hab⟩ := hb
          rw [waitLoop_succ_again K env2 cancelFlag sockfd infiniteTimeout _ i r _ w2 _ h2]
          exact ih (i + 1) r1 a1 b s c a (by omega) hab h

/-- Inserting one interrupted wait at position `j`: a loop that returns with
the insertion returns the same without it, within the same bound. -/
theorem waitLoop_insert_bwd (env1 env2 : Env) (j : Nat) (x : WaitResult)
    (hso : env1.soError = env2.soError) (hw : env2.waits = insertWait env1.waits j x)
    (hx : x.retval < 0 ∧ x.err = K.EINTR) (hc : ∀ i, cancelSeen cancelFlag i = false) :
    ∀ (fuel i : Nat) (r : Int) (w1 w2 : World) (s : Site) (c : Int) (b : World), i ≤ j →
      w1.sim w2 →
      waitLoop K env2 cancelFlag sockfd infiniteTimeout fuel i r w2 = .returned s c b →
      ∃ a, waitLoop K env1 cancelFlag sockfd infiniteTimeout fuel i r w1 =
        .returned s c a ∧ a.sim b := by
  intro fuel
  induction fuel with
  | zero => intro i r w1 w2 s c b _ _ h; simp [waitLoop] at h
  | succ n ih =>
    intro i r w1 w2 s c b hij hs h
    rcases Nat.eq_or_lt_of_le hij with rfl | hlt
    · have hxi : env2.waits i = x := by rw [hw, insertWait_eq]
      have hb := loopBody_interrupted K env2 cancelFlag sockfd infiniteTimeout i r w2 (hc i)
        (by rw [hxi]; exact hx.1) (by rw [hxi]; exact hx.2)
      rw [waitLoop_succ_again K env2 cancelFlag sockfd infiniteTimeout _ i r r w2 _ hb] at h
      have hsh := waitLoop_shift K cancelFlag sockfd infiniteTimeout env1 env2 hso hc n i
        (i + 1) r w1 (afterSelect env2 cancelFlag sockfd infiniteTimeout i r w2)
        (fun k => by rw [hw, insertWait_gt])
        (sim_afterSelect_interrupted env2 cancelFlag sockfd infiniteTimeout i r w1 w2
          (by rw [hxi]; exact hx.1) hs)
      rw [h] at hsh
      obtain ⟨a, ha, hab⟩ := RunSim_returned_right hsh
      exact ⟨a, waitLoop_fuel_mono K env1 cancelFlag sockfd infiniteTimeout n 1 i r w1 s c a ha,
        hab⟩
    · have hwi : env1.waits i = env2.waits i := by rw [hw, insertWait_lt _ _ _ _ hlt]
      have hb := loopBody_sim K cancelFlag sockfd infiniteTimeout env1 env2 i i r w1 w2 hso hwi
        (hc i) (hc i) hs
      cases h2 : loopBody K env2 cancelFlag sockfd infiniteTimeout i r w2 with
      | ret s2 c2 b2 =>
        rw [waitLoop_succ_ret K env2 cancelFlag sockfd infiniteTimeout _ i r w2 _ _ _ h2] at h
        rw [h2] at hb
        cases h
        cases h1 : loopBody K env1 cancelFlag sockfd infiniteTimeout i r w1 with
        | ret s' c' a =>
          rw [h1] at hb
          obtain ⟨rfl, rfl, hab⟩ := hb
          exact ⟨a, waitLoop_succ_ret K env1 cancelFlag sockfd infiniteTimeout _ i r w1 _ _ _ h1,
            hab⟩
        | again r' a => rw [h1] at hb; exact hb.elim
      | again r2 b2 =>
        rw [waitLoop_succ_again K env2 cancelFlag sockfd infiniteTimeout _ i r _ w2 _ h2] at h
        rw [h2] at hb
        cases h1 : loopBody K env1 cancelFlag sockfd infiniteTimeout i r w1 with
        | ret s' c' a => rw [h1] at hb; exact hb.elim
        | again r1 a =>
          rw [h1] at hb
          obtain ⟨rfl, hab⟩ := hb
          rw [waitLoop_succ_again K env1 cancelFlag sockfd infiniteTimeout _ i r _ w1 _ h1]
          exact ih (i + 1) r1 a b2 s c b (by omega) hab h

theorem csocket_connect_insert_fwd (host : String) (port T : Int) (w : World) (j : Nat)
    (x : WaitResult) (hx : x.retval < 0 ∧ x.err = K.EINTR)
    (hc : ∀ i, cancelSeen cancelFlag i = false) (fuel : Nat) (s : Site) (c : Int) (a : World)
    (h : csocket_connect K env host port T cancelFlag fuel w = .returned s c a) :
    ∃ b, csocket_connect K (env.withWaits (insertWait env.waits j x)) host port T cancelFlag
      (fuel + 1) w = .returned s c b ∧ a.sim b := by
  cases hres : env.resolve host with
  | none =>
    rw [csocket_connect_unresolved K env cancelFlag host port T _ w hres] at h
    rw [csocket_connect_unresolved K (env.withWaits (insertWait env.waits j x)) cancelFlag host port T _ w hres]
    exact ⟨_, h, World.sim_refl a⟩
  | some hp =>
    by_cases hc0 : env.connectResult = 0
    · rw [csocket_connect_immediate K env cancelFlag host port T _ w hp hres hc0] at h
      rw [csocket_connect_immediate K (env.withWaits (insertWait env.waits j x)) cancelFlag host port T _ w hp hres hc0]
      exact ⟨_, h, World.sim_refl a⟩
    · rw [csocket_connect_pending K env cancelFlag host port T _ w hp hres hc0] at h
      rw [csocket_connect_pending K (env.withWaits (insertWait env.waits j x)) cancelFlag host port T _ w hp hres hc0]
      exact waitLoop_insert_fwd K cancelFlag env.sockfd _ env (env.withWaits (insertWait env.waits j x)) j x rfl rfl hx hc
        fuel 0 T _ _ s c a (Nat.zero_le j) (World.sim_refl _) h

theorem csocket_connect_insert_bwd (host : String) (port T : Int) (w : World) (j : Nat)
    (x : WaitResult) (hx : x.retval < 0 ∧ x.err = K.EINTR)
    (hc : ∀ i, cancelSeen cancelFlag i = false) (fuel : Nat) (s : Site) (c : Int) (b : World)
    (h : csocket_connect K (env.withWaits (insertWait env.waits j x)) host port T cancelFlag
      fuel w = .returned s c b) :
    ∃ a, csocket_connect K env host port T cancelFlag fuel w = .returned s c a ∧ a.sim b := by
  cases hres : env.resolve host with
  | none =>
    rw [csocket_connect_unresolved K (env.withWaits (insertWait env.waits j x)) cancelFlag host port T _ w hres] at h
    rw [csocket_connect_unresolved K env cancelFlag host port T _ w hres]
    exact ⟨_, h, World.sim_refl b⟩
  | some hp =>
    by_cases hc0 : env.connectResult = 0
    · rw [csocket_connect_immediate K (env.withWaits (insertWait env.waits j x)) cancelFlag host port T _ w hp hres hc0]
        at h
      rw [csocket_connect_immediate K env cancelFlag host port T _ w hp hres hc0]
      exact ⟨_, h, World.sim_refl b⟩
    · rw [csocket_connect_pending K (env.withWaits (insertWait env.waits j x)) cancelFlag host port T _ w hp hres hc0] at h
      rw [csocket_connect_pending K env cancelFlag host port T _ w hp hres hc0]
      exact waitLoop_insert_bwd K cancelFlag env.sockfd _ env (env.withWaits (insertWait env.waits j x)) j x rfl rfl hx hc
        fuel 0 T _ _ s c b (Nat.zero_le j) (World.sim_refl _) h

/-! ### Flag words -/

/-- Two integers with the same bits are equal. -/
theorem int_eq_of_testBit_eq (m n : Int) (h : ∀ k, m.testBit k = n.testBit k) : m = n := by
  rcases m with a | a <;> rcases n with b | b
  · have : a = b := Nat.eq_of_testBit_eq (fun k => by simpa [Int.testBit] using h k)
    rw [this]
  · exfalso
    obtain ⟨k, hk⟩ : ∃ k, a < 2 ^ k ∧ b < 2 ^ k :=
      ⟨max a b, lt_of_le_of_lt (le_max_left a b) (Nat.lt_two_pow _),
        lt_of_le_of_lt (le_max_right a b) (Nat.lt_two_pow _)⟩
    have := h k
    simp [Int.testBit, Nat.testBit_lt_two_pow hk.1, Nat.testBit_lt_two_pow hk.2] at this
  · exfalso
    obtain ⟨k, hk⟩ : ∃ k, a < 2 ^ k ∧ b < 2 ^ k :=
      ⟨max a b, lt_of_le_of_lt (le_max_left a b) (Nat.lt_two_pow _),
        lt_of_le_of_lt (le_max_right a b) (Nat.lt_two_pow _)⟩
    have := h k
    simp [Int.testBit, Nat.testBit_lt_two_pow hk.1, Nat.testBit_lt_two_pow hk.2] at this
  · have : a = b := Nat.eq_of_testBit_eq (fun k => by simpa [Int.testBit] using h k)
    rw [this]

theorem testBit_setBlockFlags (on' f : Int) (k : Nat) :
    Int.testBit (setBlockFlags K on' f) k =
      if on' = 0 then (Int.testBit f k || Int.testBit K.O_NONBLOCK k)
      else (Int.testBit f k && !Int.testBit K.O_NONBLOCK k) := by
  unfold setBlockFlags
  split
  · rw [Int.testBit_lor]
  · rw [Int.testBit_land, Int.testBit_lnot]

theorem setBlockFlags_idem (on' f : Int) :
    setBlockFlags K on' (setBlockFlags K on' f) = setBlockFlags K on' f := by
  apply int_eq_of_testBit_eq
  intro k
  rw [testBit_setBlockFlags, testBit_setBlockFlags]
  split <;> cases Int.testBit f k <;> cases Int.testBit K.O_NONBLOCK k <;> rfl

theorem setBlockFlags_restore (f : Int) (h : Int.land f K.O_NONBLOCK = 0) :
    setBlockFlags K 1 (setBlockFlags K 0 f) = f := by
  apply int_eq_of_testBit_eq
  intro k
  have hk : (Int.testBit f k && Int.testBit K.O_NONBLOCK k) = false := by
    rw [← Int.testBit_land, h]
    simp [Int.testBit]
  rw [testBit_setBlockFlags, testBit_setBlockFlags]
  simp only [one_ne_zero, if_false, if_true]
  revert hk
  cases Int.testBit f k <;> cases Int.testBit K.O_NONBLOCK k <;> simp

theorem csocket_set_block_fdflags_open (fd on' f : Int) (w : World)
    (h : w.fdflags fd = some f) :
    (csocket_set_block K fd on' w).fdflags =
      fun d => if d = fd then some (setBlockFlags K on' f) else w.fdflags d := by
  simp [csocket_set_block_eq, fcntl_setfl, fcntl_getfl, h]

theorem csocket_set_block_errno (fd on' : Int) (w : World) :
    (csocket_set_block K fd on' w).errno = w.errno := by
  simp only [csocket_set_block_eq, fcntl_setfl, fcntl_getfl]
  split <;> rfl

/-! ### The budget -/

theorem timedOutSlices_selectEvent_zero (i : Nat) (r : Int) (h : (env.waits i).retval = 0) :
    timedOutSlices [selectEvent env sockfd infiniteTimeout i r] =
      [waitDuration infiniteTimeout r] := by
  have hb := waitDuration_bounds infiniteTimeout r
  simp only [selectEvent, timedOutSlices, Event.timedOutMs, h, List.filterMap_cons, if_true,
    List.filterMap_nil]
  rw [timeval_ms _ (by omega) (by omega)]

/-- The loop run for `n + m` iterations is the loop run for `n` iterations and
then, if it is still running, for `m` more. -/
theorem waitLoop_add (m : Nat) :
    ∀ (n i : Nat) (r : Int) (w : World),
      waitLoop K env cancelFlag sockfd infiniteTimeout (n + m) i r w =
        match waitLoop K env cancelFlag sockfd infiniteTimeout n i r w with
        | .returned s c w' => .returned s c w'
        | .running r1 w1 => waitLoop K env cancelFlag sockfd infiniteTimeout m (i + n) r1 w1 := by
  intro n
  induction n with
  | zero => intro i r w; simp [waitLoop]
  | succ n ih =>
    intro i r w
    have e : n + 1 + m = (n + m) + 1 := by omega
    have e2 : i + (n + 1) = i + 1 + n := by omega
    rw [e, e2]
    cases hb : loopBody K env cancelFlag sockfd infiniteTimeout i r w with
    | ret s c w' =>
      rw [waitLoop_succ_ret K env cancelFlag sockfd infiniteTimeout _ i r w s c w' hb,
        waitLoop_succ_ret K env cancelFlag sockfd infiniteTimeout _ i r w s c w' hb]
    | again r' w' =>
      rw [waitLoop_succ_again K env cancelFlag sockfd infiniteTimeout _ i r r' w w' hb,
        waitLoop_succ_again K env cancelFlag sockfd infiniteTimeout _ i r r' w w' hb]
      exact ih (i + 1) r' w'

/-- One iteration of the loop with a finite budget `0 < r`: the subtraction
does not wrap, and an iteration that continues leaves a smaller or equal
positive budget, the difference being the duration charged. -/
theorem loopBody_finite_again (i : Nat) (r r' : Int) (w w' : World) (h0 : 0 < r)
    (hmax : r ≤ 2147483647)
    (h : loopBody K env cancelFlag sockfd false i r w = .again r' w') :
    0 < r' ∧ r' ≤ r ∧
    w'.trace = w.trace ++ (cancelReads cancelFlag i ++ [selectEvent env sockfd false i r]) ∧
    r' + (timedOutSlices (cancelReads cancelFlag i ++ [selectEvent env sockfd false i r])).sum
      = r := by
  obtain ⟨hw, -, hcase⟩ := loopBody_again K env cancelFlag sockfd false i r r' w w' h
  subst hw
  have hd := waitDuration_finite r h0
  refine ⟨?_, ?_, by simp, ?_⟩
  · rcases hcase with ⟨-, -, rfl⟩ | ⟨-, hinf, -⟩ | ⟨-, -, -, hpos⟩
    · exact h0
    · cases hinf
    · exact hpos
  · rcases hcase with ⟨-, -, rfl⟩ | ⟨-, hinf, -⟩ | ⟨-, -, hr, -⟩
    · exact le_refl _
    · cases hinf
    · rw [hr, wrapInt32_id _ (by rw [hd]; split <;> omega) (by rw [hd]; split <;> omega), hd]
      split <;> omega
  · rcases hcase with ⟨hneg, -, rfl⟩ | ⟨-, hinf, -⟩ | ⟨hz, -, hr, -⟩
    · simp [timedOutSlices_selectEvent_neg env sockfd false i r' hneg]
    · cases hinf
    · rw [hr, wrapInt32_id _ (by rw [hd]; split <;> omega) (by rw [hd]; split <;> omega)]
      simp [timedOutSlices_selectEvent_zero env sockfd false i r hz]

/-- The budget invariant at the top of every iteration. -/
theorem waitLoop_budget (T : Int) (w0 : World) (hmax : T ≤ 2147483647) :
    ∀ (n i : Nat) (r : Int) (w : World),
      (∃ tr, w.trace = w0.trace ++ tr ∧ 0 < r ∧ r ≤ T ∧ r + (timedOutSlices tr).sum = T) →
      ∀ r' w', waitLoop K env cancelFlag sockfd false n i r w = .running r' w' →
      ∃ tr, w'.trace = w0.trace ++ tr ∧ 0 < r' ∧ r' ≤ T ∧ r' + (timedOutSlices tr).sum = T := by
  intro n i r w hP r' w' h
  refine waitLoop_running_inv K env cancelFlag sockfd false
    (P := fun _ r w => ∃ tr, w.trace = w0.trace ++ tr ∧ 0 < r ∧ r ≤ T ∧
      r + (timedOutSlices tr).sum = T) ?_ n i r w hP r' w' h
  intro j r1 w1 r2 w2 ⟨tr, htr, h0, hle, hsum⟩ hb
  obtain ⟨h1, h2, h3, h4⟩ :=
    loopBody_finite_again K env cancelFlag sockfd j r1 r2 w1 w2 h0 (by omega) hb
  refine ⟨tr ++ (cancelReads cancelFlag j ++ [selectEvent env sockfd false j r1]), ?_, h1,
    by omega, ?_⟩
  · rw [h3, htr, List.append_assoc]
  · rw [timedOutSlices_append, List.sum_append]
    omega

/-- A loop with a finite budget that returns from the timed-out return
statement has charged the whole budget. -/
theorem waitLoop_budget_exhausted (T : Int) (w0 : World) (hmax : T ≤ 2147483647) :
    ∀ (n i : Nat) (r : Int) (w : World),
      (∃ tr, w.trace = w0.trace ++ tr ∧ 0 < r ∧ r ≤ T ∧ r + (timedOutSlices tr).sum = T) →
      ∀ c w', waitLoop K env cancelFlag sockfd false n i r w = .returned .timedOut c w' →
      ∃ tr, w'.trace = w0.trace ++ tr ∧ (timedOutSlices tr).sum = T := by
  intro n i r w hP c w' h
  refine waitLoop_returned_inv K env cancelFlag sockfd false
    (P := fun _ r w => ∃ tr, w.trace = w0.trace ++ tr ∧ 0 < r ∧ r ≤ T ∧
      r + (timedOutSlices tr).sum = T)
    (Q := fun s _ w' => s = .timedOut → ∃ tr, w'.trace = w0.trace ++ tr ∧
      (timedOutSlices tr).sum = T) ?_ ?_ n i r w hP .timedOut c w' h rfl
  · intro j r1 w1 r2 w2 ⟨tr, htr, h0, hle, hsum⟩ hb
    obtain ⟨h1, h2, h3, h4⟩ :=
      loopBody_finite_again K env cancelFlag sockfd j r1 r2 w1 w2 h0 (by omega) hb
    refine ⟨tr ++ (cancelReads cancelFlag j ++ [selectEvent env sockfd false j r1]), ?_, h1,
      by omega, ?_⟩
    · rw [h3, htr, List.append_assoc]
    · rw [timedOutSlices_append, List.sum_append]
      omega
  · intro j r1 w1 s c1 w2 ⟨tr, htr, h0, hle, hsum⟩ hb hs
    subst hs
    rcases loopBody_ret K env cancelFlag sockfd false j r1 w1 _ c1 w2 hb with
      ⟨hs, -⟩ | ⟨hs, -⟩ | ⟨-, -, -, hz, -, hwrap, hw⟩ | ⟨hs, -⟩ | ⟨hs, -⟩
    · cases hs
    · cases hs
    · subst hw
      have hd := waitDuration_finite r1 h0
      rw [wrapInt32_id _ (by rw [hd]; split <;> omega) (by rw [hd]; split <;> omega)] at hwrap
      have hdr : waitDuration false r1 = r1 := by
        rw [hd] at hwrap ⊢
        split at hwrap <;> split <;> omega
      refine ⟨tr ++ (cancelReads cancelFlag j ++ [selectEvent env sockfd false j r1] ++
        [.close sockfd]), by simp [htr], ?_⟩
      have hclose : timedOutSlices [Event.close sockfd] = [] := rfl
      have e1 : timedOutSlices (tr ++ (cancelReads cancelFlag j ++
          [selectEvent env sockfd false j r1] ++ [.close sockfd])) =
          timedOutSlices tr ++ [r1] := by
        simp only [timedOutSlices_append, timedOutSlices_cancelReads,
          timedOutSlices_selectEvent_zero env sockfd false j r1 hz, hdr, hclose,
          List.nil_append, List.append_nil]
      rw [e1, List.sum_append, List.sum_cons, List.sum_nil]
      omega
    · cases hs
    · cases hs

@[simp]
theorem timedOutSlices_nil : timedOutSlices [] = [] := rfl

@[simp]
theorem timedOutSlices_prologue (host : String) (port : Int) (hp : HostEnt) (w : World) :
    timedOutSlices (prologue K env host port hp w) = [] := rfl

/-- A run that is still in the loop got there through a pending `connect`. -/
theorem csocket_connect_running (host : String) (port T : Int) (fuel : Nat) (w : World)
    (r : Int) (w' : World)
    (h : csocket_connect K env host port T cancelFlag fuel w = .running r w') :
    ∃ hp, env.resolve host = some hp ∧ env.connectResult ≠ 0 ∧
      waitLoop K env cancelFlag env.sockfd (decide (T ≤ 0)) fuel 0 T
        (afterConnect K env host port hp w) = .running r w' := by
  cases hres : env.resolve host with
  | none =>
    rw [csocket_connect_unresolved K env cancelFlag host port T fuel w hres] at h
    cases h
  | some hp =>
    by_cases hc : env.connectResult = 0
    · rw [csocket_connect_immediate K env cancelFlag host port T fuel w hp hres hc] at h
      cases h
    · rw [csocket_connect_pending K env cancelFlag host port T fuel w hp hres hc] at h
      exact ⟨hp, rfl, hc, h⟩

/-- The budget invariant for a run of `csocket_connect` that is in the loop. -/
theorem csocket_connect_running_budget (host : String) (port T : Int) (n : Nat) (w : World)
    (r : Int) (w' : World) (hT : 0 < T) (hmax : T ≤ 2147483647)
    (h : csocket_connect K env host port T cancelFlag n w = .running r w') :
    0 < r ∧ r ≤ T ∧ r + (timedOutSlices (issued w w')).sum = T := by
  have hinf : decide (T ≤ 0) = false := by simp; omega
  obtain ⟨hp, -, -, hl⟩ := csocket_connect_running K env cancelFlag host port T n w r w' h
  rw [hinf] at hl
  obtain ⟨tr, htr, h0, hle, hsum⟩ := waitLoop_budget K env cancelFlag env.sockfd T
    (afterConnect K env host port hp w) hmax n 0 T _ ⟨[], by simp, hT, le_refl _, by simp⟩ r w' hl
  rw [afterConnect_trace, List.append_assoc] at htr
  rw [issued_of_trace htr]
  simpa using ⟨h0, hle, hsum⟩

/-- The trace of a run of `csocket_connect` that is in the loop extends the
trace it started from. -/
theorem csocket_connect_running_trace (host : String) (port T : Int) (n : Nat) (w : World)
    (r : Int) (w' : World)
    (h : csocket_connect K env host port T cancelFlag n w = .running r w') :
    w'.trace = w.trace ++ issued w w' := by
  obtain ⟨tr, htr⟩ : ∃ tr, w'.trace = w.trace ++ tr := by
    obtain ⟨hp, -, -, hl⟩ := csocket_connect_running K env cancelFlag host port T n w r w' h
    obtain ⟨tr0, htr0⟩ := waitLoop_trace K env cancelFlag env.sockfd (decide (T ≤ 0)) n 0 T
      (afterConnect K env host port hp w)
    rw [hl] at htr0
    simp only [Run.world] at htr0
    rw [afterConnect_trace, List.append_assoc] at htr0
    exact ⟨_, htr0⟩
  rw [issued_of_trace htr]
  exact htr

/-- One more iteration from the top of iteration `n`. -/
theorem csocket_connect_running_succ (host : String) (port T : Int) (n : Nat) (w : World)
    (r : Int) (w' : World)
    (h : csocket_connect K env host port T cancelFlag n w = .running r w') :
    csocket_connect K env host port T cancelFlag (n + 1) w =
      match loopBody K env cancelFlag env.sockfd (decide (T ≤ 0)) n r w' with
      | .ret s c w2 => .returned s c w2
      | .again r2 w2 => .running r2 w2 := by
  obtain ⟨hp, hres, hconn, hl⟩ := csocket_connect_running K env cancelFlag host port T n w r w' h
  rw [csocket_connect_pending K env cancelFlag host port T (n + 1) w hp hres hconn,
    waitLoop_add, hl]
  simp only [Nat.zero_add]
  cases hb : loopBody K env cancelFlag env.sockfd (decide (T ≤ 0)) n r w' with
  | ret s c w2 =>
    rw [waitLoop_succ_ret K env cancelFlag env.sockfd _ 0 n r w' s c w2 hb]
  | again r2 w2 =>
    rw [waitLoop_succ_again K env cancelFlag env.sockfd _ 0 n r r2 w' w2 hb]
    rfl

/-! ### The wait slice -/

/-- The `select` call of an iteration, with the `timeval` worked out. -/
theorem selectEvent_shape (i : Nat) (r : Int) :
    selectEvent env sockfd infiniteTimeout i r =
      .select (wrapInt32 (sockfd + 1)) sockfd 0 (waitDuration infiniteTimeout r * 1000)
        (env.waits i).retval := by
  have hb := waitDuration_bounds infiniteTimeout r
  unfold selectEvent
  rw [Int.tdiv_eq_zero_of_lt (by omega) (by omega), Int.tmod_eq_of_lt (by omega) (by omega)]

theorem isSelect_of_mem_cancelReads (i : Nat) (e : Event) (h : e ∈ cancelReads cancelFlag i) :
    e.isSelect = false := by
  cases cancelFlag with
  | none => simp [cancelReads] at h
  | some f => simp [cancelReads] at h; subst h; rfl

theorem select_of_mem (pre rest : List Event) (sel e : Event)
    (hpre : ∀ x ∈ pre, x.isSelect = false) (hrest : ∀ x ∈ rest, x.isSelect = false)
    (he : e ∈ pre ++ sel :: rest) (hs : e.isSelect = true) : e = sel := by
  simp only [List.mem_append, List.mem_cons] at he
  rcases he with h | h | h
  · rw [hpre e h] at hs; cases hs
  · exact h
  · rw [hrest e h] at hs; cases hs

/-- The calls of one pass through the loop body: the only `select` among them
is the one with this iteration's wait duration, and unless the flag is seen
set it comes right after the read of the flag. -/
theorem loopBody_events (i : Nat) (r : Int) (w : World) :
    ∃ tr, (loopBody K env cancelFlag sockfd infiniteTimeout i r w).world.trace = w.trace ++ tr ∧
      (∀ e ∈ tr, e.isSelect = true → e = selectEvent env sockfd infiniteTimeout i r) ∧
      (cancelSeen cancelFlag i = false → ∃ rest,
        tr = cancelReads cancelFlag i ++ selectEvent env sockfd infiniteTimeout i r :: rest) := by
  have hpre := isSelect_of_mem_cancelReads cancelFlag i
  rw [loopBody_eq]
  split_ifs with h1 h2 h3 h4 h5 h6 h7
  · refine ⟨cancelReads cancelFlag i ++ [.close sockfd], by simp [Iter.world], ?_, ?_⟩
    · intro e he hs
      simp only [List.mem_append, List.mem_singleton] at he
      rcases he with h | h
      · rw [hpre e h] at hs; cases hs
      · subst h; cases hs
    · intro hc; rw [hc] at h1; cases h1
  · exact ⟨cancelReads cancelFlag i ++ selectEvent env sockfd infiniteTimeout i r :: [],
      by simp [Iter.world],
      fun e he hs => select_of_mem _ _ _ e hpre (by simp) he hs, fun _ => ⟨[], rfl⟩⟩
  · exact ⟨cancelReads cancelFlag i ++ selectEvent env sockfd infiniteTimeout i r ::
        [.close sockfd], by simp [Iter.world],
      fun e he hs => select_of_mem _ _ _ e hpre (by simp [Event.isSelect]) he hs,
      fun _ => ⟨_, rfl⟩⟩
  · exact ⟨cancelReads cancelFlag i ++ selectEvent env sockfd infiniteTimeout i r :: [],
      by simp [Iter.world],
      fun e he hs => select_of_mem _ _ _ e hpre (by simp) he hs, fun _ => ⟨[], rfl⟩⟩
  · exact ⟨cancelReads cancelFlag i ++ selectEvent env sockfd infiniteTimeout i r ::
        [.close sockfd], by simp [Iter.world],
      fun e he hs => select_of_mem _ _ _ e hpre (by simp [Event.isSelect]) he hs,
      fun _ => ⟨_, rfl⟩⟩
  · exact ⟨cancelReads cancelFlag i ++ selectEvent env sockfd infiniteTimeout i r :: [],
      by simp [Iter.world],
      fun e he hs => select_of_mem _ _ _ e hpre (by simp) he hs, fun _ => ⟨[], rfl⟩⟩
  · exact ⟨cancelReads cancelFlag i ++ selectEvent env sockfd infiniteTimeout i r ::
        [.getsockopt sockfd env.soError, .close sockfd], by simp [Iter.world],
      fun e he hs => select_of_mem _ _ _ e hpre (by simp [Event.isSelect]) he hs,
      fun _ => ⟨_, rfl⟩⟩
  · exact ⟨cancelReads cancelFlag i ++ selectEvent env sockfd infiniteTimeout i r ::
        [.getsockopt sockfd env.soError, .fcntlGetfl sockfd,
          .fcntlSetfl sockfd (setBlockFlags K 1 (fcntl_getfl sockfd (os_getsockopt env sockfd
            (afterSelect env cancelFlag sockfd infiniteTimeout i r w)).2).1), .signalIgnore],
      by simp [Iter.world],
      fun e he hs => select_of_mem _ _ _ e hpre (by simp [Event.isSelect]) he hs,
      fun _ => ⟨_, rfl⟩⟩

theorem waitLoop_one_world (i : Nat) (r : Int) (w : World) :
    (waitLoop K env cancelFlag sockfd infiniteTimeout 1 i r w).world =
      (loopBody K env cancelFlag sockfd infiniteTimeout i r w).world := by
  cases hb : loopBody K env cancelFlag sockfd infiniteTimeout i r w with
  | ret s c w' =>
    rw [waitLoop_succ_ret K env cancelFlag sockfd infiniteTimeout 0 i r w s c w' hb]; rfl
  | again r' w' =>
    rw [waitLoop_succ_again K env cancelFlag sockfd infiniteTimeout 0 i r r' w w' hb]; rfl

/-- Every `select` call of the loop has a `timeval` of `tv_sec = 0` and
`tv_usec = d * 1000` for a duration `1 ≤ d ≤ 100`, which is 100 when the
timeout is infinite. -/
theorem waitLoop_selects :
    ∀ (fuel i : Nat) (r : Int) (w : World),
      ∃ tr, (waitLoop K env cancelFlag sockfd infiniteTimeout fuel i r w).world.trace =
          w.trace ++ tr ∧
        ∀ e ∈ tr, e.isSelect = true → ∃ d ret,
          e = .select (wrapInt32 (sockfd + 1)) sockfd 0 (d * 1000) ret ∧
          1 ≤ d ∧ d ≤ 100 ∧ (infiniteTimeout = true → d = 100) := by
  intro fuel
  induction fuel with
  | zero => intro i r w; exact ⟨[], by simp [waitLoop, Run.world], by simp⟩
  | succ n ih =>
    intro i r w
    obtain ⟨tr, htr, hsel, -⟩ := loopBody_events K env cancelFlag sockfd infiniteTimeout i r w
    have hshape : ∀ e ∈ tr, e.isSelect = true → ∃ d ret,
        e = .select (wrapInt32 (sockfd + 1)) sockfd 0 (d * 1000) ret ∧
        1 ≤ d ∧ d ≤ 100 ∧ (infiniteTimeout = true → d = 100) := by
      intro e he hs
      have hb := waitDuration_bounds infiniteTimeout r
      refine ⟨waitDuration infiniteTimeout r, (env.waits i).retval, ?_, hb.1, hb.2, ?_⟩
      · rw [hsel e he hs, selectEvent_shape]
      · intro hinf; rw [hinf, waitDuration_infinite]
    cases hb : loopBody K env cancelFlag sockfd infiniteTimeout i r w with
    | ret s c w' =>
      rw [waitLoop_succ_ret K env cancelFlag sockfd infiniteTimeout n i r w s c w' hb]
      rw [hb] at htr
      exact ⟨tr, htr, hshape⟩
    | again r' w' =>
      rw [waitLoop_succ_again K env cancelFlag sockfd infiniteTimeout n i r r' w w' hb]
      rw [hb] at htr
      obtain ⟨tr2, htr2, hshape2⟩ := ih (i + 1) r' w'
      refine ⟨tr ++ tr2, ?_, ?_⟩
      · rw [htr2]
        simp only [Iter.world] at htr
        rw [htr, List.append_assoc]
      · intro e he hs
        rcases List.mem_append.1 he with h | h
        · exact hshape e h hs
        · exact hshape2 e h hs

/-! ### A null cancel flag -/

/-- A property of the calls of every pass through the loop body holds of all
calls of the loop. -/
theorem waitLoop_events (p : Event → Prop)
    (hbody : ∀ (i : Nat) (r : Int) (w : World), ∃ tr,
      (loopBody K env cancelFlag sockfd infiniteTimeout i r w).world.trace = w.trace ++ tr ∧
      ∀ e ∈ tr, p e) :
    ∀ (fuel i : Nat) (r : Int) (w : World),
      ∃ tr, (waitLoop K env cancelFlag sockfd infiniteTimeout fuel i r w).world.trace =
          w.trace ++ tr ∧ ∀ e ∈ tr, p e := by
  intro fuel
  induction fuel with
  | zero => intro i r w; exact ⟨[], by simp [waitLoop, Run.world], by simp⟩
  | succ n ih =>
    intro i r w
    obtain ⟨tr, htr, hp⟩ := hbody i r w
    cases hb : loopBody K env cancelFlag sockfd infiniteTimeout i r w with
    | ret s c w' =>
      rw [waitLoop_succ_ret K env cancelFlag sockfd infiniteTimeout n i r w s c w' hb]
      rw [hb] at htr
      exact ⟨tr, htr, hp⟩
    | again r' w' =>
      rw [waitLoop_succ_again K env cancelFlag sockfd infiniteTimeout n i r r' w w' hb]
      rw [hb] at htr
      obtain ⟨tr2, htr2, hp2⟩ := ih (i + 1) r' w'
      refine ⟨tr ++ tr2, ?_, ?_⟩
      · rw [htr2]
        simp only [Iter.world] at htr
        rw [htr, List.append_assoc]
      · intro e he
        rcases List.mem_append.1 he with h | h
        · exact hp e h
        · exact hp2 e h

/-- With a null cancel flag a pass through the loop body does not read it. -/
theorem loopBody_null_events (i : Nat) (r : Int) (w : World) :
    ∃ tr, (loopBody K env none sockfd infiniteTimeout i r w).world.trace = w.trace ++ tr ∧
      ∀ e ∈ tr, e.isReadCancel = false := by
  have hc : cancelSeen (none : Option (Nat → Int)) i = false := rfl
  refine ⟨issued w (loopBody K env none sockfd infiniteTimeout i r w).world, ?_, ?_⟩ <;>
    rw [loopBody_eq, if_neg (by simp [hc])] <;>
    split_ifs <;>
    simp [Iter.world, issued, cancelReads, Event.isReadCancel, selectEvent]

/-! ### Cause and outcome -/

/-- A loop that returns does so from an iteration `i + j` whose top the loop
reaches in `j` iterations. -/
theorem waitLoop_returned_reached :
    ∀ (fuel i : Nat) (r : Int) (w : World) (s : Site) (c : Int) (w' : World),
      waitLoop K env cancelFlag sockfd infiniteTimeout fuel i r w = .returned s c w' →
      ∃ (j : Nat) (r1 : Int) (w1 : World), j < fuel ∧
        waitLoop K env cancelFlag sockfd infiniteTimeout j i r w = .running r1 w1 ∧
        loopBody K env cancelFlag sockfd infiniteTimeout (i + j) r1 w1 = .ret s c w' := by
  intro fuel
  induction fuel with
  | zero => intro i r w s c w' h; simp [waitLoop] at h
  | succ n ih =>
    intro i r w s c w' h
    cases hb : loopBody K env cancelFlag sockfd infiniteTimeout i r w with
    | ret s1 c1 w1 =>
      rw [waitLoop_succ_ret K env cancelFlag sockfd infiniteTimeout n i r w s1 c1 w1 hb] at h
      cases h
      exact ⟨0, r, w, by omega, rfl, by simpa using hb⟩
    | again r1 w1 =>
      rw [waitLoop_succ_again K env cancelFlag sockfd infiniteTimeout n i r r1 w w1 hb] at h
      obtain ⟨j, r2, w2, hj, hrun, hbody⟩ := ih (i + 1) r1 w1 s c w' h
      refine ⟨j + 1, r2, w2, by omega, ?_, ?_⟩
      · rw [waitLoop_succ_again K env cancelFlag sockfd infiniteTimeout j i r r1 w w1 hb]
        exact hrun
      · have e : i + (j + 1) = i + 1 + j := by omega
        rw [e]; exact hbody

/-- A run of `csocket_connect` that returned from the loop did so from an
iteration `j` whose top the run reaches with `j` iterations allowed. -/
theorem csocket_connect_returned_reached (host : String) (port T : Int) (fuel : Nat)
    (w : World) (hp : HostEnt) (hres : env.resolve host = some hp)
    (hconn : env.connectResult ≠ 0) (s : Site) (c : Int) (w' : World)
    (h : csocket_connect K env host port T cancelFlag fuel w = .returned s c w') :
    ∃ (j : Nat) (r1 : Int) (w1 : World), j < fuel ∧
      csocket_connect K env host port T cancelFlag j w = .running r1 w1 ∧
      loopBody K env cancelFlag env.sockfd (decide (T ≤ 0)) j r1 w1 = .ret s c w' := by
  rw [csocket_connect_pending K env cancelFlag host port T fuel w hp hres hconn] at h
  obtain ⟨j, r1, w1, hj, hrun, hbody⟩ :=
    waitLoop_returned_reached K env cancelFlag env.sockfd _ fuel 0 T _ s c w' h
  refine ⟨j, r1, w1, hj, ?_, by simpa using hbody⟩
  rw [csocket_connect_pending K env cancelFlag host port T j w hp hres hconn]
  exact hrun

/-- What one more iteration does from the top of iteration `n`, by the answers
of the environment in that iteration: each cause has its outcome. -/
theorem csocket_connect_step_exact (host : String) (port T : Int) (n : Nat) (w : World)
    (r : Int) (w1 : World)
    (h : csocket_connect K env host port T cancelFlag n w = .running r w1) :
    (cancelSeen cancelFlag n = true → ∀ extra, ∃ w2,
      csocket_connect K env host port T cancelFlag (n + 1 + extra) w =
        .returned .cancelled (-5) w2) ∧
    (cancelSeen cancelFlag n = false → (env.waits n).retval < 0 →
      (env.waits n).err ≠ K.EINTR → ∀ extra, ∃ w2,
      csocket_connect K env host port T cancelFlag (n + 1 + extra) w =
        .returned .waitFailed (-2) w2) ∧
    (cancelSeen cancelFlag n = false → (env.waits n).retval < 0 →
      (env.waits n).err = K.EINTR → ∃ w2,
      csocket_connect K env host port T cancelFlag (n + 1) w = .running r w2) ∧
    (cancelSeen cancelFlag n = false → (env.waits n).retval = 0 → T ≤ 0 → ∃ w2,
      csocket_connect K env host port T cancelFlag (n + 1) w = .running r w2) ∧
    (cancelSeen cancelFlag n = false → (env.waits n).retval = 0 → 0 < T →
      wrapInt32 (r - waitDuration false r) ≤ 0 → ∀ extra, ∃ w2,
      csocket_connect K env host port T cancelFlag (n + 1 + extra) w =
        .returned .timedOut (-3) w2) ∧
    (cancelSeen cancelFlag n = false → (env.waits n).retval = 0 → 0 < T →
      0 < wrapInt32 (r - waitDuration false r) → ∃ w2,
      csocket_connect K env host port T cancelFlag (n + 1) w =
        .running (wrapInt32 (r - waitDuration false r)) w2) ∧
    (cancelSeen cancelFlag n = false → 0 < (env.waits n).retval → env.soError ≠ 0 →
      ∀ extra, ∃ w2,
      csocket_connect K env host port T cancelFlag (n + 1 + extra) w =
        .returned .connectError (-4) w2) ∧
    (cancelSeen cancelFlag n = false → 0 < (env.waits n).retval → env.soError = 0 →
      ∀ extra, ∃ w2,
      csocket_connect K env host port T cancelFlag (n + 1 + extra) w =
        .returned .ready env.sockfd w2) := by
  have hstep := csocket_connect_running_succ K env cancelFlag host port T n w r w1 h
  have hb := loopBody_eq K env cancelFlag env.sockfd (decide (T ≤ 0)) n r w1
  refine ⟨?_, ?_, ?_, ?_, ?_, ?_, ?_, ?_⟩
  · intro hc extra
    rw [if_pos hc] at hb
    rw [hb] at hstep
    exact ⟨_, csocket_connect_fuel_mono K env cancelFlag host port T (n + 1) extra w _ _ _ hstep⟩
  · intro hc hneg herr extra
    rw [if_neg (by simp [hc]), if_pos hneg, if_neg herr] at hb
    rw [hb] at hstep
    exact ⟨_, csocket_connect_fuel_mono K env cancelFlag host port T (n + 1) extra w _ _ _ hstep⟩
  · intro hc hneg herr
    rw [if_neg (by simp [hc]), if_pos hneg, if_pos herr] at hb
    rw [hb] at hstep
    exact ⟨_, hstep⟩
  · intro hc hz hT
    rw [if_neg (by simp [hc]), if_neg (by omega), if_pos hz, if_pos (by simpa using hT)] at hb
    rw [hb] at hstep
    exact ⟨_, hstep⟩
  · intro hc hz hT hout extra
    have hinf : decide (T ≤ 0) = false := by simp; omega
    rw [hinf] at hb hstep
    rw [if_neg (by simp [hc]), if_neg (by omega), if_pos hz, if_neg (by simp), if_pos hout] at hb
    rw [hb] at hstep
    exact ⟨_, csocket_connect_fuel_mono K env cancelFlag host port T (n + 1) extra w _ _ _ hstep⟩
  · intro hc hz hT hleft
    have hinf : decide (T ≤ 0) = false := by simp; omega
    rw [hinf] at hb hstep
    rw [if_neg (by simp [hc]), if_neg (by omega), if_pos hz, if_neg (by simp),
      if_neg (by omega)] at hb
    rw [hb] at hstep
    exact ⟨_, hstep⟩
  · intro hc hpos herr extra
    rw [if_neg (by simp [hc]), if_neg (by omega), if_neg (by omega), if_pos herr] at hb
    rw [hb] at hstep
    exact ⟨_, csocket_connect_fuel_mono K env cancelFlag host port T (n + 1) extra w _ _ _ hstep⟩
  · intro hc hpos herr extra
    rw [if_neg (by simp [hc]), if_neg (by omega), if_neg (by omega),
      if_neg (by simp [herr])] at hb
    rw [hb] at hstep
    exact ⟨_, csocket_connect_fuel_mono K env cancelFlag host port T (n + 1) extra w _ _ _ hstep⟩

end Basics

end CSocketHelper

/-! ## The claims -/

namespace CSocketHelper

/-- C1: for a finite timeout `T > 0`, when the host resolves, `connect` does not
complete at once, the cancel flag is never observed set and every wait times
out, `csocket_connect` returns -3 from the timed-out return statement after
exactly `slicesNeeded T = ceil(T/100)` waits, each between 1 and 100 ms long, whose
durations add up to exactly `T` (so between `T - 100` and `T + 100`); the socket
is closed exactly once, as the last call issued.  `slicesNeeded T` is the least
number of 100 ms slices that cover `T`. -/
theorem csocket_connect_timed_out_exact (K : Hdr) (env : Env) (host : String) (port T : Int)
    (cancelFlag : Option (Nat → Int)) (w : World) (hp : HostEnt)
    (hres : env.resolve host = some hp) (hconn : env.connectResult ≠ 0)
    (hT : 0 < T) (hmax : T ≤ 2147483647)
    (hcancel : ∀ i, cancelSeen cancelFlag i = false)
    (hwait : ∀ i, (env.waits i).retval = 0)
    (fuel : Nat) (hfuel : slicesNeeded T ≤ fuel) :
    ∃ w', csocket_connect K env host port T cancelFlag fuel w = .returned .timedOut (-3) w' ∧
      (waitSlices (issued w w')).length = slicesNeeded T ∧
      (∀ d ∈ waitSlices (issued w w'), 1 ≤ d ∧ d ≤ 100) ∧
      (waitSlices (issued w w')).sum = T ∧
      T - 100 ≤ (waitSlices (issued w w')).sum ∧ (waitSlices (issued w w')).sum ≤ T + 100 ∧
      (issued w w').filter Event.isClose = [.close env.sockfd] ∧
      (issued w w').getLast? = some (.close env.sockfd) ∧
      w'.fdflags env.sockfd = none ∧
      100 * ((slicesNeeded T : Int) - 1) < T ∧ T ≤ 100 * (slicesNeeded T : Int) := by
  have hceil : 100 * ((slicesNeeded T : Int) - 1) < T ∧ T ≤ 100 * (slicesNeeded T : Int) := by
    unfold slicesNeeded; omega
  rw [csocket_connect_pending K env cancelFlag host port T fuel w hp hres hconn]
  have hinf : decide (T ≤ 0) = false := by simp; omega
  rw [hinf]
  obtain ⟨w', tr, h1, h2, h3, h4, h5, h6, h7⟩ :=
    waitLoop_times_out K env cancelFlag env.sockfd hcancel hwait fuel 0 T
      (afterConnect K env host port hp w) hT hmax hfuel
  rw [afterConnect_trace] at h2
  have hi : issued w w' = prologue K env host port hp w ++ tr ++ [.close env.sockfd] :=
    issued_of_trace (by rw [h2]; simp)
  refine ⟨w', h1, ?_, ?_, ?_, ?_, ?_, ?_, ?_, h7, hceil⟩ <;> rw [hi]
  · simpa using h4
  · simpa using h6
  · simpa using h5
  · simp [h5]
  · simp [h5]
  · simp [h3, Event.isClose]
  · simp

/-- C1 at `T = 250` with three iterations allowed: waits of 100, 100 and 50 ms. -/
theorem csocket_connect_timed_out_exact_witness :
    ∃ w', csocket_connect sampleHdr sampleEnv "host" 80 250 none 3 sampleWorld =
        .returned .timedOut (-3) w' ∧
      (waitSlices (issued sampleWorld w')).length = slicesNeeded 250 ∧
      (∀ d ∈ waitSlices (issued sampleWorld w'), 1 ≤ d ∧ d ≤ 100) ∧
      (waitSlices (issued sampleWorld w')).sum = 250 ∧
      250 - 100 ≤ (waitSlices (issued sampleWorld w')).sum ∧
      (waitSlices (issued sampleWorld w')).sum ≤ 250 + 100 ∧
      (issued sampleWorld w').filter Event.isClose = [.close sampleEnv.sockfd] ∧
      (issued sampleWorld w').getLast? = some (.close sampleEnv.sockfd) ∧
      w'.fdflags sampleEnv.sockfd = none ∧
      100 * ((slicesNeeded 250 : Int) - 1) < 250 ∧ (250 : Int) ≤ 100 * (slicesNeeded 250 : Int) :=
  csocket_connect_timed_out_exact sampleHdr sampleEnv "host" 80 250 none sampleWorld sampleHost
    rfl (by decide) (by decide) (by decide) (fun _ => rfl) (fun _ => rfl) 3 (by decide)

/-- C9: when the host does not resolve, `csocket_connect` returns -1 from the
first return statement for every port, timeout, cancel flag and iteration
bound; the only call it issues is `gethostbyname`, so no socket is created,
connected, waited on or closed, and the descriptor table and the SIGPIPE
disposition are unchanged. -/
theorem csocket_connect_resolution_failed (K : Hdr) (env : Env) (host : String) (port T : Int)
    (cancelFlag : Option (Nat → Int)) (fuel : Nat) (w : World)
    (hres : env.resolve host = none) :
    ∃ w', csocket_connect K env host port T cancelFlag fuel w =
        .returned .resolutionFailed (-1) w' ∧
      issued w w' = [.gethostbyname host false] ∧
      w'.fdflags = w.fdflags ∧
      w'.sigpipeIgnored = w.sigpipeIgnored ∧
      w'.errno = w.errno := by
  refine ⟨_, csocket_connect_unresolved K env cancelFlag host port T fuel w hres, ?_, rfl, rfl,
    rfl⟩
  exact issued_of_trace rfl

/-- C9 for an environment in which no name resolves, with the cancel flag set. -/
theorem csocket_connect_resolution_failed_witness :
    ∃ w', csocket_connect sampleHdr { sampleEnv with resolve := fun _ => none } "nowhere.invalid"
        80 1000 (some fun _ => 1) 4 sampleWorld = .returned .resolutionFailed (-1) w' ∧
      issued sampleWorld w' = [.gethostbyname "nowhere.invalid" false] ∧
      w'.fdflags = sampleWorld.fdflags ∧
      w'.sigpipeIgnored = sampleWorld.sigpipeIgnored ∧
      w'.errno = sampleWorld.errno :=
  csocket_connect_resolution_failed sampleHdr { sampleEnv with resolve := fun _ => none }
    "nowhere.invalid" 80 1000 (some fun _ => 1) 4 sampleWorld rfl

/-- C3: whenever `csocket_connect` returns from one of its two `return sockfd`
statements (connect completed at once, or readiness with no pending error),
the value returned is the socket, the world it returns in is the result of
`csocket_set_block(sockfd, 1)` followed by `signal(SIGPIPE, SIG_IGN)`, these are
the last three libc calls issued, the flag word written has O_NONBLOCK clear,
the O_NONBLOCK bit of the returned descriptor is clear, and SIGPIPE is ignored. -/
theorem csocket_connect_handle_blocking (K : Hdr) (env : Env) (host : String) (port T : Int)
    (cancelFlag : Option (Nat → Int)) (fuel : Nat) (w : World) (run : Run)
    (hrun : csocket_connect K env host port T cancelFlag fuel w = run)
    (hsite : run.site? = some .immediate ∨ run.site? = some .ready) :
    run.code? = some env.sockfd ∧
    (∃ w1, run.world = os_signal_ignore (csocket_set_block K env.sockfd 1 w1)) ∧
    run.world.sigpipeIgnored = true ∧
    (∀ f, run.world.fdflags env.sockfd = some f → Int.land f K.O_NONBLOCK = 0) ∧
    (∃ pre f, issued w run.world =
        pre ++ [.fcntlGetfl env.sockfd, .fcntlSetfl env.sockfd f, .signalIgnore] ∧
      Int.land f K.O_NONBLOCK = 0) := by
  subst hrun
  cases hr : csocket_connect K env host port T cancelFlag fuel w with
  | running r w' => rw [hr] at hsite; simp [Run.site?] at hsite
  | returned s c w' =>
    rw [hr] at hsite
    simp only [Run.site?, Option.some.injEq] at hsite
    simp only [Run.code?, Run.world]
    rcases csocket_connect_returned K env cancelFlag host port T fuel w s c w' hr with
      ⟨-, hs, -, -⟩ | ⟨hp, -, -, -, hc, hw⟩ | ⟨hp, j, r1, w1, tr, -, -, -, hbody, htr, -, -⟩
    · subst hs; simp at hsite
    · subst hc hw
      obtain ⟨h1, h2, h3⟩ := handle_world K env.sockfd w _ _ (afterConnect_trace K env host port hp w)
      exact ⟨rfl, ⟨_, rfl⟩, h1, h2, _, _, h3, setBlockFlags_one_clear K _⟩
    · rcases loopBody_ret K env cancelFlag env.sockfd _ j r1 w1 s c w' hbody with
        ⟨hs, -⟩ | ⟨hs, -⟩ | ⟨hs, -⟩ | ⟨hs, -⟩ | ⟨-, hc, -, -, -, hw⟩
      · subst hs; simp at hsite
      · subst hs; simp at hsite
      · subst hs; simp at hsite
      · subst hs; simp at hsite
      · subst hc hw
        have htr2 : (os_getsockopt env env.sockfd
            (afterSelect env cancelFlag env.sockfd (decide (T ≤ 0)) j r1 w1)).2.trace =
            w.trace ++ (prologue K env host port hp w ++ tr ++ cancelReads cancelFlag j ++
              [selectEvent env env.sockfd (decide (T ≤ 0)) j r1,
                .getsockopt env.sockfd env.soError]) := by
          simp [htr]
        obtain ⟨h1, h2, h3⟩ := handle_world K env.sockfd w _ _ htr2
        exact ⟨rfl, ⟨_, rfl⟩, h1, h2, _, _, h3, setBlockFlags_one_clear K _⟩

/-- C3 on the immediate-success path: `connect` reports 0 for descriptor 5. -/
theorem csocket_connect_handle_blocking_witness :
    (csocket_connect sampleHdr { sampleEnv with connectResult := 0 } "host" 80 1000 none 2
        sampleWorld).code? = some 5 ∧
    (∃ w1, (csocket_connect sampleHdr { sampleEnv with connectResult := 0 } "host" 80 1000 none 2
        sampleWorld).world = os_signal_ignore (csocket_set_block sampleHdr 5 1 w1)) ∧
    (csocket_connect sampleHdr { sampleEnv with connectResult := 0 } "host" 80 1000 none 2
        sampleWorld).world.sigpipeIgnored = true ∧
    (∀ f, (csocket_connect sampleHdr { sampleEnv with connectResult := 0 } "host" 80 1000 none 2
        sampleWorld).world.fdflags 5 = some f → Int.land f sampleHdr.O_NONBLOCK = 0) ∧
    (∃ pre f, issued sampleWorld (csocket_connect sampleHdr { sampleEnv with connectResult := 0 }
        "host" 80 1000 none 2 sampleWorld).world =
        pre ++ [.fcntlGetfl 5, .fcntlSetfl 5 f, .signalIgnore] ∧
      Int.land f sampleHdr.O_NONBLOCK = 0) :=
  csocket_connect_handle_blocking sampleHdr { sampleEnv with connectResult := 0 } "host" 80 1000
    none 2 sampleWorld _ rfl (Or.inl rfl)

/-- C2 as stated fails: with the cancel flag set from the start, a call whose
`connect` completes at once still returns the socket (5), and a call whose host
does not resolve returns -1; neither reports -5. -/
theorem csocket_connect_cancel_set_counterexample :
    (∀ i, cancelSeen (some fun _ => 1) i = true) ∧
    (csocket_connect sampleHdr { sampleEnv with connectResult := 0 } "host" 80 1000
      (some fun _ => 1) 4 sampleWorld).site? = some .immediate ∧
    (csocket_connect sampleHdr { sampleEnv with connectResult := 0 } "host" 80 1000
      (some fun _ => 1) 4 sampleWorld).code? = some 5 ∧
    (csocket_connect sampleHdr { sampleEnv with resolve := fun _ => none } "host" 80 1000
      (some fun _ => 1) 4 sampleWorld).code? = some (-1) :=
  ⟨fun _ => rfl, rfl, rfl, rfl⟩

/-- C2, amended: the cancel flag is read only at the top of the wait loop.
(1) When the host resolves, `connect` does not complete at once and the cancel
flag is observed set at the first check (a non-null pointer to a non-zero
flag), `csocket_connect` returns -5 from the cancellation return statement in
the first iteration, for every timeout: after `connect` it only reads the flag
and closes the socket, no `select` is issued, the descriptor is closed and
`errno` is ECANCELED.  (2) When the host does not resolve, the call returns -1
and its only call is `gethostbyname`: the flag is not read.  (3) When `connect`
completes at once, the call returns the socket after the two `fcntl` calls of
`csocket_set_block(sockfd, 1)` and `signal`: the flag is not read. -/
theorem csocket_connect_cancelled_at_first_check (K : Hdr) (env : Env) (host : String)
    (port T : Int) (cancelFlag : Option (Nat → Int)) (fuel : Nat) (w : World) :
    (∀ hp, env.resolve host = some hp → env.connectResult ≠ 0 →
      cancelSeen cancelFlag 0 = true → 0 < fuel →
      ∃ w', csocket_connect K env host port T cancelFlag fuel w = .returned .cancelled (-5) w' ∧
        issued w w' =
          prologue K env host port hp w ++ cancelReads cancelFlag 0 ++ [.close env.sockfd] ∧
        waitSlices (issued w w') = [] ∧
        (issued w w').filter Event.isClose = [.close env.sockfd] ∧
        w'.fdflags env.sockfd = none ∧
        w'.errno = K.ECANCELED) ∧
    (env.resolve host = none →
      ∃ w', csocket_connect K env host port T cancelFlag fuel w =
          .returned .resolutionFailed (-1) w' ∧
        issued w w' = [.gethostbyname host false] ∧
        ∀ e ∈ issued w w', e.isReadCancel = false) ∧
    (∀ hp, env.resolve host = some hp → env.connectResult = 0 →
      ∃ w' f, csocket_connect K env host port T cancelFlag fuel w =
          .returned .immediate env.sockfd w' ∧
        issued w w' = prologue K env host port hp w ++
          [.fcntlGetfl env.sockfd, .fcntlSetfl env.sockfd f, .signalIgnore] ∧
        ∀ e ∈ issued w w', e.isReadCancel = false) := by
  refine ⟨?_, ?_, ?_⟩
  · intro hp hres hconn hcancel hfuel
    obtain ⟨n, rfl⟩ : ∃ n, fuel = n + 1 := ⟨fuel - 1, by omega⟩
    rw [csocket_connect_pending K env cancelFlag host port T _ w hp hres hconn]
    have hb := loopBody_eq K env cancelFlag env.sockfd (decide (T ≤ 0)) 0 T
      (afterConnect K env host port hp w)
    rw [if_pos hcancel] at hb
    have hi : issued w ({ os_close env.sockfd (afterCheck cancelFlag 0
        (afterConnect K env host port hp w)) with errno := K.ECANCELED } : World) =
        prologue K env host port hp w ++ cancelReads cancelFlag 0 ++ [.close env.sockfd] :=
      issued_of_trace (by simp [afterConnect_trace])
    refine ⟨_, by unfold waitLoop; rw [hb], hi, ?_, ?_, ?_, rfl⟩
    · rw [hi]; simp
    · rw [hi]; simp [Event.isClose]
    · simp
  · intro hres
    have hi : issued w (w.log (.gethostbyname host false)) = [.gethostbyname host false] :=
      issued_of_trace rfl
    refine ⟨_, csocket_connect_unresolved K env cancelFlag host port T fuel w hres, hi, ?_⟩
    intro e he
    rw [hi, List.mem_singleton] at he
    subst he; rfl
  · intro hp hres hconn
    obtain ⟨-, -, h3⟩ :=
      handle_world K env.sockfd w _ _ (afterConnect_trace K env host port hp w)
    refine ⟨_, _, csocket_connect_immediate K env cancelFlag host port T fuel w hp hres hconn,
      h3, ?_⟩
    intro e he
    rw [h3] at he
    simp only [prologue, List.mem_append, List.mem_cons, List.mem_singleton,
      List.not_mem_nil, or_false] at he
    rcases he with (h | h | h | h | h) | h | h | h <;> subst h <;> rfl

/-- C2 amended, with the flag set from the start and a timeout of one second:
a pending `connect`, a host that does not resolve, and a `connect` that
completes at once. -/
theorem csocket_connect_cancelled_at_first_check_witness :
    (∃ w', csocket_connect sampleHdr sampleEnv "host" 80 1000 (some fun _ => 1) 1 sampleWorld =
        .returned .cancelled (-5) w' ∧
      issued sampleWorld w' =
        prologue sampleHdr sampleEnv "host" 80 sampleHost sampleWorld ++
          cancelReads (some fun _ => 1) 0 ++ [.close sampleEnv.sockfd] ∧
      waitSlices (issued sampleWorld w') = [] ∧
      (issued sampleWorld w').filter Event.isClose = [.close sampleEnv.sockfd] ∧
      w'.fdflags sampleEnv.sockfd = none ∧
      w'.errno = sampleHdr.ECANCELED) ∧
    (∃ w', csocket_connect sampleHdr { sampleEnv with resolve := fun _ => none } "host" 80 1000
        (some fun _ => 1) 1 sampleWorld = .returned .resolutionFailed (-1) w' ∧
      issued sampleWorld w' = [.gethostbyname "host" false] ∧
      ∀ e ∈ issued sampleWorld w', e.isReadCancel = false) ∧
    (∃ w' f, csocket_connect sampleHdr { sampleEnv with connectResult := 0 } "host" 80 1000
        (some fun _ => 1) 1 sampleWorld = .returned .immediate 5 w' ∧
      issued sampleWorld w' =
        prologue sampleHdr { sampleEnv with connectResult := 0 } "host" 80 sampleHost
          sampleWorld ++ [.fcntlGetfl 5, .fcntlSetfl 5 f, .signalIgnore] ∧
      ∀ e ∈ issued sampleWorld w', e.isReadCancel = false) :=
  ⟨(csocket_connect_cancelled_at_first_check sampleHdr sampleEnv "host" 80 1000
      (some fun _ => 1) 1 sampleWorld).1 sampleHost rfl (by decide) rfl (by decide),
    (csocket_connect_cancelled_at_first_check sampleHdr { sampleEnv with resolve := fun _ => none }
      "host" 80 1000 (some fun _ => 1) 1 sampleWorld).2.1 rfl,
    (csocket_connect_cancelled_at_first_check sampleHdr { sampleEnv with connectResult := 0 }
      "host" 80 1000 (some fun _ => 1) 1 sampleWorld).2.2 sampleHost rfl rfl⟩

/-- C4: in a run that returned, every error return reached after the socket was
created (-2, -3, -4, -5) has issued exactly one `close`, of that socket, as the
last call, and leaves the descriptor closed; a run that returned the socket
issued no `close`; a run that failed to resolve the host issued no `close`
(its only call is `gethostbyname`). -/
theorem csocket_connect_close_discipline (K : Hdr) (env : Env) (host : String) (port T : Int)
    (cancelFlag : Option (Nat → Int)) (fuel : Nat) (w : World) (run : Run)
    (hrun : csocket_connect K env host port T cancelFlag fuel w = run)
    (s : Site) (hs : run.site? = some s) :
    ((s = .waitFailed ∨ s = .timedOut ∨ s = .connectError ∨ s = .cancelled) →
      (issued w run.world).filter Event.isClose = [.close env.sockfd] ∧
      (issued w run.world).getLast? = some (.close env.sockfd) ∧
      run.world.fdflags env.sockfd = none) ∧
    ((s = .immediate ∨ s = .ready) → (issued w run.world).filter Event.isClose = []) ∧
    (s = .resolutionFailed →
      (issued w run.world).filter Event.isClose = [] ∧
      issued w run.world = [.gethostbyname host false]) := by
  subst hrun
  cases hr : csocket_connect K env host port T cancelFlag fuel w with
  | running r w' => rw [hr] at hs; simp [Run.site?] at hs
  | returned s' c w' =>
    rw [hr] at hs
    simp only [Run.site?, Option.some.injEq] at hs
    subst hs
    simp only [Run.world]
    rcases csocket_connect_returned K env cancelFlag host port T fuel w s' c w' hr with
      ⟨-, hs, -, hw⟩ | ⟨hp, -, -, hs, -, hw⟩ | ⟨hp, j, r1, w1, tr, -, -, -, hbody, htr, hpoll, -⟩
    · subst hs hw
      have hi : issued w (w.log (.gethostbyname host false)) = [.gethostbyname host false] :=
        issued_of_trace rfl
      rw [hi]
      simp [List.filter_cons]
    · subst hs hw
      obtain ⟨-, -, h3⟩ :=
        handle_world K env.sockfd w _ _ (afterConnect_trace K env host port hp w)
      rw [h3]
      simp [List.filter_cons]
    · have hcl := filter_isClose_of_isPoll tr hpoll
      rcases loopBody_ret K env cancelFlag env.sockfd _ j r1 w1 s' c w' hbody with
        ⟨hs, -, -, hw⟩ | ⟨hs, -, -, -, -, hw⟩ | ⟨hs, -, -, -, -, -, hw⟩ |
        ⟨hs, -, -, -, -, hw⟩ | ⟨hs, -, -, -, -, hw⟩
      · subst hs hw
        have hi : issued w ({ os_close env.sockfd (afterCheck cancelFlag j w1) with
            errno := K.ECANCELED } : World) =
            prologue K env host port hp w ++ tr ++ cancelReads cancelFlag j ++
              [.close env.sockfd] := issued_of_trace (by simp [htr])
        rw [hi]
        simp [List.filter_cons, hcl]
      · subst hs hw
        have hi : issued w (os_close env.sockfd
            (afterSelect env cancelFlag env.sockfd (decide (T ≤ 0)) j r1 w1)) =
            prologue K env host port hp w ++ tr ++ cancelReads cancelFlag j ++
              [selectEvent env env.sockfd (decide (T ≤ 0)) j r1] ++ [.close env.sockfd] :=
          issued_of_trace (by simp [htr])
        rw [hi]
        simp [List.filter_cons, hcl]
      · subst hs hw
        have hi : issued w (os_close env.sockfd
            (afterSelect env cancelFlag env.sockfd (decide (T ≤ 0)) j r1 w1)) =
            prologue K env host port hp w ++ tr ++ cancelReads cancelFlag j ++
              [selectEvent env env.sockfd (decide (T ≤ 0)) j r1] ++ [.close env.sockfd] :=
          issued_of_trace (by simp [htr])
        rw [hi]
        simp [List.filter_cons, hcl]
      · subst hs hw
        have hi : issued w (os_close env.sockfd (os_getsockopt env env.sockfd
            (afterSelect env cancelFlag env.sockfd (decide (T ≤ 0)) j r1 w1)).2) =
            prologue K env host port hp w ++ tr ++ cancelReads cancelFlag j ++
              [selectEvent env env.sockfd (decide (T ≤ 0)) j r1,
                .getsockopt env.sockfd env.soError] ++ [.close env.sockfd] :=
          issued_of_trace (by simp [htr])
        rw [hi]
        simp [List.filter_cons, hcl]
      · subst hs hw
        have htr2 : (os_getsockopt env env.sockfd
            (afterSelect env cancelFlag env.sockfd (decide (T ≤ 0)) j r1 w1)).2.trace =
            w.trace ++ (prologue K env host port hp w ++ tr ++ cancelReads cancelFlag j ++
              [selectEvent env env.sockfd (decide (T ≤ 0)) j r1,
                .getsockopt env.sockfd env.soError]) := by
          simp [htr]
        obtain ⟨-, -, h3⟩ := handle_world K env.sockfd w _ _ htr2
        rw [h3]
        simp [List.filter_cons, hcl]

/-- C4 on a run that times out after 250 ms. -/
theorem csocket_connect_close_discipline_witness :
    ((Site.timedOut = .waitFailed ∨ Site.timedOut = .timedOut ∨ Site.timedOut = .connectError ∨
        Site.timedOut = .cancelled) →
      (issued sampleWorld (csocket_connect sampleHdr sampleEnv "host" 80 250 none 3
        sampleWorld).world).filter Event.isClose = [.close sampleEnv.sockfd] ∧
      (issued sampleWorld (csocket_connect sampleHdr sampleEnv "host" 80 250 none 3
        sampleWorld).world).getLast? = some (.close sampleEnv.sockfd) ∧
      (csocket_connect sampleHdr sampleEnv "host" 80 250 none 3
        sampleWorld).world.fdflags sampleEnv.sockfd = none) ∧
    ((Site.timedOut = .immediate ∨ Site.timedOut = .ready) →
      (issued sampleWorld (csocket_connect sampleHdr sampleEnv "host" 80 250 none 3
        sampleWorld).world).filter Event.isClose = []) ∧
    (Site.timedOut = .resolutionFailed →
      (issued sampleWorld (csocket_connect sampleHdr sampleEnv "host" 80 250 none 3
        sampleWorld).world).filter Event.isClose = [] ∧
      issued sampleWorld (csocket_connect sampleHdr sampleEnv "host" 80 250 none 3
        sampleWorld).world = [.gethostbyname "host" false]) :=
  csocket_connect_close_discipline sampleHdr sampleEnv "host" 80 250 none 3 sampleWorld _ rfl
    .timedOut rfl

/-- C6: with `timeoutMilliseconds ≤ 0`, whatever the environment answers,
(1) no run ends at the timed-out return statement, and none returns -3 as
long as `socket` keeps to its contract of returning -1 or a descriptor;
(2) when the host resolves, `connect` is pending, the flag is never observed
set and every wait times out, then for every `n` the loop is still running
after `n` iterations with `remaining` unchanged, having issued exactly `n`
waits of 100 ms each and no `close`;
(3) a run that leaves the loop does so because the flag was observed set, a
wait failed with an error other than EINTR, or a wait reported readiness. -/
theorem csocket_connect_infinite_timeout (K : Hdr) (env : Env) (host : String) (port T : Int)
    (cancelFlag : Option (Nat → Int)) (w : World) (hT : T ≤ 0) :
    (∀ fuel, (csocket_connect K env host port T cancelFlag fuel w).site? ≠ some .timedOut ∧
      (-1 ≤ env.sockfd →
        (csocket_connect K env host port T cancelFlag fuel w).code? ≠ some (-3))) ∧
    (∀ hp, env.resolve host = some hp → env.connectResult ≠ 0 →
      (∀ i, cancelSeen cancelFlag i = false) → (∀ i, (env.waits i).retval = 0) →
      ∀ n, ∃ w', csocket_connect K env host port T cancelFlag n w = .running T w' ∧
        issued w w' =
          prologue K env host port hp w ++ repeatEvents (idlePoll cancelFlag env.sockfd) n ∧
        waitSlices (issued w w') = List.replicate n 100 ∧
        (issued w w').filter Event.isClose = []) ∧
    (∀ hp, env.resolve host = some hp → env.connectResult ≠ 0 →
      ∀ fuel s, (csocket_connect K env host port T cancelFlag fuel w).site? = some s →
        (s = .cancelled ∧ ∃ j, j < fuel ∧ cancelSeen cancelFlag j = true) ∨
        (s = .waitFailed ∧
          ∃ j, j < fuel ∧ (env.waits j).retval < 0 ∧ (env.waits j).err ≠ K.EINTR) ∨
        ((s = .connectError ∨ s = .ready) ∧ ∃ j, j < fuel ∧ 0 < (env.waits j).retval)) := by
  have hinf : decide (T ≤ 0) = true := by simpa using hT
  have key : ∀ fuel s c w', csocket_connect K env host port T cancelFlag fuel w =
      .returned s c w' →
      s ≠ .timedOut ∧ (-1 ≤ env.sockfd → c ≠ -3) ∧
      (∀ hp, env.resolve host = some hp → env.connectResult ≠ 0 →
        (s = .cancelled ∧ ∃ j, j < fuel ∧ cancelSeen cancelFlag j = true) ∨
        (s = .waitFailed ∧
          ∃ j, j < fuel ∧ (env.waits j).retval < 0 ∧ (env.waits j).err ≠ K.EINTR) ∨
        ((s = .connectError ∨ s = .ready) ∧ ∃ j, j < fuel ∧ 0 < (env.waits j).retval)) := by
    intro fuel s c w' hr
    rcases csocket_connect_returned K env cancelFlag host port T fuel w s c w' hr with
      ⟨hn, hs, hc, -⟩ | ⟨hp, hres, hc0, hs, hc, -⟩ |
      ⟨hp, j, r1, w1, tr, hres, hc0, hj, hbody, -⟩
    · subst hs hc
      refine ⟨by simp, fun _ => by omega, ?_⟩
      intro hp hres; rw [hres] at hn; cases hn
    · subst hs hc
      refine ⟨by simp, fun h => by omega, ?_⟩
      intro hp' _ hne; exact absurd hc0 hne
    · rw [hinf] at hbody
      rcases loopBody_ret K env cancelFlag env.sockfd true j r1 w1 s c w' hbody with
        ⟨hs, hc, hseen, -⟩ | ⟨hs, hc, -, hneg, herr, -⟩ | ⟨-, -, -, -, hfalse, -⟩ |
        ⟨hs, hc, -, hpos, -⟩ | ⟨hs, hc, -, hpos, -⟩
      · subst hs hc
        exact ⟨by simp, fun _ => by omega, fun _ _ _ => Or.inl ⟨rfl, j, hj, hseen⟩⟩
      · subst hs hc
        exact ⟨by simp, fun _ => by omega, fun _ _ _ => Or.inr (Or.inl ⟨rfl, j, hj, hneg, herr⟩)⟩
      · cases hfalse
      · subst hs hc
        exact ⟨by simp, fun _ => by omega,
          fun _ _ _ => Or.inr (Or.inr ⟨Or.inl rfl, j, hj, hpos⟩)⟩
      · subst hs hc
        exact ⟨by simp, fun h => by omega,
          fun _ _ _ => Or.inr (Or.inr ⟨Or.inr rfl, j, hj, hpos⟩)⟩
  refine ⟨?_, ?_, ?_⟩
  · intro fuel
    cases hr : csocket_connect K env host port T cancelFlag fuel w with
    | running r w' => simp [Run.site?, Run.code?]
    | returned s c w' =>
      obtain ⟨h1, h2, -⟩ := key fuel s c w' hr
      simp only [Run.site?, Run.code?, ne_eq, Option.some.injEq]
      exact ⟨h1, h2⟩
  · intro hp hres hconn hcancel hwait n
    rw [csocket_connect_pending K env cancelFlag host port T n w hp hres hconn, hinf]
    obtain ⟨w1, h1, h2, -, -⟩ := waitLoop_infinite_polls K env cancelFlag env.sockfd hwait 0 n 0 T
      (afterConnect K env host port hp w) (fun k _ => hcancel _)
    rw [Nat.add_zero] at h1
    rw [afterConnect_trace, List.append_assoc] at h2
    have hi := issued_of_trace h2
    refine ⟨w1, by rw [h1]; rfl, hi, ?_, ?_⟩
    · rw [hi]; simp [waitSlices_repeat_idlePoll]
    · rw [hi]; simp [filter_isClose_repeat_idlePoll]
  · intro hp hres hconn fuel s hs
    cases hr : csocket_connect K env host port T cancelFlag fuel w with
    | running r w' => rw [hr] at hs; simp [Run.site?] at hs
    | returned s' c w' =>
      rw [hr] at hs
      simp only [Run.site?, Option.some.injEq] at hs
      subst hs
      exact (key fuel s' c w' hr).2.2 hp hres hconn

/-- C6 at `timeoutMilliseconds = 0`. -/
theorem csocket_connect_infinite_timeout_witness :
    (∀ fuel, (csocket_connect sampleHdr sampleEnv "host" 80 0 none fuel sampleWorld).site? ≠
        some .timedOut ∧
      (-1 ≤ sampleEnv.sockfd →
        (csocket_connect sampleHdr sampleEnv "host" 80 0 none fuel sampleWorld).code? ≠
          some (-3))) ∧
    (∀ hp, sampleEnv.resolve "host" = some hp → sampleEnv.connectResult ≠ 0 →
      (∀ i, cancelSeen none i = false) → (∀ i, (sampleEnv.waits i).retval = 0) →
      ∀ n, ∃ w', csocket_connect sampleHdr sampleEnv "host" 80 0 none n sampleWorld =
          .running 0 w' ∧
        issued sampleWorld w' =
          prologue sampleHdr sampleEnv "host" 80 hp sampleWorld ++
            repeatEvents (idlePoll none sampleEnv.sockfd) n ∧
        waitSlices (issued sampleWorld w') = List.replicate n 100 ∧
        (issued sampleWorld w').filter Event.isClose = []) ∧
    (∀ hp, sampleEnv.resolve "host" = some hp → sampleEnv.connectResult ≠ 0 →
      ∀ fuel s, (csocket_connect sampleHdr sampleEnv "host" 80 0 none fuel sampleWorld).site? =
          some s →
        (s = .cancelled ∧ ∃ j, j < fuel ∧ cancelSeen none j = true) ∨
        (s = .waitFailed ∧
          ∃ j, j < fuel ∧ (sampleEnv.waits j).retval < 0 ∧
            (sampleEnv.waits j).err ≠ sampleHdr.EINTR) ∨
        ((s = .connectError ∨ s = .ready) ∧ ∃ j, j < fuel ∧ 0 < (sampleEnv.waits j).retval)) :=
  csocket_connect_infinite_timeout sampleHdr sampleEnv "host" 80 0 none sampleWorld (by decide)

/-- C7: with `timeoutMilliseconds ≤ 0`, a pending `connect`, waits that all
time out, and a cancel flag that reads zero at its first `k` checks and
non-zero at the next one, `csocket_connect` returns -5 from the cancellation
return statement as soon as `k + 1` iterations are allowed.  After `connect`
the calls are exactly `k` times a read of the flag followed by a wait of
100 ms, then the read that finds the flag set, then `close`: the flag is read
before each wait, exactly `k` waits are issued, none after the flag was seen
set, and the socket is closed exactly once. -/
theorem csocket_connect_infinite_cancelled (K : Hdr) (env : Env) (host : String) (port T : Int)
    (flag : Nat → Int) (fuel : Nat) (w : World) (hp : HostEnt) (k : Nat)
    (hT : T ≤ 0) (hres : env.resolve host = some hp) (hconn : env.connectResult ≠ 0)
    (hwait : ∀ i, (env.waits i).retval = 0)
    (hzero : ∀ i, i < k → flag i = 0) (hset : flag k ≠ 0) (hfuel : k < fuel) :
    ∃ w', csocket_connect K env host port T (some flag) fuel w = .returned .cancelled (-5) w' ∧
      issued w w' = prologue K env host port hp w ++
        repeatEvents [.readCancel 0, .select (wrapInt32 (env.sockfd + 1)) env.sockfd 0 100000 0] k
        ++ [.readCancel (flag k), .close env.sockfd] ∧
      waitSlices (issued w w') = List.replicate k 100 ∧
      (issued w w').filter Event.isClose = [.close env.sockfd] ∧
      w'.fdflags env.sockfd = none := by
  have hinf : decide (T ≤ 0) = true := by simpa using hT
  obtain ⟨m, rfl⟩ : ∃ m, fuel = k + (m + 1) := ⟨fuel - k - 1, by omega⟩
  rw [csocket_connect_pending K env (some flag) host port T _ w hp hres hconn, hinf]
  obtain ⟨w1, h1, h2, -, -⟩ := waitLoop_infinite_polls K env (some flag) env.sockfd hwait (m + 1)
    k 0 T (afterConnect K env host port hp w)
    (fun i hi => by simp [cancelSeen, hzero i hi])
  rw [h1, Nat.zero_add]
  have hb := loopBody_eq K env (some flag) env.sockfd true k T w1
  rw [if_pos (by simp [cancelSeen, hset])] at hb
  rw [afterConnect_trace] at h2
  have hi : issued w ({ os_close env.sockfd (afterCheck (some flag) k w1) with
      errno := K.ECANCELED } : World) =
      prologue K env host port hp w ++ repeatEvents (idlePoll (some flag) env.sockfd) k ++
        [.readCancel (flag k), .close env.sockfd] :=
    issued_of_trace (by simp [h2, cancelReads])
  refine ⟨_, by unfold waitLoop; rw [hb], hi, ?_, ?_, ?_⟩
  · rw [hi]; simp [waitSlices_repeat_idlePoll]
  · rw [hi]; simp [filter_isClose_repeat_idlePoll, List.filter_cons, Event.isClose]
  · simp

/-- C7 with the flag raised at its third check (`k = 2`). -/
theorem csocket_connect_infinite_cancelled_witness :
    ∃ w', csocket_connect sampleHdr sampleEnv "host" 80 0 (some fun i => if i < 2 then 0 else 1) 3
        sampleWorld = .returned .cancelled (-5) w' ∧
      issued sampleWorld w' = prologue sampleHdr sampleEnv "host" 80 sampleHost sampleWorld ++
        repeatEvents [.readCancel 0,
          .select (wrapInt32 (sampleEnv.sockfd + 1)) sampleEnv.sockfd 0 100000 0] 2
        ++ [.readCancel ((fun i => if i < 2 then 0 else 1) 2), .close sampleEnv.sockfd] ∧
      waitSlices (issued sampleWorld w') = List.replicate 2 100 ∧
      (issued sampleWorld w').filter Event.isClose = [.close sampleEnv.sockfd] ∧
      w'.fdflags sampleEnv.sockfd = none :=
  csocket_connect_infinite_cancelled sampleHdr sampleEnv "host" 80 0
    (fun i => if i < 2 then 0 else 1) 3 sampleWorld sampleHost 2 (by decide) rfl (by decide)
    (fun _ => rfl) (fun i hi => by simp [hi]) (by decide) (by decide)

/-- C10: a call of `csocket_connect` that returns does so from one return
statement, the same for every iteration bound that lets it return, and, in an
environment that keeps to `Env.posix`, the value returned tells which: it is
negative exactly at the error returns, -1 exactly when the host did not
resolve, -2 exactly when a wait failed with an error other than EINTR, -3
exactly when the finite budget ran out on a timed-out wait, -4 exactly when a
ready socket had a pending error, -5 exactly when the cancel flag was observed
set, and otherwise it is the non-negative descriptor of the socket.

The four groups of the statement: (1) value and return statement determine
each other; (2) each return statement has its cause, at an iteration `j` whose
top the call reaches; (3) the outcome does not depend on the iteration bound;
(4) conversely each cause has its outcome: from the top of any iteration `n`
the call reaches, the answers of that iteration decide whether the call
returns, from which statement and with which value, or goes on to iteration
`n + 1` and with which budget; and before the loop, a host that does not
resolve gives -1, a `connect` that reports 0 gives the socket, and any other
`connect` result leads to the top of the loop with the whole timeout. -/
theorem csocket_connect_outcome_code (K : Hdr) (env : Env) (host : String) (port T : Int)
    (cancelFlag : Option (Nat → Int)) (fuel : Nat) (w : World) (hposix : env.posix)
    (run : Run) (hrun : csocket_connect K env host port T cancelFlag fuel w = run)
    (s : Site) (hs : run.site? = some s) (c : Int) (hc : run.code? = some c) :
    ((c < 0 ↔ (s ≠ .immediate ∧ s ≠ .ready)) ∧
      (c = -1 ↔ s = .resolutionFailed) ∧ (c = -2 ↔ s = .waitFailed) ∧
      (c = -3 ↔ s = .timedOut) ∧ (c = -4 ↔ s = .connectError) ∧ (c = -5 ↔ s = .cancelled) ∧
      ((s = .immediate ∨ s = .ready) → c = env.sockfd ∧ 0 ≤ c)) ∧
    ((s = .resolutionFailed ↔ env.resolve host = none) ∧
      (s = .immediate ↔ (env.resolve host ≠ none ∧ env.connectResult = 0)) ∧
      (s = .waitFailed → ∃ j r1 w1, j < fuel ∧
        csocket_connect K env host port T cancelFlag j w = .running r1 w1 ∧
        cancelSeen cancelFlag j = false ∧
        (env.waits j).retval < 0 ∧ (env.waits j).err ≠ K.EINTR) ∧
      (s = .timedOut → 0 < T ∧ ∃ j r1 w1, j < fuel ∧
        csocket_connect K env host port T cancelFlag j w = .running r1 w1 ∧
        cancelSeen cancelFlag j = false ∧
        (env.waits j).retval = 0 ∧ wrapInt32 (r1 - waitDuration false r1) ≤ 0) ∧
      (s = .connectError → env.soError ≠ 0 ∧ ∃ j r1 w1, j < fuel ∧
        csocket_connect K env host port T cancelFlag j w = .running r1 w1 ∧
        cancelSeen cancelFlag j = false ∧ 0 < (env.waits j).retval) ∧
      (s = .ready → env.soError = 0 ∧ ∃ j r1 w1, j < fuel ∧
        csocket_connect K env host port T cancelFlag j w = .running r1 w1 ∧
        cancelSeen cancelFlag j = false ∧ 0 < (env.waits j).retval) ∧
      (s = .cancelled → ∃ j r1 w1, j < fuel ∧
        csocket_connect K env host port T cancelFlag j w = .running r1 w1 ∧
        cancelSeen cancelFlag j = true)) ∧
    (∀ fuel' s' c', (csocket_connect K env host port T cancelFlag fuel' w).site? = some s' →
      (csocket_connect K env host port T cancelFlag fuel' w).code? = some c' →
      s' = s ∧ c' = c) ∧
    ((∀ n r w1, csocket_connect K env host port T cancelFlag n w = .running r w1 →
        (cancelSeen cancelFlag n = true → ∀ extra, ∃ w2,
          csocket_connect K env host port T cancelFlag (n + 1 + extra) w =
            .returned .cancelled (-5) w2) ∧
        (cancelSeen cancelFlag n = false → (env.waits n).retval < 0 →
          (env.waits n).err ≠ K.EINTR → ∀ extra, ∃ w2,
          csocket_connect K env host port T cancelFlag (n + 1 + extra) w =
            .returned .waitFailed (-2) w2) ∧
        (cancelSeen cancelFlag n = false → (env.waits n).retval < 0 →
          (env.waits n).err = K.EINTR → ∃ w2,
          csocket_connect K env host port T cancelFlag (n + 1) w = .running r w2) ∧
        (cancelSeen cancelFlag n = false → (env.waits n).retval = 0 → T ≤ 0 → ∃ w2,
          csocket_connect K env host port T cancelFlag (n + 1) w = .running r w2) ∧
        (cancelSeen cancelFlag n = false → (env.waits n).retval = 0 → 0 < T →
          wrapInt32 (r - waitDuration false r) ≤ 0 → ∀ extra, ∃ w2,
          csocket_connect K env host port T cancelFlag (n + 1 + extra) w =
            .returned .timedOut (-3) w2) ∧
        (cancelSeen cancelFlag n = false → (env.waits n).retval = 0 → 0 < T →
          0 < wrapInt32 (r - waitDuration false r) → ∃ w2,
          csocket_connect K env host port T cancelFlag (n + 1) w =
            .running (wrapInt32 (r - waitDuration false r)) w2) ∧
        (cancelSeen cancelFlag n = false → 0 < (env.waits n).retval → env.soError ≠ 0 →
          ∀ extra, ∃ w2,
          csocket_connect K env host port T cancelFlag (n + 1 + extra) w =
            .returned .connectError (-4) w2) ∧
        (cancelSeen cancelFlag n = false → 0 < (env.waits n).retval → env.soError = 0 →
          ∀ extra, ∃ w2,
          csocket_connect K env host port T cancelFlag (n + 1 + extra) w =
            .returned .ready env.sockfd w2)) ∧
      (env.resolve host = none → ∀ fuel', ∃ w2,
        csocket_connect K env host port T cancelFlag fuel' w =
          .returned .resolutionFailed (-1) w2) ∧
      (env.resolve host ≠ none → env.connectResult = 0 → ∀ fuel', ∃ w2,
        csocket_connect K env host port T cancelFlag fuel' w =
          .returned .immediate env.sockfd w2) ∧
      (env.resolve host ≠ none → env.connectResult ≠ 0 → ∃ w2,
        csocket_connect K env host port T cancelFlag 0 w = .running T w2)) := by
  subst hrun
  cases hr : csocket_connect K env host port T cancelFlag fuel w with
  | running r w' => rw [hr] at hs; simp [Run.site?] at hs
  | returned s0 c0 w' =>
    rw [hr] at hs hc
    simp only [Run.site?, Run.code?, Option.some.injEq] at hs hc
    subst hs hc
    refine ⟨?_, ?_, ?_, ?_, ?_, ?_, ?_⟩
    · apply site_code_agree
      rcases csocket_connect_returned K env cancelFlag host port T fuel w s0 c0 w' hr with
        ⟨-, hs, hc, -⟩ | ⟨hp, -, hc0, hs, hc, -⟩ | ⟨hp, j, r1, w1, tr, -, -, -, hbody, -⟩
      · exact Or.inl ⟨hs, hc⟩
      · refine Or.inr (Or.inr (Or.inr (Or.inr (Or.inr ⟨Or.inl hs, hc, ?_⟩))))
        by_contra hneg
        exact (hposix.2 (by omega)).1 hc0
      · rcases loopBody_ret K env cancelFlag env.sockfd _ j r1 w1 s0 c0 w' hbody with
          ⟨hs, hc, -⟩ | ⟨hs, hc, -⟩ | ⟨hs, hc, -⟩ | ⟨hs, hc, -⟩ | ⟨hs, hc, -, hpos, -⟩
        · exact Or.inr (Or.inr (Or.inr (Or.inr (Or.inl ⟨hs, hc⟩))))
        · exact Or.inr (Or.inl ⟨hs, hc⟩)
        · exact Or.inr (Or.inr (Or.inl ⟨hs, hc⟩))
        · exact Or.inr (Or.inr (Or.inr (Or.inl ⟨hs, hc⟩)))
        · refine Or.inr (Or.inr (Or.inr (Or.inr (Or.inr ⟨Or.inr hs, hc, ?_⟩))))
          by_contra hneg
          have := (hposix.2 (by omega)).2 j
          omega
    · rcases csocket_connect_returned K env cancelFlag host port T fuel w s0 c0 w' hr with
        ⟨hn, hs, -, -⟩ | ⟨hp, hres, hc0, hs, -, -⟩ |
        ⟨hp, -, -, -, -, hres, hc0, -, -, -⟩
      · subst hs; simp [hn]
      · subst hs; simp [hres, hc0]
      · obtain ⟨j, r1, w1, hj, hreach, hbody⟩ := csocket_connect_returned_reached K env cancelFlag
          host port T fuel w hp hres hc0 s0 c0 w' hr
        rcases loopBody_ret K env cancelFlag env.sockfd _ j r1 w1 s0 c0 w' hbody with
          ⟨hs, -, hseen, -⟩ | ⟨hs, -, hseen, hneg, herr, -⟩ |
          ⟨hs, -, hseen, hz, hfin, hout, -⟩ |
          ⟨hs, -, hseen, hpos, herr, -⟩ | ⟨hs, -, hseen, hpos, herr, -⟩
        · subst hs
          refine ⟨by simp [hres], by simp [hres, hc0], ?_, ?_, ?_, ?_, ?_⟩ <;> intro h <;>
            first
            | (cases h; done)
            | exact ⟨j, r1, w1, hj, hreach, hseen⟩
        · subst hs
          refine ⟨by simp [hres], by simp [hres, hc0], ?_, ?_, ?_, ?_, ?_⟩ <;> intro h <;>
            first
            | (cases h; done)
            | exact ⟨j, r1, w1, hj, hreach, hseen, hneg, herr⟩
        · subst hs
          rw [hfin] at hout
          refine ⟨by simp [hres], by simp [hres, hc0], ?_, ?_, ?_, ?_, ?_⟩ <;> intro h <;>
            first
            | (cases h; done)
            | exact ⟨by simpa using hfin, j, r1, w1, hj, hreach, hseen, hz, hout⟩
        · subst hs
          refine ⟨by simp [hres], by simp [hres, hc0], ?_, ?_, ?_, ?_, ?_⟩ <;> intro h <;>
            first
            | (cases h; done)
            | exact ⟨herr, j, r1, w1, hj, hreach, hseen, hpos⟩
        · subst hs
          refine ⟨by simp [hres], by simp [hres, hc0], ?_, ?_, ?_, ?_, ?_⟩ <;> intro h <;>
            first
            | (cases h; done)
            | exact ⟨herr, j, r1, w1, hj, hreach, hseen, hpos⟩
    · intro fuel' s' c' hs' hc'
      cases hr' : csocket_connect K env host port T cancelFlag fuel' w with
      | running r w'' => rw [hr'] at hs'; simp [Run.site?] at hs'
      | returned s1 c1 w'' =>
        rw [hr'] at hs' hc'
        simp only [Run.site?, Run.code?, Option.some.injEq] at hs' hc'
        subst hs' hc'
        have h1 := csocket_connect_fuel_mono K env cancelFlag host port T fuel fuel' w _ _ _ hr
        have h2 := csocket_connect_fuel_mono K env cancelFlag host port T fuel' fuel w _ _ _ hr'
        rw [Nat.add_comm fuel' fuel, h1] at h2
        cases h2
        exact ⟨rfl, rfl⟩
    · intro n r w1 hreach
      exact csocket_connect_step_exact K env cancelFlag host port T n w r w1 hreach
    · intro hres fuel'
      exact ⟨_, csocket_connect_unresolved K env cancelFlag host port T fuel' w hres⟩
    · intro hres hc0 fuel'
      obtain ⟨hp, hres'⟩ := Option.ne_none_iff_exists'.1 hres
      exact ⟨_, csocket_connect_immediate K env cancelFlag host port T fuel' w hp hres' hc0⟩
    · intro hres hc0
      obtain ⟨hp, hres'⟩ := Option.ne_none_iff_exists'.1 hres
      refine ⟨afterConnect K env host port hp w, ?_⟩
      rw [csocket_connect_pending K env cancelFlag host port T 0 w hp hres' hc0]
      rfl

/-- C10 on a run that times out after 250 ms. -/
theorem csocket_connect_outcome_code_witness :
    (((-3 : Int) < 0 ↔ (Site.timedOut ≠ .immediate ∧ Site.timedOut ≠ .ready)) ∧
      ((-3 : Int) = -1 ↔ Site.timedOut = .resolutionFailed) ∧
      ((-3 : Int) = -2 ↔ Site.timedOut = .waitFailed) ∧
      ((-3 : Int) = -3 ↔ Site.timedOut = .timedOut) ∧
      ((-3 : Int) = -4 ↔ Site.timedOut = .connectError) ∧
      ((-3 : Int) = -5 ↔ Site.timedOut = .cancelled) ∧
      ((Site.timedOut = .immediate ∨ Site.timedOut = .ready) →
        (-3 : Int) = sampleEnv.sockfd ∧ 0 ≤ (-3 : Int))) ∧
    ((Site.timedOut = .resolutionFailed ↔ sampleEnv.resolve "host" = none) ∧
      (Site.timedOut = .immediate ↔
        (sampleEnv.resolve "host" ≠ none ∧ sampleEnv.connectResult = 0)) ∧
      (Site.timedOut = .waitFailed → ∃ j r1 w1, j < 3 ∧
        csocket_connect sampleHdr sampleEnv "host" 80 250 none j sampleWorld = .running r1 w1 ∧
        cancelSeen none j = false ∧
        (sampleEnv.waits j).retval < 0 ∧ (sampleEnv.waits j).err ≠ sampleHdr.EINTR) ∧
      (Site.timedOut = .timedOut → 0 < (250 : Int) ∧ ∃ j r1 w1, j < 3 ∧
        csocket_connect sampleHdr sampleEnv "host" 80 250 none j sampleWorld = .running r1 w1 ∧
        cancelSeen none j = false ∧
        (sampleEnv.waits j).retval = 0 ∧ wrapInt32 (r1 - waitDuration false r1) ≤ 0) ∧
      (Site.timedOut = .connectError → sampleEnv.soError ≠ 0 ∧ ∃ j r1 w1, j < 3 ∧
        csocket_connect sampleHdr sampleEnv "host" 80 250 none j sampleWorld = .running r1 w1 ∧
        cancelSeen none j = false ∧ 0 < (sampleEnv.waits j).retval) ∧
      (Site.timedOut = .ready → sampleEnv.soError = 0 ∧ ∃ j r1 w1, j < 3 ∧
        csocket_connect sampleHdr sampleEnv "host" 80 250 none j sampleWorld = .running r1 w1 ∧
        cancelSeen none j = false ∧ 0 < (sampleEnv.waits j).retval) ∧
      (Site.timedOut = .cancelled → ∃ j r1 w1, j < 3 ∧
        csocket_connect sampleHdr sampleEnv "host" 80 250 none j sampleWorld = .running r1 w1 ∧
        cancelSeen none j = true)) ∧
    (∀ fuel' s' c',
      (csocket_connect sampleHdr sampleEnv "host" 80 250 none fuel' sampleWorld).site? = some s' →
      (csocket_connect sampleHdr sampleEnv "host" 80 250 none fuel' sampleWorld).code? = some c' →
      s' = .timedOut ∧ c' = -3) ∧
    ((∀ n r w1, csocket_connect sampleHdr sampleEnv "host" 80 250 none n sampleWorld =
          .running r w1 →
        (cancelSeen none n = true → ∀ extra, ∃ w2,
          csocket_connect sampleHdr sampleEnv "host" 80 250 none (n + 1 + extra) sampleWorld =
            .returned .cancelled (-5) w2) ∧
        (cancelSeen none n = false → (sampleEnv.waits n).retval < 0 →
          (sampleEnv.waits n).err ≠ sampleHdr.EINTR → ∀ extra, ∃ w2,
          csocket_connect sampleHdr sampleEnv "host" 80 250 none (n + 1 + extra) sampleWorld =
            .returned .waitFailed (-2) w2) ∧
        (cancelSeen none n = false → (sampleEnv.waits n).retval < 0 →
          (sampleEnv.waits n).err = sampleHdr.EINTR → ∃ w2,
          csocket_connect sampleHdr sampleEnv "host" 80 250 none (n + 1) sampleWorld =
            .running r w2) ∧
        (cancelSeen none n = false → (sampleEnv.waits n).retval = 0 → (250 : Int) ≤ 0 → ∃ w2,
          csocket_connect sampleHdr sampleEnv "host" 80 250 none (n + 1) sampleWorld =
            .running r w2) ∧
        (cancelSeen none n = false → (sampleEnv.waits n).retval = 0 → (0 : Int) < 250 →
          wrapInt32 (r - waitDuration false r) ≤ 0 → ∀ extra, ∃ w2,
          csocket_connect sampleHdr sampleEnv "host" 80 250 none (n + 1 + extra) sampleWorld =
            .returned .timedOut (-3) w2) ∧
        (cancelSeen none n = false → (sampleEnv.waits n).retval = 0 → (0 : Int) < 250 →
          0 < wrapInt32 (r - waitDuration false r) → ∃ w2,
          csocket_connect sampleHdr sampleEnv "host" 80 250 none (n + 1) sampleWorld =
            .running (wrapInt32 (r - waitDuration false r)) w2) ∧
        (cancelSeen none n = false → 0 < (sampleEnv.waits n).retval → sampleEnv.soError ≠ 0 →
          ∀ extra, ∃ w2,
          csocket_connect sampleHdr sampleEnv "host" 80 250 none (n + 1 + extra) sampleWorld =
            .returned .connectError (-4) w2) ∧
        (cancelSeen none n = false → 0 < (sampleEnv.waits n).retval → sampleEnv.soError = 0 →
          ∀ extra, ∃ w2,
          csocket_connect sampleHdr sampleEnv "host" 80 250 none (n + 1 + extra) sampleWorld =
            .returned .ready sampleEnv.sockfd w2)) ∧
      (sampleEnv.resolve "host" = none → ∀ fuel', ∃ w2,
        csocket_connect sampleHdr sampleEnv "host" 80 250 none fuel' sampleWorld =
          .returned .resolutionFailed (-1) w2) ∧
      (sampleEnv.resolve "host" ≠ none → sampleEnv.connectResult = 0 → ∀ fuel', ∃ w2,
        csocket_connect sampleHdr sampleEnv "host" 80 250 none fuel' sampleWorld =
          .returned .immediate sampleEnv.sockfd w2) ∧
      (sampleEnv.resolve "host" ≠ none → sampleEnv.connectResult ≠ 0 → ∃ w2,
        csocket_connect sampleHdr sampleEnv "host" 80 250 none 0 sampleWorld =
          .running 250 w2)) :=
  csocket_connect_outcome_code sampleHdr sampleEnv "host" 80 250 none 3 sampleWorld
    ⟨by decide, fun h => absurd h (by decide)⟩ _ rfl .timedOut rfl (-3) rfl

/-- C8: let the cancel flag never be observed set, and insert any finite list
of interrupted wait results (`select` negative with `errno` EINTR) at any
positions into the sequence of wait results.  Then (1) a call that returned
returns from the same statement with the same value once one more iteration
per insertion is allowed, and (2) a call that returns with the insertions
returns the same without them; in both the final worlds agree on the
descriptor table, the SIGPIPE disposition and the durations of the timed-out
waits charged to the budget.  (3) An interrupted wait makes the iteration
continue with `remaining` unchanged, charges nothing, and the next wait has
the same duration. -/
theorem csocket_connect_interrupts_invisible (K : Hdr) (env : Env) (host : String) (port T : Int)
    (cancelFlag : Option (Nat → Int)) (w : World) (ins : List (Nat × WaitResult))
    (hcancel : ∀ i, cancelSeen cancelFlag i = false)
    (hins : ∀ p ∈ ins, p.2.retval < 0 ∧ p.2.err = K.EINTR) :
    (∀ fuel s c a, csocket_connect K env host port T cancelFlag fuel w = .returned s c a →
      ∃ b, csocket_connect K (env.withWaits (insertWaits ins env.waits)) host port T cancelFlag
        (fuel + ins.length) w = .returned s c b ∧ a.sim b) ∧
    (∀ fuel s c b, csocket_connect K (env.withWaits (insertWaits ins env.waits)) host port T
        cancelFlag fuel w = .returned s c b →
      ∃ a, csocket_connect K env host port T cancelFlag fuel w = .returned s c a ∧ a.sim b) ∧
    (∀ fd inf i r w1, (env.waits i).retval < 0 → (env.waits i).err = K.EINTR →
      loopBody K env cancelFlag fd inf i r w1 = .again r (afterSelect env cancelFlag fd inf i r w1) ∧
      timedOutSlices (afterSelect env cancelFlag fd inf i r w1).trace = timedOutSlices w1.trace ∧
      (selectEvent env fd inf (i + 1) r).waitMs = (selectEvent env fd inf i r).waitMs) := by
  refine ⟨?_, ?_, ?_⟩
  · induction ins generalizing env with
    | nil =>
      intro fuel s c a h
      exact ⟨a, h, World.sim_refl a⟩
    | cons p ps ih =>
      intro fuel s c a h
      obtain ⟨a1, h1, hs1⟩ := csocket_connect_insert_fwd K env cancelFlag host port T w p.1 p.2
        (hins p (List.mem_cons_self _ _)) hcancel fuel s c a h
      obtain ⟨b, h2, hs2⟩ := ih (env.withWaits (insertWait env.waits p.1 p.2))
        (fun q hq => hins q (List.mem_cons_of_mem _ hq)) (fuel + 1) s c a1 h1
      refine ⟨b, ?_, World.sim_trans hs1 hs2⟩
      have e : fuel + (p :: ps).length = fuel + 1 + ps.length := by simp; omega
      rw [e]
      exact h2
  · induction ins generalizing env with
    | nil =>
      intro fuel s c b h
      exact ⟨b, h, World.sim_refl b⟩
    | cons p ps ih =>
      intro fuel s c b h
      obtain ⟨a1, h1, hs1⟩ := ih (env.withWaits (insertWait env.waits p.1 p.2))
        (fun q hq => hins q (List.mem_cons_of_mem _ hq)) fuel s c b h
      obtain ⟨a, h2, hs2⟩ := csocket_connect_insert_bwd K env cancelFlag host port T w p.1 p.2
        (hins p (List.mem_cons_self _ _)) hcancel fuel s c a1 h1
      exact ⟨a, h2, World.sim_trans hs2 hs1⟩
  · intro fd inf i r w1 h1 h2
    refine ⟨loopBody_interrupted K env cancelFlag fd inf i r w1 (hcancel i) h1 h2, ?_, ?_⟩
    · simp only [afterSelect_trace, timedOutSlices_append, timedOutSlices_cancelReads,
        timedOutSlices_selectEvent_neg env fd inf i r h1, List.append_nil]
    · simp

/-- C8 for a call that times out after 250 ms, with one interrupted wait
inserted before the second wait and one before the first. -/
theorem csocket_connect_interrupts_invisible_witness :
    (∀ fuel s c a, csocket_connect sampleHdr sampleEnv "host" 80 250 none fuel sampleWorld =
        .returned s c a →
      ∃ b, csocket_connect sampleHdr
          (sampleEnv.withWaits (insertWaits [(1, ⟨-1, 4⟩), (0, ⟨-1, 4⟩)] sampleEnv.waits))
          "host" 80 250 none (fuel + [((1 : Nat), (⟨-1, 4⟩ : WaitResult)), (0, ⟨-1, 4⟩)].length)
          sampleWorld = .returned s c b ∧ a.sim b) ∧
    (∀ fuel s c b, csocket_connect sampleHdr
          (sampleEnv.withWaits (insertWaits [(1, ⟨-1, 4⟩), (0, ⟨-1, 4⟩)] sampleEnv.waits))
          "host" 80 250 none fuel sampleWorld = .returned s c b →
      ∃ a, csocket_connect sampleHdr sampleEnv "host" 80 250 none fuel sampleWorld =
        .returned s c a ∧ a.sim b) ∧
    (∀ fd inf i r w1, (sampleEnv.waits i).retval < 0 → (sampleEnv.waits i).err = sampleHdr.EINTR →
      loopBody sampleHdr sampleEnv none fd inf i r w1 =
        .again r (afterSelect sampleEnv none fd inf i r w1) ∧
      timedOutSlices (afterSelect sampleEnv none fd inf i r w1).trace = timedOutSlices w1.trace ∧
      (selectEvent sampleEnv fd inf (i + 1) r).waitMs = (selectEvent sampleEnv fd inf i r).waitMs) :=
  csocket_connect_interrupts_invisible sampleHdr sampleEnv "host" 80 250 none sampleWorld
    [(1, ⟨-1, 4⟩), (0, ⟨-1, 4⟩)] (fun _ => rfl) (by decide)

/-- C11: on an open descriptor with flag word `f`, `csocket_set_block` writes
`f | O_NONBLOCK` when `on == 0` and `f & ~O_NONBLOCK` otherwise, by one F_GETFL
and one F_SETFL call; it changes nothing else (other descriptors, the SIGPIPE
disposition, `errno`); every bit outside O_NONBLOCK keeps its value and the
bits of O_NONBLOCK are set, respectively cleared; doing the same setting twice
gives the same descriptor table as doing it once; and on a descriptor that
was blocking, `csocket_set_block(fd, 1)` after `csocket_set_block(fd, 0)` gives
back the original descriptor table. -/
theorem csocket_set_block_only_nonblock (K : Hdr) (fd on' f : Int) (w : World)
    (hopen : w.fdflags fd = some f) :
    ((csocket_set_block K fd on' w).fdflags fd = some (setBlockFlags K on' f) ∧
      setBlockFlags K on' f =
        if on' = 0 then Int.lor f K.O_NONBLOCK else Int.land f (Int.lnot K.O_NONBLOCK)) ∧
    ((∀ d, d ≠ fd → (csocket_set_block K fd on' w).fdflags d = w.fdflags d) ∧
      (csocket_set_block K fd on' w).sigpipeIgnored = w.sigpipeIgnored ∧
      (csocket_set_block K fd on' w).errno = w.errno ∧
      issued w (csocket_set_block K fd on' w) =
        [.fcntlGetfl fd, .fcntlSetfl fd (setBlockFlags K on' f)]) ∧
    ((∀ k, Int.testBit K.O_NONBLOCK k = false →
        Int.testBit (setBlockFlags K on' f) k = Int.testBit f k) ∧
      (∀ k, Int.testBit K.O_NONBLOCK k = true →
        Int.testBit (setBlockFlags K on' f) k = decide (on' = 0))) ∧
    (csocket_set_block K fd on' (csocket_set_block K fd on' w)).fdflags =
      (csocket_set_block K fd on' w).fdflags ∧
    (Int.land f K.O_NONBLOCK = 0 →
      (csocket_set_block K fd 1 (csocket_set_block K fd 0 w)).fdflags = w.fdflags) := by
  have hfl := csocket_set_block_fdflags_open K fd on' f w hopen
  refine ⟨⟨by simp [hfl], rfl⟩, ⟨?_, by simp, csocket_set_block_errno K fd on' w, ?_⟩, ⟨?_, ?_⟩,
    ?_, ?_⟩
  · intro d hd
    simp [hfl, hd]
  · apply issued_of_trace
    simp [fcntl_getfl, hopen]
  · intro k hk
    rw [testBit_setBlockFlags, hk]
    split <;> simp
  · intro k hk
    rw [testBit_setBlockFlags, hk]
    by_cases h0 : on' = 0 <;> simp [h0]
  · have h1 : (csocket_set_block K fd on' w).fdflags fd = some (setBlockFlags K on' f) := by
      simp [hfl]
    rw [csocket_set_block_fdflags_open K fd on' _ _ h1, hfl, setBlockFlags_idem]
    funext d
    by_cases hd : d = fd <;> simp [hd]
  · intro hblocking
    have h1 : (csocket_set_block K fd 0 w).fdflags fd = some (setBlockFlags K 0 f) := by
      simp [csocket_set_block_fdflags_open K fd 0 f w hopen]
    rw [csocket_set_block_fdflags_open K fd 1 _ _ h1,
      csocket_set_block_fdflags_open K fd 0 f w hopen, setBlockFlags_restore K f hblocking]
    funext d
    by_cases hd : d = fd
    · simp [hd, hopen]
    · simp [hd]

/-- C11 for descriptor 5, open with flag word 2, switched to non-blocking mode. -/
theorem csocket_set_block_only_nonblock_witness :
    ((csocket_set_block sampleHdr 5 0 sampleOpenWorld).fdflags 5 =
        some (setBlockFlags sampleHdr 0 2) ∧
      setBlockFlags sampleHdr 0 2 =
        if (0 : Int) = 0 then Int.lor 2 sampleHdr.O_NONBLOCK
        else Int.land 2 (Int.lnot sampleHdr.O_NONBLOCK)) ∧
    ((∀ d, d ≠ 5 → (csocket_set_block sampleHdr 5 0 sampleOpenWorld).fdflags d =
        sampleOpenWorld.fdflags d) ∧
      (csocket_set_block sampleHdr 5 0 sampleOpenWorld).sigpipeIgnored =
        sampleOpenWorld.sigpipeIgnored ∧
      (csocket_set_block sampleHdr 5 0 sampleOpenWorld).errno = sampleOpenWorld.errno ∧
      issued sampleOpenWorld (csocket_set_block sampleHdr 5 0 sampleOpenWorld) =
        [.fcntlGetfl 5, .fcntlSetfl 5 (setBlockFlags sampleHdr 0 2)]) ∧
    ((∀ k, Int.testBit sampleHdr.O_NONBLOCK k = false →
        Int.testBit (setBlockFlags sampleHdr 0 2) k = Int.testBit 2 k) ∧
      (∀ k, Int.testBit sampleHdr.O_NONBLOCK k = true →
        Int.testBit (setBlockFlags sampleHdr 0 2) k = decide ((0 : Int) = 0))) ∧
    (csocket_set_block sampleHdr 5 0 (csocket_set_block sampleHdr 5 0 sampleOpenWorld)).fdflags =
      (csocket_set_block sampleHdr 5 0 sampleOpenWorld).fdflags ∧
    (Int.land 2 sampleHdr.O_NONBLOCK = 0 →
      (csocket_set_block sampleHdr 5 1 (csocket_set_block sampleHdr 5 0 sampleOpenWorld)).fdflags =
        sampleOpenWorld.fdflags) :=
  csocket_set_block_only_nonblock sampleHdr 5 0 2 sampleOpenWorld rfl

/-- C12: `csocket_bytes_available` issues one FIONREAD query and nothing else;
when the query does not fail (its result is not negative) the function returns
the byte count the query reported, and when the query fails it returns the
query's negative result; so, for a reported count that is not negative, the
function's result is negative exactly when the query failed. -/
theorem csocket_bytes_available_result (callResult count socketfd : Int) (w : World) :
    (0 ≤ callResult → (csocket_bytes_available (callResult, count) socketfd w).1 = count) ∧
    (callResult < 0 →
      (csocket_bytes_available (callResult, count) socketfd w).1 = callResult ∧
      (csocket_bytes_available (callResult, count) socketfd w).1 < 0) ∧
    (0 ≤ count →
      ((csocket_bytes_available (callResult, count) socketfd w).1 < 0 ↔ callResult < 0)) ∧
    issued w (csocket_bytes_available (callResult, count) socketfd w).2 =
      [.ioctlFionread socketfd] ∧
    (csocket_bytes_available (callResult, count) socketfd w).2.fdflags = w.fdflags ∧
    (csocket_bytes_available (callResult, count) socketfd w).2.sigpipeIgnored =
      w.sigpipeIgnored := by
  have hv : (csocket_bytes_available (callResult, count) socketfd w).1 =
      if callResult < 0 then callResult else count := rfl
  refine ⟨?_, ?_, ?_, issued_of_trace rfl, rfl, rfl⟩
  · intro h
    rw [hv, if_neg (by omega)]
  · intro h
    rw [hv, if_pos h]
    exact ⟨rfl, h⟩
  · intro h
    rw [hv]
    split <;> omega

/-- C12 for a query that succeeds with 42 readable bytes on descriptor 5. -/
theorem csocket_bytes_available_result_witness :
    ((0 : Int) ≤ 0 → (csocket_bytes_available (0, 42) 5 sampleOpenWorld).1 = 42) ∧
    ((0 : Int) < 0 →
      (csocket_bytes_available (0, 42) 5 sampleOpenWorld).1 = 0 ∧
      (csocket_bytes_available (0, 42) 5 sampleOpenWorld).1 < 0) ∧
    ((0 : Int) ≤ 42 →
      ((csocket_bytes_available (0, 42) 5 sampleOpenWorld).1 < 0 ↔ (0 : Int) < 0)) ∧
    issued sampleOpenWorld (csocket_bytes_available (0, 42) 5 sampleOpenWorld).2 =
      [.ioctlFionread 5] ∧
    (csocket_bytes_available (0, 42) 5 sampleOpenWorld).2.fdflags = sampleOpenWorld.fdflags ∧
    (csocket_bytes_available (0, 42) 5 sampleOpenWorld).2.sigpipeIgnored =
      sampleOpenWorld.sigpipeIgnored :=
  csocket_bytes_available_result 0 42 5 sampleOpenWorld

/-- C15: for a finite timeout `0 < T` (an `int`, so at most 2147483647) and
whatever the environment answers, whenever the loop is at the top of an
iteration with budget `remaining`: `0 < remaining ≤ T`, `remaining` plus the
durations of the waits that timed out so far is exactly `T`, and the
subtraction `remaining - waitDuration` of that iteration stays within
`0 .. 2147483647`, so it does not wrap.  The budget never increases from one
iteration to a later one, and a run that ends at the timed-out return
statement has charged exactly `T`. -/
theorem csocket_connect_budget_invariant (K : Hdr) (env : Env) (host : String) (port T : Int)
    (cancelFlag : Option (Nat → Int)) (w : World) (hT : 0 < T) (hmax : T ≤ 2147483647) :
    (∀ n r w', csocket_connect K env host port T cancelFlag n w = .running r w' →
      0 < r ∧ r ≤ T ∧ r + (timedOutSlices (issued w w')).sum = T ∧
      wrapInt32 (r - waitDuration false r) = r - waitDuration false r ∧
      0 ≤ r - waitDuration false r ∧ r - waitDuration false r ≤ 2147483647) ∧
    (∀ n m r r' w' w'', csocket_connect K env host port T cancelFlag n w = .running r w' →
      csocket_connect K env host port T cancelFlag (n + m) w = .running r' w'' → r' ≤ r) ∧
    (∀ n c w', csocket_connect K env host port T cancelFlag n w = .returned .timedOut c w' →
      (timedOutSlices (issued w w')).sum = T) := by
  have hinf : decide (T ≤ 0) = false := by simp; omega
  have key : ∀ n r w', csocket_connect K env host port T cancelFlag n w = .running r w' →
      0 < r ∧ r ≤ T ∧ r + (timedOutSlices (issued w w')).sum = T :=
    fun n r w' h =>
      csocket_connect_running_budget K env cancelFlag host port T n w r w' hT hmax h
  refine ⟨?_, ?_, ?_⟩
  · intro n r w' h
    obtain ⟨h0, hle, hsum⟩ := key n r w' h
    have hd := waitDuration_finite r h0
    refine ⟨h0, hle, hsum, ?_, ?_, ?_⟩
    · exact wrapInt32_id _ (by rw [hd]; split <;> omega) (by rw [hd]; split <;> omega)
    · rw [hd]; split <;> omega
    · rw [hd]; split <;> omega
  · intro n m r r' w' w'' h1 h2
    obtain ⟨h0, hle, -⟩ := key n r w' h1
    obtain ⟨hp, hres, -, hl1⟩ := csocket_connect_running K env cancelFlag host port T n w r w' h1
    obtain ⟨hp', hres', -, hl2⟩ :=
      csocket_connect_running K env cancelFlag host port T (n + m) w r' w'' h2
    obtain rfl : hp = hp' := by rw [hres] at hres'; exact Option.some.inj hres'
    rw [waitLoop_add, hl1] at hl2
    rw [hinf] at hl2
    obtain ⟨tr, -, -, hle', -⟩ := waitLoop_budget K env cancelFlag env.sockfd r w' (by omega) m
      (0 + n) r w' ⟨[], by simp, h0, le_refl _, by simp⟩ r' w'' hl2
    exact hle'
  · intro n c w' h
    rcases csocket_connect_returned K env cancelFlag host port T n w _ c w' h with
      ⟨-, hs, -⟩ | ⟨-, -, -, hs, -⟩ | ⟨hp, -, -, -, -, hres, hconn, -⟩
    · cases hs
    · cases hs
    · rw [csocket_connect_pending K env cancelFlag host port T n w hp hres hconn, hinf] at h
      obtain ⟨tr, htr, hsum⟩ := waitLoop_budget_exhausted K env cancelFlag env.sockfd T
        (afterConnect K env host port hp w) hmax n 0 T _ ⟨[], by simp, hT, le_refl _, by simp⟩
        c w' h
      rw [afterConnect_trace, List.append_assoc] at htr
      rw [issued_of_trace htr]
      simpa using hsum

/-- C15 for a budget of 250 ms. -/
theorem csocket_connect_budget_invariant_witness :
    (∀ n r w', csocket_connect sampleHdr sampleEnv "host" 80 250 none n sampleWorld =
        .running r w' →
      0 < r ∧ r ≤ 250 ∧ r + (timedOutSlices (issued sampleWorld w')).sum = 250 ∧
      wrapInt32 (r - waitDuration false r) = r - waitDuration false r ∧
      0 ≤ r - waitDuration false r ∧ r - waitDuration false r ≤ 2147483647) ∧
    (∀ n m r r' w' w'', csocket_connect sampleHdr sampleEnv "host" 80 250 none n sampleWorld =
        .running r w' →
      csocket_connect sampleHdr sampleEnv "host" 80 250 none (n + m) sampleWorld =
        .running r' w'' → r' ≤ r) ∧
    (∀ n c w', csocket_connect sampleHdr sampleEnv "host" 80 250 none n sampleWorld =
        .returned .timedOut c w' →
      (timedOutSlices (issued sampleWorld w')).sum = 250) :=
  csocket_connect_budget_invariant sampleHdr sampleEnv "host" 80 250 none sampleWorld
    (by decide) (by decide)

/-- C13: for a timeout that is an `int` (at most 2147483647), whenever the loop
is at the top of iteration `n` with budget `remaining`, the duration computed
for that iteration is `min(100, remaining)` when the timeout is finite and 100
when it is zero or negative; it lies between 1 and 100, does not exceed
`remaining` in finite mode, and, unless the flag is seen set, the call issued
right after the read of the flag is `select` with `tv_sec = 0` and
`tv_usec = duration * 1000 < 1000000`.  Every `select` call in the trace of any
run has a `timeval` of this form, and it encodes exactly that duration. -/
theorem csocket_connect_slice (K : Hdr) (env : Env) (host : String) (port T : Int)
    (cancelFlag : Option (Nat → Int)) (w : World) (hmax : T ≤ 2147483647) :
    (∀ n r w', csocket_connect K env host port T cancelFlag n w = .running r w' →
      waitDuration (decide (T ≤ 0)) r = (if T ≤ 0 then 100 else min 100 r) ∧
      1 ≤ waitDuration (decide (T ≤ 0)) r ∧ waitDuration (decide (T ≤ 0)) r ≤ 100 ∧
      (0 < T → waitDuration (decide (T ≤ 0)) r ≤ r) ∧
      waitDuration (decide (T ≤ 0)) r * 1000 < 1000000 ∧
      (cancelSeen cancelFlag n = false → ∃ rest,
        issued w (csocket_connect K env host port T cancelFlag (n + 1) w).world =
          issued w w' ++ cancelReads cancelFlag n ++
            .select (wrapInt32 (env.sockfd + 1)) env.sockfd 0
              (waitDuration (decide (T ≤ 0)) r * 1000) (env.waits n).retval :: rest)) ∧
    (∀ fuel e, e ∈ issued w (csocket_connect K env host port T cancelFlag fuel w).world →
      e.isSelect = true →
      ∃ d ret, e = .select (wrapInt32 (env.sockfd + 1)) env.sockfd 0 (d * 1000) ret ∧
        1 ≤ d ∧ d ≤ 100 ∧ d * 1000 < 1000000 ∧ (T ≤ 0 → d = 100) ∧ e.waitMs = some d) := by
  refine ⟨?_, ?_⟩
  · intro n r w' h
    have hb := waitDuration_bounds (decide (T ≤ 0)) r
    obtain ⟨hp, hres, hconn, hl⟩ := csocket_connect_running K env cancelFlag host port T n w r w' h
    have hval : waitDuration (decide (T ≤ 0)) r = (if T ≤ 0 then 100 else min 100 r) ∧
        (0 < T → waitDuration (decide (T ≤ 0)) r ≤ r) := by
      by_cases hT : T ≤ 0
      · have hinf : decide (T ≤ 0) = true := by simpa using hT
        rw [hinf, waitDuration_infinite, if_pos hT]
        exact ⟨rfl, fun h0 => by omega⟩
      · have hinf : decide (T ≤ 0) = false := by simpa using hT
        obtain ⟨h0, -, -⟩ := csocket_connect_running_budget K env cancelFlag host port T n w r w'
          (by omega) hmax h
        rw [hinf, waitDuration_finite r h0, if_neg hT]
        constructor
        · split <;> omega
        · intro _; split <;> omega
    refine ⟨hval.1, hb.1, hb.2, hval.2, by omega, ?_⟩
    intro hc
    obtain ⟨tr0, htr0⟩ := waitLoop_trace K env cancelFlag env.sockfd (decide (T ≤ 0)) n 0 T
      (afterConnect K env host port hp w)
    rw [hl] at htr0
    simp only [Run.world] at htr0
    obtain ⟨tr, htr, -, hshape⟩ :=
      loopBody_events K env cancelFlag env.sockfd (decide (T ≤ 0)) n r w'
    obtain ⟨rest, hrest⟩ := hshape hc
    refine ⟨rest, ?_⟩
    have hw1 : (csocket_connect K env host port T cancelFlag (n + 1) w).world =
        (loopBody K env cancelFlag env.sockfd (decide (T ≤ 0)) n r w').world := by
      rw [csocket_connect_pending K env cancelFlag host port T (n + 1) w hp hres hconn,
        waitLoop_add, hl]
      simp only [Nat.zero_add]
      exact waitLoop_one_world K env cancelFlag env.sockfd (decide (T ≤ 0)) n r w'
    rw [afterConnect_trace, List.append_assoc] at htr0
    rw [hw1, issued_of_trace htr0]
    apply issued_of_trace
    rw [htr, htr0, hrest, selectEvent_shape]
    simp
  · intro fuel e he hs
    have hwm : ∀ d ret : Int,
        (Event.select (wrapInt32 (env.sockfd + 1)) env.sockfd 0 (d * 1000) ret).waitMs =
          some d := by
      intro d ret
      simp [Event.waitMs]
    cases hres : env.resolve host with
    | none =>
      rw [csocket_connect_unresolved K env cancelFlag host port T fuel w hres] at he
      have hi : issued w (w.log (.gethostbyname host false)) = [.gethostbyname host false] :=
        issued_of_trace rfl
      simp only [Run.world] at he
      rw [hi, List.mem_singleton] at he
      subst he; cases hs
    | some hp =>
      by_cases hc : env.connectResult = 0
      · rw [csocket_connect_immediate K env cancelFlag host port T fuel w hp hres hc] at he
        obtain ⟨-, -, h3⟩ :=
          handle_world K env.sockfd w _ _ (afterConnect_trace K env host port hp w)
        simp only [Run.world] at he
        rw [h3] at he
        simp only [prologue, List.mem_append, List.mem_cons, List.mem_singleton,
          List.not_mem_nil, or_false] at he
        rcases he with (h | h | h | h | h) | h | h | h <;> subst h <;> cases hs
      · rw [csocket_connect_pending K env cancelFlag host port T fuel w hp hres hc] at he
        obtain ⟨tr, htr, hshape⟩ := waitLoop_selects K env cancelFlag env.sockfd
          (decide (T ≤ 0)) fuel 0 T (afterConnect K env host port hp w)
        rw [afterConnect_trace, List.append_assoc] at htr
        rw [issued_of_trace htr] at he
        rcases List.mem_append.1 he with h | h
        · simp only [prologue, List.mem_cons, List.mem_singleton, List.not_mem_nil,
            or_false] at h
          rcases h with h | h | h | h | h <;> subst h <;> cases hs
        · obtain ⟨d, ret, hed, h1, h2, h3⟩ := hshape e h hs
          refine ⟨d, ret, hed, h1, h2, by omega, ?_, ?_⟩
          · intro hT; exact h3 (by simpa using hT)
          · rw [hed]; exact hwm d ret

/-- C13 for a timeout of 250 ms. -/
theorem csocket_connect_slice_witness :
    (∀ n r w', csocket_connect sampleHdr sampleEnv "host" 80 250 none n sampleWorld =
        .running r w' →
      waitDuration (decide ((250 : Int) ≤ 0)) r = (if (250 : Int) ≤ 0 then 100 else min 100 r) ∧
      1 ≤ waitDuration (decide ((250 : Int) ≤ 0)) r ∧
      waitDuration (decide ((250 : Int) ≤ 0)) r ≤ 100 ∧
      ((0 : Int) < 250 → waitDuration (decide ((250 : Int) ≤ 0)) r ≤ r) ∧
      waitDuration (decide ((250 : Int) ≤ 0)) r * 1000 < 1000000 ∧
      (cancelSeen none n = false → ∃ rest,
        issued sampleWorld (csocket_connect sampleHdr sampleEnv "host" 80 250 none (n + 1)
            sampleWorld).world =
          issued sampleWorld w' ++ cancelReads none n ++
            .select (wrapInt32 (sampleEnv.sockfd + 1)) sampleEnv.sockfd 0
              (waitDuration (decide ((250 : Int) ≤ 0)) r * 1000) (sampleEnv.waits n).retval ::
                rest)) ∧
    (∀ fuel e,
      e ∈ issued sampleWorld (csocket_connect sampleHdr sampleEnv "host" 80 250 none fuel
        sampleWorld).world →
      e.isSelect = true →
      ∃ d ret, e = .select (wrapInt32 (sampleEnv.sockfd + 1)) sampleEnv.sockfd 0 (d * 1000) ret ∧
        1 ≤ d ∧ d ≤ 100 ∧ d * 1000 < 1000000 ∧ ((250 : Int) ≤ 0 → d = 100) ∧
        e.waitMs = some d) :=
  csocket_connect_slice sampleHdr sampleEnv "host" 80 250 none sampleWorld (by decide)

/-- C14: let the loop be at the top of iteration `n` (with any budget
`remaining`, for any timeout), let the check of the cancel flag in that
iteration find it unset, and let the wait of that iteration report the socket
ready (`select` positive).  Then the call returns in that iteration, whatever
the cancel flag holds afterwards: with a non-zero pending error it returns -4
after `getsockopt` and `close`, leaving the descriptor closed; with a zero
pending error it returns the socket after `csocket_set_block(sockfd, 1)` and
`signal(SIGPIPE, SIG_IGN)`, without closing it. -/
theorem csocket_connect_ready_decides (K : Hdr) (env : Env) (host : String) (port T : Int)
    (cancelFlag : Option (Nat → Int)) (w : World) (n : Nat) (r : Int) (w' : World)
    (hreach : csocket_connect K env host port T cancelFlag n w = .running r w')
    (hunset : cancelSeen cancelFlag n = false) (hready : 0 < (env.waits n).retval)
    (extra : Nat) :
    (env.soError ≠ 0 →
      ∃ w2, csocket_connect K env host port T cancelFlag (n + 1 + extra) w =
          .returned .connectError (-4) w2 ∧
        issued w w2 = issued w w' ++ cancelReads cancelFlag n ++
          [selectEvent env env.sockfd (decide (T ≤ 0)) n r,
            .getsockopt env.sockfd env.soError, .close env.sockfd] ∧
        w2.fdflags env.sockfd = none) ∧
    (env.soError = 0 →
      ∃ w2, csocket_connect K env host port T cancelFlag (n + 1 + extra) w =
          .returned .ready env.sockfd w2 ∧
        (∃ f, issued w w2 = issued w w' ++ cancelReads cancelFlag n ++
          [selectEvent env env.sockfd (decide (T ≤ 0)) n r,
            .getsockopt env.sockfd env.soError, .fcntlGetfl env.sockfd,
            .fcntlSetfl env.sockfd f, .signalIgnore] ∧ Int.land f K.O_NONBLOCK = 0) ∧
        w2.sigpipeIgnored = true ∧
        (issued w w2).filter Event.isClose = (issued w w').filter Event.isClose) := by
  have hb := loopBody_eq K env cancelFlag env.sockfd (decide (T ≤ 0)) n r w'
  rw [if_neg (by simp [hunset]), if_neg (by omega), if_neg (by omega)] at hb
  have hstep := csocket_connect_running_succ K env cancelFlag host port T n w r w' hreach
  have htr := csocket_connect_running_trace K env cancelFlag host port T n w r w' hreach
  refine ⟨?_, ?_⟩
  · intro herr
    rw [if_pos herr] at hb
    rw [hb] at hstep
    refine ⟨_, csocket_connect_fuel_mono K env cancelFlag host port T (n + 1) extra w _ _ _ hstep,
      ?_, by simp⟩
    apply issued_of_trace
    rw [os_close_trace, os_getsockopt_trace, afterSelect_trace, htr]
    simp [issued]
  · intro herr
    rw [if_neg (by simp [herr])] at hb
    rw [hb] at hstep
    have htr2 : (os_getsockopt env env.sockfd
        (afterSelect env cancelFlag env.sockfd (decide (T ≤ 0)) n r w')).2.trace =
        w.trace ++ (issued w w' ++ cancelReads cancelFlag n ++
          [selectEvent env env.sockfd (decide (T ≤ 0)) n r,
            .getsockopt env.sockfd env.soError]) := by
      rw [os_getsockopt_trace, afterSelect_trace, htr]
      simp [issued]
    obtain ⟨h1, -, h3⟩ := handle_world K env.sockfd w _ _ htr2
    refine ⟨_, csocket_connect_fuel_mono K env cancelFlag host port T (n + 1) extra w _ _ _ hstep,
      ⟨setBlockFlags K 1 (fcntl_getfl env.sockfd (os_getsockopt env env.sockfd
        (afterSelect env cancelFlag env.sockfd (decide (T ≤ 0)) n r w')).2).1, ?_,
        setBlockFlags_one_clear K _⟩, h1, ?_⟩
    · rw [h3]; simp
    · rw [h3]; simp [List.filter_cons]

/-- C14 for a socket that is reported ready by the second wait with the pending
error ECONNREFUSED (111). -/
theorem csocket_connect_ready_decides_witness :
    ((sampleReadyEnv 111).soError ≠ 0 →
      ∃ w2, csocket_connect sampleHdr (sampleReadyEnv 111) "host" 80 250 none (1 + 1 + 0)
          sampleWorld = .returned .connectError (-4) w2 ∧
        issued sampleWorld w2 =
          issued sampleWorld (csocket_connect sampleHdr (sampleReadyEnv 111) "host" 80 250 none 1
            sampleWorld).world ++ cancelReads none 1 ++
          [selectEvent (sampleReadyEnv 111) (sampleReadyEnv 111).sockfd (decide ((250 : Int) ≤ 0))
              1 150,
            .getsockopt (sampleReadyEnv 111).sockfd (sampleReadyEnv 111).soError,
            .close (sampleReadyEnv 111).sockfd] ∧
        w2.fdflags (sampleReadyEnv 111).sockfd = none) ∧
    ((sampleReadyEnv 111).soError = 0 →
      ∃ w2, csocket_connect sampleHdr (sampleReadyEnv 111) "host" 80 250 none (1 + 1 + 0)
          sampleWorld = .returned .ready (sampleReadyEnv 111).sockfd w2 ∧
        (∃ f, issued sampleWorld w2 =
          issued sampleWorld (csocket_connect sampleHdr (sampleReadyEnv 111) "host" 80 250 none 1
            sampleWorld).world ++ cancelReads none 1 ++
          [selectEvent (sampleReadyEnv 111) (sampleReadyEnv 111).sockfd (decide ((250 : Int) ≤ 0))
              1 150,
            .getsockopt (sampleReadyEnv 111).sockfd (sampleReadyEnv 111).soError,
            .fcntlGetfl (sampleReadyEnv 111).sockfd,
            .fcntlSetfl (sampleReadyEnv 111).sockfd f, .signalIgnore] ∧
          Int.land f sampleHdr.O_NONBLOCK = 0) ∧
        w2.sigpipeIgnored = true ∧
        (issued sampleWorld w2).filter Event.isClose =
          (issued sampleWorld (csocket_connect sampleHdr (sampleReadyEnv 111) "host" 80 250 none 1
            sampleWorld).world).filter Event.isClose) :=
  csocket_connect_ready_decides sampleHdr (sampleReadyEnv 111) "host" 80 250 none sampleWorld 1
    150 _ rfl rfl (by decide) 0

/-- C16 as stated fails in its last part: a call with a null cancel flag whose
host does not resolve ends by returning -1 from the first return statement,
which is none of immediate success, readiness, wait failure or budget
exhaustion (no `connect` and no `select` is issued). -/
theorem csocket_connect_null_flag_counterexample :
    (csocket_connect sampleHdr { sampleEnv with resolve := fun _ => none } "host" 80 250 none 4
      sampleWorld).site? = some .resolutionFailed ∧
    (csocket_connect sampleHdr { sampleEnv with resolve := fun _ => none } "host" 80 250 none 4
      sampleWorld).code? = some (-1) ∧
    issued sampleWorld (csocket_connect sampleHdr { sampleEnv with resolve := fun _ => none }
      "host" 80 250 none 4 sampleWorld).world = [.gethostbyname "host" false] :=
  ⟨rfl, rfl, rfl⟩

/-- C16, amended: when `csocket_connect` is called with a null cancel flag, for
every environment and every iteration bound, the flag is never read (no read
of it appears among the calls issued), no run ends at the cancellation return
statement, and -5 is not returned as long as `socket` gives -1 or a
descriptor; a run that returns ends by resolution failure, by immediate
success of `connect`, by readiness of the socket (returning the socket or -4),
by a wait failure other than EINTR, or, for a finite timeout only, by
exhaustion of the budget on a timed-out wait. -/
theorem csocket_connect_null_flag (K : Hdr) (env : Env) (host : String) (port T : Int)
    (fuel : Nat) (w : World) :
    (∀ e ∈ issued w (csocket_connect K env host port T none fuel w).world,
      e.isReadCancel = false) ∧
    (csocket_connect K env host port T none fuel w).site? ≠ some .cancelled ∧
    (-1 ≤ env.sockfd → (csocket_connect K env host port T none fuel w).code? ≠ some (-5)) ∧
    (∀ s, (csocket_connect K env host port T none fuel w).site? = some s →
      (s = .resolutionFailed ∧ env.resolve host = none) ∨
      (s = .immediate ∧ env.connectResult = 0) ∨
      ((s = .ready ∨ s = .connectError) ∧ ∃ j, j < fuel ∧ 0 < (env.waits j).retval) ∨
      (s = .waitFailed ∧
        ∃ j, j < fuel ∧ (env.waits j).retval < 0 ∧ (env.waits j).err ≠ K.EINTR) ∨
      (s = .timedOut ∧ 0 < T ∧ ∃ j, j < fuel ∧ (env.waits j).retval = 0)) := by
  have key : ∀ s c w', csocket_connect K env host port T none fuel w = .returned s c w' →
      s ≠ .cancelled ∧ (-1 ≤ env.sockfd → c ≠ -5) ∧
      ((s = .resolutionFailed ∧ env.resolve host = none) ∨
        (s = .immediate ∧ env.connectResult = 0) ∨
        ((s = .ready ∨ s = .connectError) ∧ ∃ j, j < fuel ∧ 0 < (env.waits j).retval) ∨
        (s = .waitFailed ∧
          ∃ j, j < fuel ∧ (env.waits j).retval < 0 ∧ (env.waits j).err ≠ K.EINTR) ∨
        (s = .timedOut ∧ 0 < T ∧ ∃ j, j < fuel ∧ (env.waits j).retval = 0)) := by
    intro s c w' hr
    rcases csocket_connect_returned K env none host port T fuel w s c w' hr with
      ⟨hn, hs, hc, -⟩ | ⟨hp, -, hc0, hs, hc, -⟩ | ⟨hp, j, r1, w1, tr, -, -, hj, hbody, -⟩
    · subst hs hc
      exact ⟨by simp, fun _ => by omega, Or.inl ⟨rfl, hn⟩⟩
    · subst hs hc
      exact ⟨by simp, fun h => by omega, Or.inr (Or.inl ⟨rfl, hc0⟩)⟩
    · rcases loopBody_ret K env none env.sockfd _ j r1 w1 s c w' hbody with
        ⟨-, -, hseen, -⟩ | ⟨hs, hc, -, hneg, herr, -⟩ | ⟨hs, hc, -, hz, hfin, -⟩ |
        ⟨hs, hc, -, hpos, -⟩ | ⟨hs, hc, -, hpos, -⟩
      · cases hseen
      · subst hs hc
        exact ⟨by simp, fun _ => by omega,
          Or.inr (Or.inr (Or.inr (Or.inl ⟨rfl, j, hj, hneg, herr⟩)))⟩
      · subst hs hc
        exact ⟨by simp, fun _ => by omega,
          Or.inr (Or.inr (Or.inr (Or.inr ⟨rfl, by simpa using hfin, j, hj, hz⟩)))⟩
      · subst hs hc
        exact ⟨by simp, fun _ => by omega, Or.inr (Or.inr (Or.inl ⟨Or.inr rfl, j, hj, hpos⟩))⟩
      · subst hs hc
        exact ⟨by simp, fun h => by omega, Or.inr (Or.inr (Or.inl ⟨Or.inl rfl, j, hj, hpos⟩))⟩
  refine ⟨?_, ?_, ?_, ?_⟩
  · intro e he
    cases hres : env.resolve host with
    | none =>
      rw [csocket_connect_unresolved K env none host port T fuel w hres] at he
      have hi : issued w (w.log (.gethostbyname host false)) = [.gethostbyname host false] :=
        issued_of_trace rfl
      simp only [Run.world] at he
      rw [hi, List.mem_singleton] at he
      subst he; rfl
    | some hp =>
      by_cases hc : env.connectResult = 0
      · rw [csocket_connect_immediate K env none host port T fuel w hp hres hc] at he
        obtain ⟨-, -, h3⟩ :=
          handle_world K env.sockfd w _ _ (afterConnect_trace K env host port hp w)
        simp only [Run.world] at he
        rw [h3] at he
        simp only [prologue, List.mem_append, List.mem_cons, List.mem_singleton,
          List.not_mem_nil, or_false] at he
        rcases he with (h | h | h | h | h) | h | h | h <;> subst h <;> rfl
      · rw [csocket_connect_pending K env none host port T fuel w hp hres hc] at he
        obtain ⟨tr, htr, hp2⟩ := waitLoop_events K env none env.sockfd (decide (T ≤ 0))
          (fun e => e.isReadCancel = false)
          (loopBody_null_events K env env.sockfd (decide (T ≤ 0))) fuel 0 T
          (afterConnect K env host port hp w)
        rw [afterConnect_trace, List.append_assoc] at htr
        rw [issued_of_trace htr] at he
        rcases List.mem_append.1 he with h | h
        · simp only [prologue, List.mem_cons, List.mem_singleton, List.not_mem_nil,
            or_false] at h
          rcases h with h | h | h | h | h <;> subst h <;> rfl
        · exact hp2 e h
  · cases hr : csocket_connect K env host port T none fuel w with
    | running r w' => simp [Run.site?]
    | returned s c w' =>
      simp only [Run.site?, ne_eq, Option.some.injEq]
      exact (key s c w' hr).1
  · intro hfd
    cases hr : csocket_connect K env host port T none fuel w with
    | running r w' => simp [Run.code?]
    | returned s c w' =>
      simp only [Run.code?, ne_eq, Option.some.injEq]
      exact (key s c w' hr).2.1 hfd
  · intro s hs
    cases hr : csocket_connect K env host port T none fuel w with
    | running r w' => rw [hr] at hs; simp [Run.site?] at hs
    | returned s' c w' =>
      rw [hr] at hs
      simp only [Run.site?, Option.some.injEq] at hs
      subst hs
      exact (key s' c w' hr).2.2

/-- C16 amended, for a call that times out after 250 ms. -/
theorem csocket_connect_null_flag_witness :
    (∀ e ∈ issued sampleWorld (csocket_connect sampleHdr sampleEnv "host" 80 250 none 3
        sampleWorld).world, e.isReadCancel = false) ∧
    (csocket_connect sampleHdr sampleEnv "host" 80 250 none 3 sampleWorld).site? ≠
      some .cancelled ∧
    (-1 ≤ sampleEnv.sockfd →
      (csocket_connect sampleHdr sampleEnv "host" 80 250 none 3 sampleWorld).code? ≠ some (-5)) ∧
    (∀ s, (csocket_connect sampleHdr sampleEnv "host" 80 250 none 3 sampleWorld).site? = some s →
      (s = .resolutionFailed ∧ sampleEnv.resolve "host" = none) ∨
      (s = .immediate ∧ sampleEnv.connectResult = 0) ∨
      ((s = .ready ∨ s = .connectError) ∧ ∃ j, j < 3 ∧ 0 < (sampleEnv.waits j).retval) ∨
      (s = .waitFailed ∧
        ∃ j, j < 3 ∧ (sampleEnv.waits j).retval < 0 ∧
          (sampleEnv.waits j).err ≠ sampleHdr.EINTR) ∨
      (s = .timedOut ∧ (0 : Int) < 250 ∧ ∃ j, j < 3 ∧ (sampleEnv.waits j).retval = 0)) :=
  csocket_connect_null_flag sampleHdr sampleEnv "host" 80 250 3 sampleWorld

end CSocketHelper
